import Mathlib

set_option linter.unusedVariables false

/-! Shallow embedding of the Customer 360 synthetic data generator
(`src/use-cases/customer-360/generator.py`) together with the batch
persistence step and the batch-loading client (`src/clickhouse.py`).

Pseudorandomness is modelled by explicit streams of naturals:
* `rnd` — Python's `random` module, seeded by `random.seed(seed)`;
* `fkr` — the Faker generator, seeded by `Faker.seed(seed)`;
* `npr` — NumPy's global generator (`np.random.poisson`), never seeded
  by the code;
* `ent` — the OS entropy behind `uuid.uuid4()`, never seeded.

Floats are modelled as rationals and datetimes as integer minutes since
an arbitrary epoch (`now` is the wall-clock instant of the run). -/

/-- A pseudorandom source: an infinite stream of naturals and a cursor. -/
structure RSrc where
  stream : Nat → Nat
  pos : Nat

/-- Draw the next raw natural from a source. -/
def RSrc.next (s : RSrc) : Nat × RSrc := (s.stream s.pos, ⟨s.stream, s.pos + 1⟩)

/-- The bundle of pseudorandom sources available to the generator. -/
structure Streams where
  rnd : RSrc
  fkr : RSrc
  npr : RSrc
  ent : RSrc

def nextRnd (s : Streams) : Nat × Streams :=
  let (n, r) := s.rnd.next
  (n, { s with rnd := r })

def nextFkr (s : Streams) : Nat × Streams :=
  let (n, r) := s.fkr.next
  (n, { s with fkr := r })

/-- Granularity of the `[0,1)` draws of `random.random()`. -/
def unitDenom : Nat := 1000000

/-- Model of `random.random()`: a rational in `[0, 1)`. -/
def Streams.random (s : Streams) : ℚ × Streams :=
  let (n, s1) := nextRnd s
  (((n % unitDenom : Nat) : ℚ) / (unitDenom : ℚ), s1)

/-- Model of `random.randint(lo, hi)` (both bounds inclusive). -/
def Streams.randint (s : Streams) (lo hi : Int) : Int × Streams :=
  let (n, s1) := nextRnd s
  (lo + (n : Int) % (hi - lo + 1), s1)

/-- Model of `random.uniform(a, b)`. -/
def Streams.uniform (s : Streams) (a b : ℚ) : ℚ × Streams :=
  let (u, s1) := s.random
  (a + (b - a) * u, s1)

/-- Model of `random.choice(seq)`; `none` models the `IndexError` raised
on an empty sequence. -/
def Streams.choice {α : Type} (s : Streams) (l : List α) : Option α × Streams :=
  let (n, s1) := nextRnd s
  (l.get? (n % l.length), s1)

/-- Model of `uuid.uuid4()`: a draw from OS entropy, independent of every
seeded generator. -/
def Streams.uuid4 (s : Streams) : Nat × Streams :=
  let (n, e) := s.ent.next
  (n, { s with ent := e })

/-- Model of `np.random.poisson(lam)`: a draw from NumPy's global
generator (which the code never seeds); the shape of the sampled
distribution is abstracted away, only the stream consumption is kept. -/
def Streams.poisson (s : Streams) (lam : ℚ) : Nat × Streams :=
  let (n, p) := s.npr.next
  (n, { s with npr := p })

def dayMinutes (d : Int) : Int := d * 1440

/-- Model of `fake.date_between(start_date=..., end_date='today')`:
a day within the last `daysBack` days, drawn from the Faker stream. -/
def Streams.fakeDateBetween (s : Streams) (now : Int) (daysBack : Nat) : Int × Streams :=
  let (n, s1) := nextFkr s
  (now - dayMinutes ((n % (daysBack + 1) : Nat) : Int), s1)

/-- Model of `fake.date_time_between(start_date=..., end_date='now')`,
at minute resolution. -/
def Streams.fakeDateTimeBetween (s : Streams) (now : Int) (minutesBack : Nat) : Int × Streams :=
  let (n, s1) := nextFkr s
  (now - ((n % (minutesBack + 1) : Nat) : Int), s1)

/-- Model of `fake.email()`. -/
def Streams.fakeEmail (s : Streams) : String × Streams :=
  let (n, s1) := nextFkr s
  ("user" ++ Nat.repr n ++ "@example.org", s1)

/-- Model of `fake.name()`. -/
def Streams.fakeName (s : Streams) : String × Streams :=
  let (n, s1) := nextFkr s
  ("Name " ++ Nat.repr n, s1)

/-- Model of `random.sample(l, k)`: `k` elements chosen one by one
without replacement (distinct positions of `l`). -/
def sampleAux {α : Type} : Nat → List α → Streams → List α × Streams
  | 0, _, s => ([], s)
  | _ + 1, [], s => ([], s)
  | k + 1, x :: xs, s =>
    let (n, s1) := nextRnd s
    let i := n % (x :: xs).length
    let y := (x :: xs).getD i x
    let rest := (x :: xs).eraseIdx i
    let (ys, s2) := sampleAux k rest s1
    (y :: ys, s2)

/-- Cumulative weights, as built by `itertools.accumulate` inside
`random.choices`. -/
def cumWeights : List ℚ → List ℚ
  | [] => []
  | w :: ws => w :: (cumWeights ws).map (fun c => w + c)

/-- Model of the index selection of `random.choices(pop, weights=ws)`:
`bisect.bisect_right` of `u * total` within the cumulative weights,
clamped to `len(pop) - 1`.  On a sorted list `bisect_right` equals the
number of entries `≤` the key. -/
def choicesIdx (ws : List ℚ) (u : ℚ) : Nat :=
  min ((cumWeights ws).countP (fun c => decide (c ≤ u * ws.sum))) (ws.length - 1)

/-- Model of `random.choices(pop, weights=ws)[0]`, validation included:
CPython (3.9+) totals the weights before any draw and raises
`ValueError('Total of weights must be greater than zero')` when the
total is not positive; with a positive total one unit draw selects by
bisecting the cumulative weights. -/
def Streams.choicesW {α : Type} (s : Streams) (pop : List α) (ws : List ℚ) :
    Except String (Option α × Streams) :=
  if ws.sum ≤ 0 then Except.error "Total of weights must be greater than zero"
  else
    let (u, s1) := s.random
    Except.ok (pop.get? (choicesIdx ws u), s1)

/-- Model of `round(x, 2)` on floats. -/
def round2 (x : ℚ) : ℚ := ((round (x * 100) : ℤ) : ℚ) / 100

/-- Python substring containment `pat in hay`. -/
def strContains (hay pat : String) : Bool := decide (List.IsInfix pat.toList hay.toList)

/-! ## Data model -/

structure Customer where
  customer_id : Nat
  email : String
  name : String
  segment : String
  ltv : ℚ
  registration_date : Int
  created_at : Int
deriving Repr, DecidableEq

structure Product where
  product_id : Nat
  name : String
  category : String
  brand : String
  price : ℚ
  launch_date : Int
  created_at : Int
deriving Repr, DecidableEq

structure Txn where
  transaction_id : Nat
  customer_id : Nat
  product_id : Nat
  amount : ℚ
  quantity : Nat
  timestamp : Int
  channel : String
  status : String
deriving Repr, DecidableEq

structure Interaction where
  interaction_id : Nat
  customer_id : Nat
  product_id : Nat
  type : String
  timestamp : Int
  duration : Nat
  device : String
  session_id : Nat
deriving Repr, DecidableEq

def segmentsList : List String := ["VIP", "Premium", "Regular", "Basic", "New"]

def channelsList : List String := ["web", "mobile_app", "store"]

def interaction_types : List String := ["view", "click", "search", "cart_add"]

def devicesList : List String := ["desktop", "mobile", "tablet"]

/-- LTV ranges by segment (used both for seed and bulk customers). -/
def ltv_ranges (segment : String) : ℚ × ℚ :=
  if segment = "VIP" then (8000, 30000)
  else if segment = "Premium" then (5000, 12000)
  else if segment = "Regular" then (800, 3000)
  else if segment = "Basic" then (200, 1000)
  else (50, 400)

/-! ## `generate_seed_customers` -/

/-- One iteration of the seed-customer loop: the customer record together
with the brand-affinity and category-exclusion entries stored for it. -/
def mkSeedCustomer (now : Int) (segment : String) (i : Nat) (s : Streams) :
    (Customer × Option String × List String) × Streams :=
  let (cid, s) := s.uuid4
  let lr := ltv_ranges segment
  let (ltvU, s) := s.uniform lr.1 lr.2
  let (regDays, s) := s.randint 30 365
  let c : Customer :=
    { customer_id := cid
      email := "seed_" ++ segment.toLower ++ "_" ++ Nat.repr i ++ "@example.com"
      name := "Seed " ++ segment ++ " Customer " ++ Nat.repr i
      segment := segment
      ltv := round2 ltvU
      registration_date := now - dayMinutes regDays
      created_at := now }
  let affinity : Option String :=
    if segment = "VIP" ∨ segment = "Premium" then
      some (if i < 5 then "Apple" else "Samsung")
    else none
  let exclusions : List String :=
    if (segment = "VIP" ∨ segment = "Premium") ∧ 8 ≤ i then ["Electronics"] else []
  ((c, affinity, exclusions), s)

def seedCustLoop (now : Int) (segment : String) :
    Nat → Nat → Streams → List (Customer × Option String × List String) × Streams
  | _, 0, s => ([], s)
  | i, n + 1, s =>
    let (x, s) := mkSeedCustomer now segment i s
    let (xs, s) := seedCustLoop now segment (i + 1) n s
    (x :: xs, s)

def seedCustSegs (now : Int) :
    List String → Streams → List (Customer × Option String × List String) × Streams
  | [], s => ([], s)
  | seg :: rest, s =>
    let (xs, s) := seedCustLoop now seg 0 10 s
    let (ys, s) := seedCustSegs now rest s
    (xs ++ ys, s)

/-- `Customer360Generator.generate_seed_customers`: 10 customers for each
of the five segments, in segment order, with deterministic affinity and
exclusion assignments. -/
def generate_seed_customers (now : Int) (s : Streams) :
    List (Customer × Option String × List String) × Streams :=
  seedCustSegs now segmentsList s

/-- `self.seed_customers[segment]` (customers are appended in creation
order, so the stored per-segment list is the filter of the seed list). -/
def seedCustomersSeg (cs : List Customer) (segment : String) : List Customer :=
  cs.filter (fun c => c.segment == segment)

/-! ## `generate_seed_products` -/

/-- The seed product configuration table:
(category, brand, count, min price, max price). -/
def product_configs : List (String × String × Nat × ℚ × ℚ) :=
  [("Electronics", "Apple", 5, 500, 2000),
   ("Electronics", "Samsung", 5, 400, 1500),
   ("Electronics", "Sony", 5, 300, 1200),
   ("Clothing", "Nike", 5, 50, 300),
   ("Clothing", "Adidas", 5, 40, 250),
   ("Home", "IKEA", 5, 50, 500),
   ("Home", "Wayfair", 5, 60, 600),
   ("Books", "Penguin", 3, 15, 50),
   ("Sports", "Nike", 4, 30, 200),
   ("Beauty", "Loreal", 3, 20, 100)]

def mkSeedProduct (now : Int) (category brand : String) (minP maxP : ℚ) (i : Nat)
    (s : Streams) : Product × Streams :=
  let (pid, s) := s.uuid4
  let (priceU, s) := s.uniform minP maxP
  let (launch, s) := s.fakeDateBetween now 730
  ({ product_id := pid
     name := brand ++ " " ++ category ++ " Seed " ++ Nat.repr (i + 1)
     category := category
     brand := brand
     price := round2 priceU
     launch_date := launch
     created_at := now }, s)

def seedProdLoop (now : Int) (category brand : String) (minP maxP : ℚ) :
    Nat → Nat → Streams → List Product × Streams
  | _, 0, s => ([], s)
  | i, n + 1, s =>
    let (p, s) := mkSeedProduct now category brand minP maxP i s
    let (ps, s) := seedProdLoop now category brand minP maxP (i + 1) n s
    (p :: ps, s)

def seedProdConfigs (now : Int) :
    List (String × String × Nat × ℚ × ℚ) → Streams → List Product × Streams
  | [], s => ([], s)
  | (cat, br, count, minP, maxP) :: rest, s =>
    let (ps, s) := seedProdLoop now cat br minP maxP 0 count s
    let (qs, s) := seedProdConfigs now rest s
    (ps ++ qs, s)

/-- `Customer360Generator.generate_seed_products`. -/
def generate_seed_products (now : Int) (s : Streams) : List Product × Streams :=
  seedProdConfigs now product_configs s

/-- `self.seed_products[category][brand]`, realised as the filter of the
seed product list (dict insertion order is generation order). -/
def seedProductsCB (ps : List Product) (category brand : String) : List Product :=
  ps.filter (fun p => p.category == category && p.brand == brand)

/-! ## `generate_seed_transactions` -/

/-- The `create_txn` helper of `generate_seed_transactions`.  The Python
default is `days_ago or random.randint(1, 90)`, so the day offset is
drawn when `days_ago` is absent (or zero, which is falsy). -/
def create_txn (now : Int) (customer : Customer) (product : Product)
    (days_ago : Option Int) (s : Streams) : Txn × Streams :=
  let (d, s) :=
    match days_ago with
    | some d => if d = 0 then s.randint 1 90 else (d, s)
    | none => s.randint 1 90
  let timestamp := now - dayMinutes d
  let (tid, s) := s.uuid4
  let (j, s) := s.uniform (9/10) (13/10)
  let (q, s) := s.randint 1 2
  let (ch, s) := s.choice channelsList
  ({ transaction_id := tid
     customer_id := customer.customer_id
     product_id := product.product_id
     amount := round2 (product.price * j)
     quantity := q.toNat
     timestamp := timestamp
     channel := ch.getD "web"
     status := "completed" }, s)

/-- PATTERN 1 inner loop: one transaction per Apple product, with a drawn
`days_ago` between 10 and 60. -/
def pattern1_inner (now : Int) (c : Customer) :
    List Product → Streams → List Txn × Streams
  | [], s => ([], s)
  | p :: ps, s =>
    let (d, s) := s.randint 10 60
    let (t, s) := create_txn now c p (some d) s
    let (ts, s) := pattern1_inner now c ps s
    (t :: ts, s)

/-- PATTERN 1 (brand loyalty): each customer of the designated list buys
the first 3 Apple products. -/
def pattern1_loop (now : Int) (apple : List Product) :
    List Customer → Streams → List Txn × Streams
  | [], s => ([], s)
  | c :: cs, s =>
    let (ts1, s) := pattern1_inner now c (apple.take 3) s
    let (ts2, s) := pattern1_loop now apple cs s
    (ts1 ++ ts2, s)

/-- PATTERN 2 (collaborative filtering): six fixed purchases over the
first four VIP customers and the first three Samsung products, guarded by
the Python length checks. -/
def pattern2 (now : Int) (vips : List Customer) (samsung : List Product)
    (s : Streams) : List Txn × Streams :=
  match vips, samsung with
  | c0 :: c1 :: c2 :: c3 :: _, p0 :: p1 :: p2 :: _ =>
    let (t1, s) := create_txn now c0 p0 none s
    let (t2, s) := create_txn now c1 p0 none s
    let (t3, s) := create_txn now c1 p1 none s
    let (t4, s) := create_txn now c2 p1 none s
    let (t5, s) := create_txn now c3 p1 none s
    let (t6, s) := create_txn now c3 p2 none s
    ([t1, t2, t3, t4, t5, t6], s)
  | _, _ => ([], s)

/-- PATTERN 3 inner loop over the selected Sony products. -/
def pattern3_inner (now : Int) (c : Customer) :
    List Product → Streams → List Txn × Streams
  | [], s => ([], s)
  | p :: ps, s =>
    let (t, s) := create_txn now c p none s
    let (ts, s) := pattern3_inner now c ps s
    (t :: ts, s)

/-- PATTERN 3 (product affinity): each designated Premium customer buys
the first `randint(2, 3)` Sony products. -/
def pattern3_loop (now : Int) (sony : List Product) :
    List Customer → Streams → List Txn × Streams
  | [], s => ([], s)
  | c :: cs, s =>
    let (k, s) := s.randint 2 3
    let (ts1, s) := pattern3_inner now c (sony.take k.toNat) s
    let (ts2, s) := pattern3_loop now sony cs s
    (ts1 ++ ts2, s)

/-- PATTERN 4 body: the first Nike clothing product and the first IKEA
home product, when present. -/
def pattern4_one (now : Int) (clothing home : List Product) (c : Customer)
    (s : Streams) : List Txn × Streams :=
  let (l1, s) :=
    match clothing with
    | p :: _ =>
      let (t, s) := create_txn now c p none s
      ([t], s)
    | [] => ([], s)
  let (l2, s) :=
    match home with
    | p :: _ =>
      let (t, s) := create_txn now c p none s
      ([t], s)
    | [] => ([], s)
  (l1 ++ l2, s)

def pattern4_loop (now : Int) (clothing home : List Product) :
    List Customer → Streams → List Txn × Streams
  | [], s => ([], s)
  | c :: cs, s =>
    let (ts1, s) := pattern4_one now clothing home c s
    let (ts2, s) := pattern4_loop now clothing home cs s
    (ts1 ++ ts2, s)

/-- PATTERN 5 body: a random clothing product and a random home product
for one customer, when those pools are nonempty. -/
def pattern5_one (now : Int) (clothing home : List Product) (c : Customer)
    (s : Streams) : List Txn × Streams :=
  let (l1, s) :=
    if clothing.isEmpty then ([], s)
    else
      let (p?, s) := s.choice clothing
      match p? with
      | some p =>
        let (t, s) := create_txn now c p none s
        ([t], s)
      | none => ([], s)
  let (l2, s) :=
    if home.isEmpty then ([], s)
    else
      let (p?, s) := s.choice home
      match p? with
      | some p =>
        let (t, s) := create_txn now c p none s
        ([t], s)
      | none => ([], s)
  (l1 ++ l2, s)

def pattern5_custLoop (now : Int) (clothing home : List Product) :
    List Customer → Streams → List Txn × Streams
  | [], s => ([], s)
  | c :: cs, s =>
    let (ts1, s) := pattern5_one now clothing home c s
    let (ts2, s) := pattern5_custLoop now clothing home cs s
    (ts1 ++ ts2, s)

/-- PATTERN 5 (category gap): for VIP then Premium, customers 8 and 9
(`[8:10]`) buy only non-Electronics products. -/
def pattern5 (now : Int) (clothing home : List Product) (seedCs : List Customer)
    (s : Streams) : List Txn × Streams :=
  let (ts1, s) :=
    pattern5_custLoop now clothing home
      (((seedCustomersSeg seedCs "VIP").drop 8).take 2) s
  let (ts2, s) :=
    pattern5_custLoop now clothing home
      (((seedCustomersSeg seedCs "Premium").drop 8).take 2) s
  (ts1 ++ ts2, s)

/-- PATTERN 6 inner loop: the sampled basket products, with timestamps
overridden to `base + 2 * i` days. -/
def pattern6_inner (now : Int) (c : Customer) (base : Int) :
    Nat → List Product → Streams → List Txn × Streams
  | _, [], s => ([], s)
  | i, p :: ps, s =>
    let (t, s) := create_txn now c p none s
    let t := { t with timestamp := base + dayMinutes (2 * (i : Int)) }
    let (ts, s) := pattern6_inner now c base (i + 1) ps s
    (t :: ts, s)

/-- PATTERN 6 body (basket window) for one customer: a base timestamp 30
to 60 days back and `min 3 (len adidas)` sampled Adidas products bought
0, 2, 4 days after it. -/
def pattern6_one (now : Int) (adidas : List Product) (c : Customer)
    (s : Streams) : List Txn × Streams :=
  let (bd, s) := s.randint 30 60
  let base := now - dayMinutes bd
  let (picks, s) := sampleAux (min 3 adidas.length) adidas s
  pattern6_inner now c base 0 picks s

def pattern6_loop (now : Int) (adidas : List Product) :
    List Customer → Streams → List Txn × Streams
  | [], s => ([], s)
  | c :: cs, s =>
    let (ts1, s) := pattern6_one now adidas c s
    let (ts2, s) := pattern6_loop now adidas cs s
    (ts1 ++ ts2, s)

/-- The 2-hop chain pattern
`C0->P0, C1->P0, C1->P1, C2->P1, C2->P2, C3->P2`. -/
def chain_pattern : List (Nat × Nat) :=
  [(0, 0), (1, 0), (1, 1), (2, 1), (2, 2), (3, 2)]

/-- PATTERN 7: picking one customer from each sampled segment (skipping a
segment whose customer list is empty). -/
def pickChainCustomers (seedCs : List Customer) :
    List String → Streams → List Customer × Streams
  | [], s => ([], s)
  | seg :: rest, s =>
    let segCusts := seedCustomersSeg seedCs seg
    let (hd, s) :=
      if segCusts.isEmpty then ([], s)
      else
        let (c?, s) := s.choice segCusts
        (c?.toList, s)
    let (tl, s) := pickChainCustomers seedCs rest s
    (hd ++ tl, s)

/-- The chain-emission loop of seed PATTERN 7: one `create_txn` per edge
whose indices are in range (they always are for `chain_pattern` once both
lists are full); no duplicate check is performed here. -/
def pattern7_emit (now : Int) (ccs : List Customer) (cps : List Product) :
    List (Nat × Nat) → Streams → List Txn × Streams
  | [], s => ([], s)
  | e :: rest, s =>
    match ccs.get? e.1, cps.get? e.2 with
    | some c, some p =>
      let (t, s) := create_txn now c p none s
      let (ts, s) := pattern7_emit now ccs cps rest s
      (t :: ts, s)
    | _, _ => pattern7_emit now ccs cps rest s

/-- One seed chain of PATTERN 7: three customers from three sampled
distinct segments, a fourth customer from a `random.choice` segment (which
may repeat one of the first three customers), and three sampled products
from the full seed catalogue. -/
def pattern7_chain (now : Int) (seedCs : List Customer) (allProducts : List Product)
    (s : Streams) : List Txn × Streams :=
  let (segs, s) := sampleAux 3 ["VIP", "Premium", "Regular"] s
  let (ccs, s) := pickChainCustomers seedCs segs s
  if ccs.length < 3 then ([], s)
  else
    let (extraSeg?, s) := s.choice ["VIP", "Premium", "Regular"]
    let (ccs, s) :=
      match extraSeg? with
      | some seg =>
        let segCusts := seedCustomersSeg seedCs seg
        if segCusts.isEmpty then (ccs, s)
        else
          let (c?, s) := s.choice segCusts
          match c? with
          | some c => (ccs ++ [c], s)
          | none => (ccs, s)
      | none => (ccs, s)
    if ccs.length < 4 then ([], s)
    else if allProducts.length < 3 then ([], s)
    else
      let (cps, s) := sampleAux 3 allProducts s
      pattern7_emit now ccs cps chain_pattern s

def pattern7_chains (now : Int) (seedCs : List Customer) (allProducts : List Product) :
    Nat → Streams → List Txn × Streams
  | 0, s => ([], s)
  | n + 1, s =>
    let (ts1, s) := pattern7_chain now seedCs allProducts s
    let (ts2, s) := pattern7_chains now seedCs allProducts n s
    (ts1 ++ ts2, s)

/-- PATTERN 8 body (low engagement): sample `min 2 (len apple)` products
from the Apple and Samsung pools and keep the first `randint(1, 2)`. -/
def pattern8_one (now : Int) (apple samsung : List Product) (c : Customer)
    (s : Streams) : List Txn × Streams :=
  let (rp, s) := sampleAux (min 2 apple.length) (apple ++ samsung) s
  let (k, s) := s.randint 1 2
  pattern3_inner now c (rp.take k.toNat) s

def pattern8_loop (now : Int) (apple samsung : List Product) :
    List Customer → Streams → List Txn × Streams
  | [], s => ([], s)
  | c :: cs, s =>
    let (ts1, s) := pattern8_one now apple samsung c s
    let (ts2, s) := pattern8_loop now apple samsung cs s
    (ts1 ++ ts2, s)

/-- PATTERN 9 helper: one transaction on a random element of the pool
when it is nonempty. -/
def randomTxnFromPool (now : Int) (c : Customer) (pool : List Product)
    (s : Streams) : List Txn × Streams :=
  if pool.isEmpty then ([], s)
  else
    let (p?, s) := s.choice pool
    match p? with
    | some p =>
      let (t, s) := create_txn now c p none s
      ([t], s)
    | none => ([], s)

/-- PATTERN 9 body (cross-category diversity): one random product from
each of the five pools, when present. -/
def pattern9_one (now : Int) (apple clothing books sports beauty : List Product)
    (c : Customer) (s : Streams) : List Txn × Streams :=
  let (l1, s) := randomTxnFromPool now c apple s
  let (l2, s) := randomTxnFromPool now c clothing s
  let (l3, s) := randomTxnFromPool now c books s
  let (l4, s) := randomTxnFromPool now c sports s
  let (l5, s) := randomTxnFromPool now c beauty s
  (l1 ++ l2 ++ l3 ++ l4 ++ l5, s)

def pattern9_loop (now : Int) (apple clothing books sports beauty : List Product) :
    List Customer → Streams → List Txn × Streams
  | [], s => ([], s)
  | c :: cs, s =>
    let (ts1, s) := pattern9_one now apple clothing books sports beauty c s
    let (ts2, s) := pattern9_loop now apple clothing books sports beauty cs s
    (ts1 ++ ts2, s)

/-- PATTERN 10 body: a random Wayfair product and a random Adidas
product, when present. -/
def pattern10_one (now : Int) (wayfair adidas : List Product) (c : Customer)
    (s : Streams) : List Txn × Streams :=
  let (l1, s) := randomTxnFromPool now c wayfair s
  let (l2, s) := randomTxnFromPool now c adidas s
  (l1 ++ l2, s)

def pattern10_custLoop (now : Int) (wayfair adidas : List Product) :
    List Customer → Streams → List Txn × Streams
  | [], s => ([], s)
  | c :: cs, s =>
    let (ts1, s) := pattern10_one now wayfair adidas c s
    let (ts2, s) := pattern10_custLoop now wayfair adidas cs s
    (ts1 ++ ts2, s)

/-- PATTERN 10 (segment distribution): the first five Basic and the first
five New customers. -/
def pattern10 (now : Int) (wayfair adidas : List Product) (seedCs : List Customer)
    (s : Streams) : List Txn × Streams :=
  let (ts1, s) :=
    pattern10_custLoop now wayfair adidas ((seedCustomersSeg seedCs "Basic").take 5) s
  let (ts2, s) :=
    pattern10_custLoop now wayfair adidas ((seedCustomersSeg seedCs "New").take 5) s
  (ts1 ++ ts2, s)

/-- `Customer360Generator.generate_seed_transactions`: the ten seed
patterns, emitted in order over the seed customers and products. -/
def generate_seed_transactions (now : Int) (seedCs : List Customer)
    (seedPs : List Product) (s : Streams) : List Txn × Streams :=
  let apple := seedProductsCB seedPs "Electronics" "Apple"
  let samsung := seedProductsCB seedPs "Electronics" "Samsung"
  let sony := seedProductsCB seedPs "Electronics" "Sony"
  let clothing := seedProductsCB seedPs "Clothing" "Nike"
  let home := seedProductsCB seedPs "Home" "IKEA"
  let adidas := seedProductsCB seedPs "Clothing" "Adidas"
  let books := seedProductsCB seedPs "Books" "Penguin"
  let sports := seedProductsCB seedPs "Sports" "Nike"
  let beauty := seedProductsCB seedPs "Beauty" "Loreal"
  let wayfair := seedProductsCB seedPs "Home" "Wayfair"
  let vips := seedCustomersSeg seedCs "VIP"
  let premium := seedCustomersSeg seedCs "Premium"
  let regular := seedCustomersSeg seedCs "Regular"
  let (t1, s) := pattern1_loop now apple (vips.take 5) s
  let (t2, s) := pattern2 now vips samsung s
  let (t3, s) := pattern3_loop now sony (premium.take 5) s
  let (t4, s) := pattern4_loop now clothing home (vips.take 3) s
  let (t5, s) := pattern5 now clothing home seedCs s
  let (t6, s) := pattern6_loop now adidas (regular.take 5) s
  let (t7, s) := pattern7_chains now seedCs seedPs 5 s
  let (t8, s) := pattern8_loop now apple samsung ((vips.drop 5).take 3) s
  let (t9, s) := pattern9_loop now apple clothing books sports beauty
    ((premium.drop 5).take 3) s
  let (t10, s) := pattern10 now wayfair adidas seedCs s
  (t1 ++ t2 ++ t3 ++ t4 ++ t5 ++ t6 ++ t7 ++ t8 ++ t9 ++ t10, s)

/-! ## `generate_seed_interactions` -/

/-- One seed interaction: the product is a random seed product, falling
back to a fresh uuid only when the seed product list is empty. -/
def mkSeedInteraction (now : Int) (c : Customer) (seedPids : List Nat)
    (s : Streams) : Interaction × Streams :=
  let (pid, s) :=
    if seedPids.isEmpty then s.uuid4
    else
      let (p?, s) := s.choice seedPids
      (p?.getD 0, s)
  let (iid, s) := s.uuid4
  let (ty?, s) := s.choice interaction_types
  let (ts, s) := s.fakeDateTimeBetween now (182 * 1440)
  let (dur, s) := s.randint 10 300
  let (dev?, s) := s.choice devicesList
  let (sid, s) := s.uuid4
  ({ interaction_id := iid
     customer_id := c.customer_id
     product_id := pid
     type := ty?.getD "view"
     timestamp := ts
     duration := dur.toNat
     device := dev?.getD "desktop"
     session_id := sid }, s)

def seedInterInner (now : Int) (c : Customer) (seedPids : List Nat) :
    Nat → Streams → List Interaction × Streams
  | 0, s => ([], s)
  | n + 1, s =>
    let (x, s) := mkSeedInteraction now c seedPids s
    let (xs, s) := seedInterInner now c seedPids n s
    (x :: xs, s)

def seedInterLoop (now : Int) (seedPids : List Nat) :
    List Customer → Streams → List Interaction × Streams
  | [], s => ([], s)
  | c :: cs, s =>
    let (k, s) := s.randint 5 10
    let (xs, s) := seedInterInner now c seedPids k.toNat s
    let (ys, s) := seedInterLoop now seedPids cs s
    (xs ++ ys, s)

/-- `Customer360Generator.generate_seed_interactions`: 5 to 10
interactions for every seed customer in creation order. -/
def generate_seed_interactions (now : Int) (seedCs : List Customer)
    (seedPids : List Nat) (s : Streams) : List Interaction × Streams :=
  seedInterLoop now seedPids seedCs s

/-! ## `generate_customers` (bulk) -/

/-- The hard-coded bulk segment weights `[0.10, 0.20, 0.30, 0.25, 0.15]`. -/
def segment_weights : List ℚ := [10/100, 20/100, 30/100, 25/100, 15/100]

/-- `Customer360Generator._assign_brand_affinity`: 30% develop loyalty to
a segment-dependent brand pool. -/
def _assign_brand_affinity (segment : String) (s : Streams) :
    Option String × Streams :=
  let (u, s) := s.random
  if u < 30/100 then
    let pool :=
      if segment = "VIP" ∨ segment = "Premium" then
        ["Apple", "Sony", "Nike", "Samsung"]
      else ["HP", "Dell", "Gap", "Adidas"]
    s.choice pool
  else (none, s)

/-- `Customer360Generator._should_exclude_category`: 20% of VIP/Premium
customers exclude Electronics (the random draw happens only for
VIP/Premium, mirroring the short-circuit conjunction). -/
def _should_exclude_category (segment : String) (s : Streams) :
    List String × Streams :=
  if segment = "VIP" ∨ segment = "Premium" then
    let (u, s) := s.random
    if u < 20/100 then (["Electronics"], s) else ([], s)
  else ([], s)

/-- `Customer360Generator._generate_monthly_cohort_date`. -/
def _generate_monthly_cohort_date (now : Int) (customer_index : Nat) : Int :=
  now - dayMinutes (365 - ((customer_index % 12 : Nat) : Int) * 30)

/-- One iteration of the bulk-customer loop, with the segment weight
vector explicit (the source hard-codes `segment_weights`). -/
def mkBulkCustomerW (weights : List ℚ) (now : Int) (i : Nat) (s : Streams) :
    (Customer × Option String × List String) × Streams :=
  let (u, s) := s.random
  let seg := segmentsList.getD (choicesIdx weights u) "New"
  let (cid, s) := s.uuid4
  let (aff, s) := _assign_brand_affinity seg s
  let (excl, s) := _should_exclude_category seg s
  let (em, s) := s.fakeEmail
  let (nm, s) := s.fakeName
  let lr := ltv_ranges seg
  let (ltvU, s) := s.uniform lr.1 lr.2
  (({ customer_id := cid
      email := em
      name := nm
      segment := seg
      ltv := round2 ltvU
      registration_date := _generate_monthly_cohort_date now i
      created_at := now }, aff, excl), s)

def bulkCustLoop (weights : List ℚ) (now : Int) :
    Nat → Nat → Streams → List (Customer × Option String × List String) × Streams
  | _, 0, s => ([], s)
  | i, n + 1, s =>
    let (x, s) := mkBulkCustomerW weights now i s
    let (xs, s) := bulkCustLoop weights now (i + 1) n s
    (x :: xs, s)

/-- `generate_customers` with an explicit weight vector. -/
def generate_customers_w (weights : List ℚ) (now : Int) (scale : Nat)
    (s : Streams) : List (Customer × Option String × List String) × Streams :=
  bulkCustLoop weights now 0 scale s

/-- `Customer360Generator.generate_customers`. -/
def generate_customers (now : Int) (scale : Nat) (s : Streams) :
    List (Customer × Option String × List String) × Streams :=
  generate_customers_w segment_weights now scale s

/-! ## `generate_products` (bulk) -/

def categoriesKeys : List String :=
  ["Electronics", "Clothing", "Home", "Books", "Sports", "Beauty"]

def categoryPriceRange (category : String) : ℚ × ℚ :=
  if category = "Electronics" then (50, 2000)
  else if category = "Clothing" then (20, 500)
  else if category = "Home" then (25, 800)
  else if category = "Books" then (10, 100)
  else if category = "Sports" then (30, 600)
  else (15, 200)

def brandsFor (category : String) : List String :=
  if category = "Electronics" then ["Apple", "Samsung", "Sony", "Dell", "HP"]
  else if category = "Clothing" then ["Nike", "Adidas", "Zara", "Gap", "Levi"]
  else if category = "Home" then ["IKEA", "Wayfair", "Target", "HomeDepot"]
  else if category = "Books" then ["Penguin", "Harper", "Simon", "Random"]
  else if category = "Sports" then ["Nike", "Adidas", "Wilson", "Spalding"]
  else ["Loreal", "Maybelline", "MAC", "Sephora"]

/-- The scale-derived product count. -/
def product_count (scale : Nat) : Nat :=
  if scale ≤ 1000000 then 10000
  else if scale ≤ 10000000 then 25000
  else 50000

/-- The scale-derived average transaction rate (only logged by the
source; the actual counts are Poisson draws). -/
def avg_transactions_per_customer (scale : Nat) : Nat :=
  if scale ≤ 1000000 then 8
  else if scale ≤ 10000000 then 10
  else 12

/-- One iteration of the bulk-product loop. -/
def mkBulkProduct (now : Int) (i : Nat) (s : Streams) : Product × Streams :=
  let (cat?, s) := s.choice categoriesKeys
  let cat := cat?.getD "Electronics"
  let (br?, s) := s.choice (brandsFor cat)
  let br := br?.getD "Apple"
  let pr := categoryPriceRange cat
  let (pid, s) := s.uuid4
  let (priceU, s) := s.uniform pr.1 pr.2
  let (launch, s) := s.fakeDateBetween now 1095
  ({ product_id := pid
     name := br ++ " " ++ cat ++ " Product " ++ Nat.repr (i + 1)
     category := cat
     brand := br
     price := round2 priceU
     launch_date := launch
     created_at := now }, s)

def bulkProdLoop (now : Int) : Nat → Nat → Streams → List Product × Streams
  | _, 0, s => ([], s)
  | i, n + 1, s =>
    let (p, s) := mkBulkProduct now i s
    let (ps, s) := bulkProdLoop now (i + 1) n s
    (p :: ps, s)

/-- `Customer360Generator.generate_products`. -/
def generate_products (now : Int) (count : Nat) (s : Streams) :
    List Product × Streams :=
  bulkProdLoop now 0 count s

/-- `self.products_by_category[c]` (dict of append-ordered lists, i.e.
the order-preserving filter of the product list). -/
def products_by_category (ps : List Product) (category : String) : List Product :=
  ps.filter (fun p => p.category == category)

/-- `self.products_by_brand[b]`. -/
def products_by_brand (ps : List Product) (brand : String) : List Product :=
  ps.filter (fun p => p.brand == brand)

/-! ## `generate_transactions` (bulk) -/

/-- `segment_patterns[segment]['freq']`. -/
def segment_freq (segment : String) : ℚ :=
  if segment = "VIP" then 25
  else if segment = "Premium" then 15
  else if segment = "Regular" then 8
  else if segment = "Basic" then 4
  else 2

/-- `segment_patterns[segment]['amount_multiplier']`. -/
def amount_multiplier (segment : String) : ℚ :=
  if segment = "VIP" then 3
  else if segment = "Premium" then 22/10
  else if segment = "Regular" then 12/10
  else if segment = "Basic" then 8/10
  else 6/10

/-- `Customer360Generator._generate_transaction_timestamp`: the three
candidate day offsets are all drawn first (the Python list literal is
fully evaluated), then `random.choices` with weights 0.6/0.3/0.1 picks
one. -/
def _generate_transaction_timestamp (now : Int) (s : Streams) : Int × Streams :=
  let (d1, s) := s.randint 0 90
  let (d2, s) := s.randint 90 180
  let (d3, s) := s.randint 180 365
  let (u, s) := s.random
  let d := [d1, d2, d3].getD (choicesIdx [60/100, 30/100, 10/100] u) d1
  (now - dayMinutes d, s)

/-- `Customer360Generator._get_category_affinity_categories`. -/
def _get_category_affinity_categories (category : String) : List String :=
  if category = "Electronics" then ["Home", "Clothing"]
  else if category = "Clothing" then ["Beauty"]
  else if category = "Home" then ["Electronics"]
  else if category = "Sports" then ["Clothing"]
  else if category = "Beauty" then ["Clothing"]
  else []

/-- `Customer360Generator._get_product_basket`: keyword buckets keyed on
substrings of the product name. -/
def _get_product_basket (product_name : String) : List String :=
  if strContains product_name "Laptop" || strContains product_name "Dell" ||
      strContains product_name "HP" then ["Mouse", "Laptop Bag"]
  else if strContains product_name "Phone" || strContains product_name "Apple" ||
      strContains product_name "Samsung" then ["Charger"]
  else if strContains product_name "Camera" || strContains product_name "Sony" then
    ["Memory Card"]
  else []

/-- Phase 2 and 3 product selection: 60% preferred-brand draw with category
exclusions, then an exclusion-respecting uniform fallback, then the
unrestricted fallback.  `none` models the `IndexError` on an empty
catalogue. -/
def select_product (product_data : List Product) (brand_affinity : Option String)
    (category_exclusions : List String) (s : Streams) :
    Option Product × Streams :=
  let (p?, s) :=
    match brand_affinity with
    | some b =>
      let (u, s) := s.random
      if u < 60/100 then
        if (products_by_brand product_data b).isEmpty then (none, s)
        else
          let avail := (products_by_brand product_data b).filter
            (fun (p : Product) => !(category_exclusions.contains p.category))
          if avail.isEmpty then (none, s) else s.choice avail
      else (none, s)
    | none => (none, s)
  match p? with
  | some p => (some p, s)
  | none =>
    let avail := product_data.filter
      (fun (p : Product) => !(category_exclusions.contains p.category))
    if avail.isEmpty then s.choice product_data else s.choice avail

/-- The two-outcome status draw
`random.choices(['completed', 'cancelled'], weights=[0.9, 0.1])[0]`. -/
def statusList : List String := ["completed", "cancelled"]

def statusWeights : List ℚ := [90/100, 10/100]

def status_pick (u : ℚ) : String :=
  (statusList.get? (choicesIdx statusWeights u)).getD "completed"

def draw_status (s : Streams) : String × Streams :=
  let (u, s1) := s.random
  (status_pick u, s1)

/-- A primary bulk transaction (Phase 4): recency-biased timestamp,
price × multiplier × jitter amount, and a 90/10 completed/cancelled
status draw. -/
def mkBulkTxn (now : Int) (cid : Nat) (mult : ℚ) (p : Product) (s : Streams) :
    Txn × Streams :=
  let (ts, s) := _generate_transaction_timestamp now s
  let (j, s) := s.uniform (7/10) (13/10)
  let amount := round2 (p.price * (mult * j))
  let (tid, s) := s.uuid4
  let (q, s) := s.randint 1 3
  let (ch?, s) := s.choice channelsList
  let (st, s) := draw_status s
  ({ transaction_id := tid
     customer_id := cid
     product_id := p.product_id
     amount := amount
     quantity := q.toNat
     timestamp := ts
     channel := ch?.getD "web"
     status := st }, s)

/-- Phase 5 inner loop over the basket keywords of one primary
transaction: companion transactions 0 to 7 days after it, with status
`completed` and no category-exclusion filter. -/
def basketItemsLoop (now : Int) (product_data : List Product) (cid : Nat)
    (mult : ℚ) (primary : Txn) :
    List String → Streams → List Txn × Streams
  | [], s => ([], s)
  | kw :: rest, s =>
    let matching := product_data.filter (fun (p : Product) => strContains p.name kw)
    let (hd, s) :=
      if matching.isEmpty then ([], s)
      else
        let (bp?, s) := s.choice matching
        match bp? with
        | some bp =>
          let (d, s) := s.randint 0 7
          let (tid, s) := s.uuid4
          let (ch?, s) := s.choice channelsList
          ([{ transaction_id := tid
              customer_id := cid
              product_id := bp.product_id
              amount := round2 (bp.price * mult)
              quantity := 1
              timestamp := primary.timestamp + dayMinutes d
              channel := ch?.getD "web"
              status := "completed" }], s)
        | none => ([], s)
    let (tl, s) := basketItemsLoop now product_data cid mult primary rest s
    (hd ++ tl, s)

/-- Phase 5: with probability 0.3 (drawn only when the keyword list is
nonempty) emit the companion basket transactions of a primary. -/
def basket_for_txn (now : Int) (product_data : List Product) (cid : Nat)
    (mult : ℚ) (primary : Txn) (pname : String) (s : Streams) :
    List Txn × Streams :=
  let items := _get_product_basket pname
  if items.isEmpty then ([], s)
  else
    let (u, s) := s.random
    if u < 30/100 then basketItemsLoop now product_data cid mult primary items s
    else ([], s)

/-- One iteration of the per-customer transaction loop: a selected
product, the primary transaction and its basket companions. -/
def bulkTxnOnce (now : Int) (product_data : List Product) (cid : Nat)
    (mult : ℚ) (aff : Option String) (excl : List String) (s : Streams) :
    Option (Txn × List Txn) × Streams :=
  let (p?, s) := select_product product_data aff excl s
  match p? with
  | none => (none, s)
  | some p =>
    let (t, s) := mkBulkTxn now cid mult p s
    let (bs, s) := basket_for_txn now product_data cid mult t p.name s
    (some (t, bs), s)

def bulkTxnLoop (now : Int) (product_data : List Product) (cid : Nat)
    (mult : ℚ) (aff : Option String) (excl : List String) :
    Nat → Streams → (List Txn × List Txn) × Streams
  | 0, s => (([], []), s)
  | n + 1, s =>
    let (r, s) := bulkTxnOnce now product_data cid mult aff excl s
    let ((ts, bs), s) := bulkTxnLoop now product_data cid mult aff excl n s
    match r with
    | some (t, b) => ((t :: ts, b ++ bs), s)
    | none => ((ts, bs), s)

/-- Phase 3 cross-category companion of one primary transaction: drawn
with probability 0.4, category-affinity linked, exclusion-respecting,
minutes after the primary, status `completed`. -/
def cross_for_txn (now : Int) (product_data : List Product) (cid : Nat)
    (mult : ℚ) (excl : List String) (t : Txn) (s : Streams) :
    List Txn × Streams :=
  let (u, s) := s.random
  if u < 40/100 then
    match product_data.find? (fun (p : Product) => p.product_id == t.product_id) with
    | some current =>
      let affCats := _get_category_affinity_categories current.category
      if affCats.isEmpty then ([], s)
      else
        let (ac?, s) := s.choice affCats
        match ac? with
        | some ac =>
          if !(excl.contains ac) &&
              !(products_by_category product_data ac).isEmpty then
            let (cp?, s) := s.choice (products_by_category product_data ac)
            match cp? with
            | some cp =>
              let (tid, s) := s.uuid4
              let (m, s) := s.randint 5 120
              ([{ transaction_id := tid
                  customer_id := cid
                  product_id := cp.product_id
                  amount := round2 (cp.price * mult)
                  quantity := 1
                  timestamp := t.timestamp + m
                  channel := t.channel
                  status := "completed" }], s)
            | none => ([], s)
          else ([], s)
        | none => ([], s)
    | none => ([], s)
  else ([], s)

def crossLoop (now : Int) (product_data : List Product) (cid : Nat)
    (mult : ℚ) (excl : List String) :
    List Txn → Streams → List Txn × Streams
  | [], s => ([], s)
  | t :: ts, s =>
    let (cs1, s) := cross_for_txn now product_data cid mult excl t s
    let (cs2, s) := crossLoop now product_data cid mult excl ts s
    (cs1 ++ cs2, s)

/-- The whole per-customer body of `generate_transactions`: the
transaction count (low-engagement override or Poisson), the primary
transactions with their baskets, then the cross-category pass over the
customer's primaries. -/
def bulkCustomerTxns (now : Int) (product_data : List Product) (c : Customer)
    (aff : Option String) (excl : List String) (s : Streams) :
    (List Txn × List Txn × List Txn) × Streams :=
  let (num, s) :=
    if c.segment = "VIP" ∨ c.segment = "Premium" then
      let (u, s) := s.random
      if u < 10/100 then
        let (k, s) := s.randint 1 2
        (k.toNat, s)
      else
        let (k, s) := s.poisson (segment_freq c.segment)
        (k, s)
    else
      let (k, s) := s.poisson (segment_freq c.segment)
      (k, s)
  let ((prims, baskets), s) :=
    bulkTxnLoop now product_data c.customer_id (amount_multiplier c.segment)
      aff excl num s
  let (crosses, s) :=
    crossLoop now product_data c.customer_id (amount_multiplier c.segment)
      excl prims s
  ((prims, crosses, baskets), s)

/-- Python-dict lookup on an insertion-ordered association list (a later
insertion overwrites an earlier one, so the search runs newest-first). -/
def dict_get_aff (entries : List (Nat × Option String)) (cid : Nat) :
    Option String :=
  (((entries.reverse).find? (fun e => e.1 == cid)).map (fun e => e.2)).getD none

def dict_get_excl (entries : List (Nat × List String)) (cid : Nat) :
    List String :=
  (((entries.reverse).find? (fun e => e.1 == cid)).map (fun e => e.2)).getD []

/-- The customer loop of `generate_transactions`: per customer the
primaries and cross-companions go to the main list in order, and the
basket companions are accumulated separately (appended at the very
end). -/
def bulkTxnsAllCustomers (now : Int) (product_data : List Product)
    (affM : List (Nat × Option String)) (exclM : List (Nat × List String)) :
    List Customer → Streams → (List Txn × List Txn) × Streams
  | [], s => (([], []), s)
  | c :: cs, s =>
    let ((prims, crosses, baskets), s) :=
      bulkCustomerTxns now product_data c (dict_get_aff affM c.customer_id)
        (dict_get_excl exclM c.customer_id) s
    let ((main2, bask2), s) := bulkTxnsAllCustomers now product_data affM exclM cs s
    ((prims ++ crosses ++ main2, baskets ++ bask2), s)

/-- `Customer360Generator.generate_transactions`. -/
def generate_transactions (now : Int) (customers : List Customer)
    (products : List Product) (affM : List (Nat × Option String))
    (exclM : List (Nat × List String)) (s : Streams) : List Txn × Streams :=
  let ((main, baskets), s) := bulkTxnsAllCustomers now products affM exclM customers s
  (main ++ baskets, s)

/-! ## `create_recommendation_chains` -/

/-- The duplicate-purchase check of `create_recommendation_chains`:
does the (pre-existing) transaction table already hold this
(customer, product) pair? -/
def existsPair (txns : List Txn) (cid pid : Nat) : Bool :=
  txns.any (fun t => t.customer_id == cid && t.product_id == pid)

/-- One edge of a recommendation chain: skipped when the pair already
exists in the original transaction table, otherwise a new `completed`
transaction at `price * 1.5`, 0 to 30 days after the chain's base
timestamp. -/
def chainStep (now : Int) (existing : List Txn) (c : Customer) (p : Product)
    (base : Int) (s : Streams) : List Txn × Streams :=
  if existsPair existing c.customer_id p.product_id then ([], s)
  else
    let (tid, s) := s.uuid4
    let (d, s) := s.randint 0 30
    let (ch?, s) := s.choice channelsList
    ([{ transaction_id := tid
        customer_id := c.customer_id
        product_id := p.product_id
        amount := round2 (p.price * (15/10))
        quantity := 1
        timestamp := base + dayMinutes d
        channel := ch?.getD "web"
        status := "completed" }], s)

/-- The edge loop of `create_recommendation_chains` over
`chain_pattern`. -/
def emit_chain (now : Int) (ccs : List Customer) (cps : List Product)
    (existing : List Txn) (base : Int) :
    List (Nat × Nat) → Streams → List Txn × Streams
  | [], s => ([], s)
  | e :: rest, s =>
    match ccs.get? e.1, cps.get? e.2 with
    | some c, some p =>
      let (ts1, s) := chainStep now existing c p base s
      let (ts2, s) := emit_chain now ccs cps existing base rest s
      (ts1 ++ ts2, s)
    | _, _ => emit_chain now ccs cps existing base rest s

/-- Dict key order of `self.products_by_category`: first occurrence of
each category in the product list. -/
def firstOccurrenceOrder : List String → List String
  | [] => []
  | c :: rest => c :: (firstOccurrenceOrder rest).filter (fun x => x != c)

/-- One chain of `create_recommendation_chains`: 4 customers sampled
without replacement from the segment pool, 3 products sampled from the
Electronics index (or the first category holding at least 3 products),
a base timestamp, then the `chain_pattern` edges. -/
def one_chain (now : Int) (segCs : List Customer) (products : List Product)
    (existing : List Txn) (s : Streams) : List Txn × Streams :=
  let (ccs, s) := sampleAux 4 segCs s
  let electronics := products_by_category products "Electronics"
  let (cps?, s) :=
    if 3 ≤ electronics.length then
      let (cps, s) := sampleAux 3 electronics s
      (some cps, s)
    else
      match (firstOccurrenceOrder (products.map (fun p => p.category))).find?
          (fun cat => decide (3 ≤ (products_by_category products cat).length)) with
      | some cat =>
        let (cps, s) := sampleAux 3 (products_by_category products cat) s
        (some cps, s)
      | none => (none, s)
  match cps? with
  | none => ([], s)
  | some cps =>
    let (base, s) := _generate_transaction_timestamp now s
    emit_chain now ccs cps existing base chain_pattern s

def chains_for_segment (now : Int) (segCs : List Customer)
    (products : List Product) (existing : List Txn) :
    Nat → Streams → List Txn × Streams
  | 0, s => ([], s)
  | n + 1, s =>
    let (ts1, s) := one_chain now segCs products existing s
    let (ts2, s) := chains_for_segment now segCs products existing n s
    (ts1 ++ ts2, s)

def chainsSegLoop (now : Int) (customers : List Customer)
    (products : List Product) (existing : List Txn) (num_chains : Nat) :
    List String → Streams → List Txn × Streams
  | [], s => ([], s)
  | seg :: rest, s =>
    let segCs := customers.filter (fun c => c.segment == seg)
    let (ts1, s) :=
      if segCs.length < 4 then ([], s)
      else chains_for_segment now segCs products existing
        (min (num_chains / 3) (segCs.length / 4)) s
    let (ts2, s) := chainsSegLoop now customers products existing num_chains rest s
    (ts1 ++ ts2, s)

/-- `Customer360Generator.create_recommendation_chains` (default
`num_chains = 20`): new chain transactions for the VIP, Premium and
Regular segments, appended to the incoming transaction table. -/
def create_recommendation_chains (now : Int) (customers : List Customer)
    (products : List Product) (transactions : List Txn) (num_chains : Nat)
    (s : Streams) : List Txn × Streams :=
  let (newTxns, s) :=
    chainsSegLoop now customers products transactions num_chains
      ["VIP", "Premium", "Regular"] s
  (transactions ++ newTxns, s)

/-! ## `generate_interactions` (bulk) -/

/-- `random.choices(ids, k=total)`: `total` independent uniform picks
(all drawn before the construction loop runs, as the Python call fully
materialises the list first). -/
def choicesK (l : List Nat) : Nat → Streams → List Nat × Streams
  | 0, s => ([], s)
  | k + 1, s =>
    let (n, s1) := nextRnd s
    let (xs, s2) := choicesK l k s1
    ((l.get? (n % l.length)).getD 0 :: xs, s2)

def mkBulkInteraction (now : Int) (cid : Nat) (pids : List Nat) (s : Streams) :
    Interaction × Streams :=
  let (iid, s) := s.uuid4
  let (pid?, s) := s.choice pids
  let (ty?, s) := s.choice interaction_types
  let (ts, s) := s.fakeDateTimeBetween now (182 * 1440)
  let (dur, s) := s.randint 10 300
  let (dev?, s) := s.choice devicesList
  let (sid, s) := s.uuid4
  ({ interaction_id := iid
     customer_id := cid
     product_id := pid?.getD 0
     type := ty?.getD "view"
     timestamp := ts
     duration := dur.toNat
     device := dev?.getD "desktop"
     session_id := sid }, s)

def bulkInterLoop (now : Int) (pids : List Nat) :
    List Nat → Streams → List Interaction × Streams
  | [], s => ([], s)
  | cid :: cids, s =>
    let (x, s) := mkBulkInteraction now cid pids s
    let (xs, s) := bulkInterLoop now pids cids s
    (x :: xs, s)

/-- `Customer360Generator.generate_interactions`: `scale * 25`
interactions for uniformly chosen customers over uniformly chosen
products. -/
def generate_interactions (now : Int) (scale : Nat) (customers : List Customer)
    (products : List Product) (s : Streams) : List Interaction × Streams :=
  let (cids, s) := choicesK (customers.map (fun c => c.customer_id)) (scale * 25) s
  bulkInterLoop now (products.map (fun p => p.product_id)) cids s

/-! ## `generate_all` -/

structure Dataset where
  customers : List Customer
  products : List Product
  transactions : List Txn
  interactions : List Interaction
deriving Repr, DecidableEq

/-- `Customer360Generator.generate_all`: seed generation (when
requested), bulk generation, recommendation chains, interactions, then
the seed-first merge of every table.  The affinity/exclusion dictionaries
hold the seed entries first and then the bulk entries, exactly as the
Python instance dictionaries are populated. -/
def generate_all (now : Int) (scale : Nat) (include_seeds : Bool) (s : Streams) :
    Dataset × Streams :=
  let (seedTriples, s) :=
    if include_seeds then generate_seed_customers now s else ([], s)
  let seedCs := seedTriples.map (fun x => x.1)
  let (seedPs, s) := if include_seeds then generate_seed_products now s else ([], s)
  let (seedTx, s) :=
    if include_seeds then generate_seed_transactions now seedCs seedPs s
    else ([], s)
  let (seedIn, s) :=
    if include_seeds then
      generate_seed_interactions now seedCs (seedPs.map (fun p => p.product_id)) s
    else ([], s)
  let (bulkTriples, s) := generate_customers now scale s
  let bulkCs := bulkTriples.map (fun x => x.1)
  let (bulkPs, s) := generate_products now (product_count scale) s
  let affM :=
    seedTriples.map (fun x => (x.1.customer_id, x.2.1)) ++
    bulkTriples.map (fun x => (x.1.customer_id, x.2.1))
  let exclM :=
    seedTriples.map (fun x => (x.1.customer_id, x.2.2)) ++
    bulkTriples.map (fun x => (x.1.customer_id, x.2.2))
  let (bulkTx, s) := generate_transactions now bulkCs bulkPs affM exclM s
  let (allTx, s) := create_recommendation_chains now bulkCs bulkPs bulkTx 20 s
  let (bulkIn, s) := generate_interactions now scale bulkCs bulkPs s
  ({ customers := seedCs ++ bulkCs
     products := seedPs ++ bulkPs
     transactions := seedTx ++ allTx
     interactions := seedIn ++ bulkIn }, s)

/-! ## `save_data_in_batches` (BatchWriter) -/

/-- One persisted chunk: its file name and the rows it holds. -/
structure BatchFile (ρ : Type) where
  name : String
  rows : List ρ
deriving DecidableEq

/-- Zero padding of `f"{n:04d}"`. -/
def zpad4 (n : Nat) : String :=
  ("0000".drop (Nat.repr n).length) ++ Nat.repr n

/-- `f"{table_name}_batch_{batch_num:04d}.parquet"`. -/
def batch_filename (table : String) (batch_num : Nat) : String :=
  table ++ "_batch_" ++ zpad4 batch_num ++ ".parquet"

/-- `f.endswith('.parquet')`. -/
def isParquetName (name : String) : Bool :=
  decide (List.IsSuffix ".parquet".toList name.toList)

/-- The chunk partition of a table: `ceil(total / batch_size)` batches,
batch `i` holding rows `[i*B : min((i+1)*B, total)]`. -/
def chunksOf {ρ : Type} (table : String) (batch_size : Nat) (rows : List ρ) :
    List (BatchFile ρ) :=
  (List.range ((rows.length + batch_size - 1) / batch_size)).map
    (fun i => { name := batch_filename table i
                rows := (rows.drop (i * batch_size)).take batch_size })

/-- The per-table body of `save_data_in_batches`: count the existing
`.parquet` files; if any exist, either skip the table (overwrite flag
unset, directory untouched) or `shutil.rmtree` the directory and write
the fresh chunks; otherwise write the chunks into the directory as it
stands. -/
def save_table_batches {ρ : Type} (table : String) (batch_size : Nat)
    (overwrite_existing : Bool) (dir : List (BatchFile ρ)) (rows : List ρ) :
    List (BatchFile ρ) :=
  let existing_files := (dir.filter (fun f => isParquetName f.name)).length
  if 0 < existing_files then
    if overwrite_existing then chunksOf table batch_size rows
    else dir
  else dir ++ chunksOf table batch_size rows

/-- The chunk-writing loop of `save_data_in_batches`, with the write
effect explicit: `writeOk i` says whether writing chunk `i` succeeds.
`to_parquet` raising is modelled by `Except.error i`; the exception
propagates out of the loop — this function has no retry and no
failed-chunk list, so the remaining chunks are not written. -/
def save_chunks_go {ρ : Type} (writeOk : Nat → Bool) :
    Nat → List (BatchFile ρ) → Except Nat (List (BatchFile ρ))
  | _, [] => Except.ok []
  | i, c :: cs =>
    if writeOk i then
      match save_chunks_go writeOk (i + 1) cs with
      | Except.ok ws => Except.ok (c :: ws)
      | Except.error e => Except.error e
    else Except.error i

def save_chunks_loop {ρ : Type} (writeOk : Nat → Bool)
    (chunks : List (BatchFile ρ)) : Except Nat (List (BatchFile ρ)) :=
  save_chunks_go writeOk 0 chunks

/-! ## `ClickHouseClient.load_batch_files` -/

/-- The retry loop for one batch file: up to `A` attempts (`ok a` tells
whether attempt `a` succeeds); a sleep of `delay` happens between failed
attempts; failing the last attempt appends the file to the failed list
inside the loop, and the `if not success` guard after the loop appends it
once more.  Returns (success, rows inserted, failed-list appends,
sleeps). -/
def load_one_go (ok : Nat → Bool) (rows delay : Nat) :
    Nat → Nat → Bool × Nat × Nat × List Nat
  | _, 0 => (false, 0, 0, [])
  | a, r + 1 =>
    if ok a then (true, rows, 0, [])
    else if r = 0 then (false, 0, 1, [])
    else
      let (suc, ins, fa, sl) := load_one_go ok rows delay (a + 1) r
      (suc, ins, fa, delay :: sl)

/-- Outcome of loading one batch file. -/
structure LoadOutcome where
  inserted : Nat
  failedAppends : Nat
  sleeps : List Nat
deriving Repr, DecidableEq

def load_one_batch (ok : Nat → Bool) (rows A delay : Nat) : LoadOutcome :=
  let (suc, ins, fa, sl) := load_one_go ok rows delay 0 A
  { inserted := ins
    failedAppends := fa + (if suc then 0 else 1)
    sleeps := sl }

/-- The per-table loop of `load_batch_files`: every batch file is
processed in order regardless of earlier failures; the failed list holds
each exhausted file with its append multiplicity; sleeps accumulate.
The totals are only logged by the source — the Python method returns
`None`. -/
def load_table_batches (ok : String → Nat → Bool) (rowsOf : String → Nat)
    (A delay : Nat) : List String → Nat × List String × List Nat
  | [] => (0, [], [])
  | f :: fs =>
    let o := load_one_batch (ok f) (rowsOf f) A delay
    let (tot, fl, sl) := load_table_batches ok rowsOf A delay fs
    (o.inserted + tot, List.replicate o.failedAppends f ++ fl, o.sleeps ++ sl)

/-- `ClickHouseClient.load_batch_files` discards each table's totals and
failed list after logging them: its return value is `None`. -/
def load_batch_files (ok : String → Nat → Bool) (rowsOf : String → Nat)
    (A delay : Nat) (tables : List (List String)) : Unit :=
  (tables.map (fun fs => load_table_batches ok rowsOf A delay fs)) |> fun _ => ()

/-! ## Statement-level definitions and concrete fixtures -/

/-- Referential integrity of a dataset: every transaction and every
interaction references an existing customer and an existing product. -/
def ref_integrity (ds : Dataset) : Bool :=
  (ds.transactions.all fun t =>
    decide (t.customer_id ∈ ds.customers.map (fun c => c.customer_id)) &&
    decide (t.product_id ∈ ds.products.map (fun p => p.product_id))) &&
  (ds.interactions.all fun i =>
    decide (i.customer_id ∈ ds.customers.map (fun c => c.customer_id)) &&
    decide (i.product_id ∈ ds.products.map (fun p => p.product_id)))

/-- A transaction referencing entities of the given id lists. -/
def refOkTxn (cids pids : List Nat) (t : Txn) : Prop :=
  t.customer_id ∈ cids ∧ t.product_id ∈ pids

/-- All timestamps of a transaction list pairwise within `d` days. -/
def pairwiseWithinDays (d : Int) (ts : List Txn) : Bool :=
  ts.all fun a => ts.all fun b =>
    decide (a.timestamp - b.timestamp ≤ dayMinutes d ∧
            b.timestamp - a.timestamp ≤ dayMinutes d)

/-- The number of transactions of customer `c` on products of `pool`. -/
def txn_count_on (txns : List Txn) (pool : List Product) (c : Customer) : Nat :=
  txns.countP fun t =>
    decide (t.customer_id = c.customer_id) &&
    decide (t.product_id ∈ pool.map (fun p => p.product_id))

/-- A constant pseudorandom source. -/
def constStream (v : Nat) : RSrc := ⟨fun _ => v, 0⟩

/-- A run whose seeded streams are those of a fixed seed and fixed
configuration, while the OS entropy behind `uuid.uuid4` delivers `v`:
two runs with the same seed differ exactly in `v` (and wall clock). -/
def runStreams (v : Nat) : Streams :=
  ⟨constStream 0, constStream 0, constStream 0, constStream v⟩

def zeroStreams : Streams := runStreams 0

/-- A concrete VIP customer shaped like the bulk-generation output. -/
def vipCustFix (n : Nat) : Customer :=
  { customer_id := n
    email := "user0@example.org"
    name := "Name 0"
    segment := "VIP"
    ltv := 10000
    registration_date := 0
    created_at := 0 }

/-- A concrete Electronics product shaped like the bulk-generation
output. -/
def elecProdFix (n : Nat) : Product :=
  { product_id := 100 + n
    name := "Samsung Electronics Product 1"
    category := "Electronics"
    brand := "Samsung"
    price := 100
    launch_date := 0
    created_at := 0 }

/-- The category-exclusion dictionary in which customer 3 excludes
Electronics (as assigned by `_should_exclude_category`). -/
def gapExclusions : List (Nat × List String) := [(3, ["Electronics"])]

/-- A pre-existing transaction realising the chain edge (C0, P0). -/
def preexistingTxn : Txn :=
  { transaction_id := 999
    customer_id := 0
    product_id := 100
    amount := 0
    quantity := 1
    timestamp := 0
    channel := "web"
    status := "completed" }

/-- A weight vector that sums to 20, not 1. -/
def badWeights : List ℚ := [2, 4, 6, 5, 3]

/-- Two concrete chunks of a table. -/
def cexChunks : List (BatchFile Nat) :=
  [{ name := "transactions_batch_0000.parquet", rows := [1, 2] },
   { name := "transactions_batch_0001.parquet", rows := [3] }]

/-- A pre-existing chunk file of a table directory. -/
def oldChunk : BatchFile Nat :=
  { name := "customers_batch_0000.parquet", rows := [7] }

/-! ## Generic lemmas about the pseudorandom primitives -/

theorem choice_mem {α : Type} {s : Streams} {l : List α} {x : α}
    (h : (s.choice l).1 = some x) : x ∈ l :=
  List.get?_mem h

theorem getD_mem {α : Type} {l : List α} {i : Nat} {d : α} (hd : d ∈ l) :
    l.getD i d ∈ l := by
  rw [List.getD_eq_getD_get? l d i]
  cases h : l.get? i with
  | none => simpa using hd
  | some a => simpa using List.get?_mem h

theorem sampleAux_subset {α : Type} :
    ∀ (k : Nat) (l : List α) (s : Streams), ∀ x ∈ (sampleAux k l s).1, x ∈ l := by
  intro k
  induction k with
  | zero => intro l s x hx; simp [sampleAux] at hx
  | succ k ih =>
    intro l s x hx
    cases l with
    | nil => simp [sampleAux] at hx
    | cons a as =>
      have hsplit : (sampleAux (k + 1) (a :: as) s).1 =
          ((a :: as).getD ((nextRnd s).1 % (a :: as).length) a) ::
          (sampleAux k ((a :: as).eraseIdx ((nextRnd s).1 % (a :: as).length))
            (nextRnd s).2).1 := rfl
      rw [hsplit] at hx
      rcases List.mem_cons.mp hx with rfl | hx
      · exact getD_mem (List.mem_cons_self a as)
      · exact List.eraseIdx_subset _ _ (ih _ _ x hx)

theorem sampleAux_length_le {α : Type} :
    ∀ (k : Nat) (l : List α) (s : Streams), ((sampleAux k l s).1).length ≤ k := by
  intro k
  induction k with
  | zero => intro l s; simp [sampleAux]
  | succ k ih =>
    intro l s
    cases l with
    | nil => simp [sampleAux]
    | cons a as =>
      have hsplit : (sampleAux (k + 1) (a :: as) s).1 =
          ((a :: as).getD ((nextRnd s).1 % (a :: as).length) a) ::
          (sampleAux k ((a :: as).eraseIdx ((nextRnd s).1 % (a :: as).length))
            (nextRnd s).2).1 := rfl
      rw [hsplit]
      simpa using ih _ _

theorem sampleAux_length {α : Type} :
    ∀ (k : Nat) (l : List α) (s : Streams), k ≤ l.length →
      ((sampleAux k l s).1).length = k := by
  intro k
  induction k with
  | zero => intro l s _; simp [sampleAux]
  | succ k ih =>
    intro l s hk
    cases l with
    | nil => simp at hk
    | cons a as =>
      have hsplit : (sampleAux (k + 1) (a :: as) s).1 =
          ((a :: as).getD ((nextRnd s).1 % (a :: as).length) a) ::
          (sampleAux k ((a :: as).eraseIdx ((nextRnd s).1 % (a :: as).length))
            (nextRnd s).2).1 := rfl
      rw [hsplit]
      have hlt : (nextRnd s).1 % (a :: as).length < (a :: as).length :=
        Nat.mod_lt _ (by simp)
      have hlen : ((a :: as).eraseIdx ((nextRnd s).1 % (a :: as).length)).length =
          (a :: as).length - 1 := by
        rw [List.length_eraseIdx, if_pos hlt]
      have hk2 : k ≤ ((a :: as).eraseIdx ((nextRnd s).1 % (a :: as).length)).length := by
        rw [hlen]; simp only [List.length_cons] at hk ⊢; omega
      rw [List.length_cons, ih _ _ hk2]

theorem get_not_mem_eraseIdx {α : Type} {l : List α} (h : l.Nodup) {i : Nat}
    (hi : i < l.length) : l.get ⟨i, hi⟩ ∉ l.eraseIdx i := by
  intro hmem
  rw [List.mem_eraseIdx_iff_getElem] at hmem
  obtain ⟨j, hjl, hj, hget⟩ := hmem
  exact hj (List.Nodup.getElem_inj_iff h |>.mp (by simpa using hget))

theorem sampleAux_nodup {α : Type} :
    ∀ (k : Nat) (l : List α) (s : Streams), l.Nodup → ((sampleAux k l s).1).Nodup := by
  intro k
  induction k with
  | zero => intro l s _; simp [sampleAux]
  | succ k ih =>
    intro l s h
    cases l with
    | nil => simp [sampleAux]
    | cons a as =>
      have hsplit : (sampleAux (k + 1) (a :: as) s).1 =
          ((a :: as).getD ((nextRnd s).1 % (a :: as).length) a) ::
          (sampleAux k ((a :: as).eraseIdx ((nextRnd s).1 % (a :: as).length))
            (nextRnd s).2).1 := rfl
      rw [hsplit]
      have hlt : (nextRnd s).1 % (a :: as).length < (a :: as).length :=
        Nat.mod_lt _ (by simp)
      have hget : (a :: as).getD ((nextRnd s).1 % (a :: as).length) a =
          (a :: as).get ⟨(nextRnd s).1 % (a :: as).length, hlt⟩ := by
        rw [List.getD_eq_getD_get? _ a _, List.get?_eq_get hlt]
        rfl
      refine List.nodup_cons.mpr ⟨?_, ih _ _ (h.eraseIdx _)⟩
      intro hmem
      have hsub := sampleAux_subset k _ _ _ hmem
      rw [hget] at hsub
      exact get_not_mem_eraseIdx h hlt hsub

/-! ## Referential integrity of the seed transactions -/

theorem create_txn_ref {cids pids : List Nat} {c : Customer} {p : Product}
    (now : Int) (d : Option Int) (s : Streams)
    (hc : c.customer_id ∈ cids) (hp : p.product_id ∈ pids) :
    refOkTxn cids pids (create_txn now c p d s).1 :=
  ⟨hc, hp⟩

theorem mem_cid_map {c : Customer} {cs : List Customer} (h : c ∈ cs) :
    c.customer_id ∈ cs.map fun x => x.customer_id :=
  List.mem_map_of_mem _ h

theorem mem_pid_map {p : Product} {ps : List Product} (h : p ∈ ps) :
    p.product_id ∈ ps.map fun x => x.product_id :=
  List.mem_map_of_mem _ h

theorem seedCustomersSeg_subset (cs : List Customer) (seg : String) :
    seedCustomersSeg cs seg ⊆ cs :=
  List.filter_subset' cs

theorem seedProductsCB_subset (ps : List Product) (c b : String) :
    seedProductsCB ps c b ⊆ ps :=
  List.filter_subset' ps

theorem pattern1_inner_ref {cids pids : List Nat} (now : Int) (c : Customer)
    (ps : List Product) (s : Streams) (hc : c.customer_id ∈ cids)
    (hp : ∀ p ∈ ps, p.product_id ∈ pids) :
    ∀ t ∈ (pattern1_inner now c ps s).1, refOkTxn cids pids t := by
  induction ps generalizing s with
  | nil => intro t ht; simp [pattern1_inner] at ht
  | cons p ps ih =>
    intro t ht
    have hsplit : (pattern1_inner now c (p :: ps) s).1 =
        (create_txn now c p (some (s.randint 10 60).1) (s.randint 10 60).2).1 ::
        (pattern1_inner now c ps
          (create_txn now c p (some (s.randint 10 60).1) (s.randint 10 60).2).2).1 := rfl
    rw [hsplit] at ht
    rcases List.mem_cons.mp ht with rfl | ht
    · exact create_txn_ref _ _ _ hc (hp p (List.mem_cons_self _ _))
    · exact ih _ (fun q hq => hp q (List.mem_cons_of_mem _ hq)) t ht

theorem pattern1_loop_ref {cids pids : List Nat} (now : Int) (apple : List Product)
    (cs : List Customer) (s : Streams)
    (hcs : ∀ c ∈ cs, c.customer_id ∈ cids)
    (hp : ∀ p ∈ apple, p.product_id ∈ pids) :
    ∀ t ∈ (pattern1_loop now apple cs s).1, refOkTxn cids pids t := by
  induction cs generalizing s with
  | nil => intro t ht; simp [pattern1_loop] at ht
  | cons c cs ih =>
    intro t ht
    have hsplit : (pattern1_loop now apple (c :: cs) s).1 =
        (pattern1_inner now c (apple.take 3) s).1 ++
        (pattern1_loop now apple cs (pattern1_inner now c (apple.take 3) s).2).1 := rfl
    rw [hsplit] at ht
    rcases List.mem_append.mp ht with ht | ht
    · exact pattern1_inner_ref now c _ _ (hcs c (List.mem_cons_self _ _))
        (fun q hq => hp q (List.take_subset _ _ hq)) t ht
    · exact ih _ (fun q hq => hcs q (List.mem_cons_of_mem _ hq)) t ht

theorem pattern2_ref {cids pids : List Nat} (now : Int) (vips : List Customer)
    (samsung : List Product) (s : Streams)
    (hcs : ∀ c ∈ vips, c.customer_id ∈ cids)
    (hp : ∀ p ∈ samsung, p.product_id ∈ pids) :
    ∀ t ∈ (pattern2 now vips samsung s).1, refOkTxn cids pids t := by
  intro t ht
  rcases vips with _ | ⟨c0, _ | ⟨c1, _ | ⟨c2, _ | ⟨c3, crest⟩⟩⟩⟩ <;>
    rcases samsung with _ | ⟨p0, _ | ⟨p1, _ | ⟨p2, prest⟩⟩⟩ <;>
    simp only [pattern2] at ht <;>
    try exact absurd ht (List.not_mem_nil t)
  have m0 : c0 ∈ c0 :: c1 :: c2 :: c3 :: crest := List.mem_cons_self _ _
  have m1 : c1 ∈ c0 :: c1 :: c2 :: c3 :: crest := by simp
  have m2 : c2 ∈ c0 :: c1 :: c2 :: c3 :: crest := by simp
  have m3 : c3 ∈ c0 :: c1 :: c2 :: c3 :: crest := by simp
  have n0 : p0 ∈ p0 :: p1 :: p2 :: prest := List.mem_cons_self _ _
  have n1 : p1 ∈ p0 :: p1 :: p2 :: prest := by simp
  have n2 : p2 ∈ p0 :: p1 :: p2 :: prest := by simp
  simp only [List.mem_cons, List.not_mem_nil, or_false] at ht
  rcases ht with rfl | rfl | rfl | rfl | rfl | rfl
  · exact create_txn_ref _ _ _ (hcs c0 m0) (hp p0 n0)
  · exact create_txn_ref _ _ _ (hcs c1 m1) (hp p0 n0)
  · exact create_txn_ref _ _ _ (hcs c1 m1) (hp p1 n1)
  · exact create_txn_ref _ _ _ (hcs c2 m2) (hp p1 n1)
  · exact create_txn_ref _ _ _ (hcs c3 m3) (hp p1 n1)
  · exact create_txn_ref _ _ _ (hcs c3 m3) (hp p2 n2)

theorem pattern3_inner_ref {cids pids : List Nat} (now : Int) (c : Customer)
    (ps : List Product) (s : Streams) (hc : c.customer_id ∈ cids)
    (hp : ∀ p ∈ ps, p.product_id ∈ pids) :
    ∀ t ∈ (pattern3_inner now c ps s).1, refOkTxn cids pids t := by
  induction ps generalizing s with
  | nil => intro t ht; simp [pattern3_inner] at ht
  | cons p ps ih =>
    intro t ht
    have hsplit : (pattern3_inner now c (p :: ps) s).1 =
        (create_txn now c p none s).1 ::
        (pattern3_inner now c ps (create_txn now c p none s).2).1 := rfl
    rw [hsplit] at ht
    rcases List.mem_cons.mp ht with rfl | ht
    · exact create_txn_ref _ _ _ hc (hp p (List.mem_cons_self _ _))
    · exact ih _ (fun q hq => hp q (List.mem_cons_of_mem _ hq)) t ht

theorem pattern3_loop_ref {cids pids : List Nat} (now : Int) (sony : List Product)
    (cs : List Customer) (s : Streams)
    (hcs : ∀ c ∈ cs, c.customer_id ∈ cids)
    (hp : ∀ p ∈ sony, p.product_id ∈ pids) :
    ∀ t ∈ (pattern3_loop now sony cs s).1, refOkTxn cids pids t := by
  induction cs generalizing s with
  | nil => intro t ht; simp [pattern3_loop] at ht
  | cons c cs ih =>
    intro t ht
    have hsplit : (pattern3_loop now sony (c :: cs) s).1 =
        (pattern3_inner now c (sony.take (s.randint 2 3).1.toNat) (s.randint 2 3).2).1 ++
        (pattern3_loop now sony cs
          (pattern3_inner now c (sony.take (s.randint 2 3).1.toNat) (s.randint 2 3).2).2).1 := rfl
    rw [hsplit] at ht
    rcases List.mem_append.mp ht with ht | ht
    · exact pattern3_inner_ref now c _ _ (hcs c (List.mem_cons_self _ _))
        (fun q hq => hp q (List.take_subset _ _ hq)) t ht
    · exact ih _ (fun q hq => hcs q (List.mem_cons_of_mem _ hq)) t ht

theorem pattern4_one_ref {cids pids : List Nat} (now : Int)
    (clothing home : List Product) (c : Customer) (s : Streams)
    (hc : c.customer_id ∈ cids)
    (hp1 : ∀ p ∈ clothing, p.product_id ∈ pids)
    (hp2 : ∀ p ∈ home, p.product_id ∈ pids) :
    ∀ t ∈ (pattern4_one now clothing home c s).1, refOkTxn cids pids t := by
  intro t ht
  rcases clothing with _ | ⟨p, ps⟩ <;> rcases home with _ | ⟨q, qs⟩ <;>
    simp only [pattern4_one, List.nil_append, List.append_nil] at ht
  · exact absurd ht (List.not_mem_nil t)
  · rcases List.mem_singleton.mp ht with rfl
    exact create_txn_ref _ _ _ hc (hp2 q (List.mem_cons_self _ _))
  · rcases List.mem_singleton.mp ht with rfl
    exact create_txn_ref _ _ _ hc (hp1 p (List.mem_cons_self _ _))
  · simp only [List.mem_append, List.mem_singleton] at ht
    rcases ht with rfl | rfl
    · exact create_txn_ref _ _ _ hc (hp1 p (List.mem_cons_self _ _))
    · exact create_txn_ref _ _ _ hc (hp2 q (List.mem_cons_self _ _))

theorem pattern4_loop_ref {cids pids : List Nat} (now : Int)
    (clothing home : List Product) (cs : List Customer) (s : Streams)
    (hcs : ∀ c ∈ cs, c.customer_id ∈ cids)
    (hp1 : ∀ p ∈ clothing, p.product_id ∈ pids)
    (hp2 : ∀ p ∈ home, p.product_id ∈ pids) :
    ∀ t ∈ (pattern4_loop now clothing home cs s).1, refOkTxn cids pids t := by
  induction cs generalizing s with
  | nil => intro t ht; simp [pattern4_loop] at ht
  | cons c cs ih =>
    intro t ht
    have hsplit : (pattern4_loop now clothing home (c :: cs) s).1 =
        (pattern4_one now clothing home c s).1 ++
        (pattern4_loop now clothing home cs (pattern4_one now clothing home c s).2).1 := rfl
    rw [hsplit] at ht
    rcases List.mem_append.mp ht with ht | ht
    · exact pattern4_one_ref now clothing home c s (hcs c (List.mem_cons_self _ _)) hp1 hp2 t ht
    · exact ih _ (fun q hq => hcs q (List.mem_cons_of_mem _ hq)) t ht

theorem randomTxnFromPool_ref {cids pids : List Nat} (now : Int) (c : Customer)
    (pool : List Product) (s : Streams) (hc : c.customer_id ∈ cids)
    (hp : ∀ p ∈ pool, p.product_id ∈ pids) :
    ∀ t ∈ (randomTxnFromPool now c pool s).1, refOkTxn cids pids t := by
  intro t ht
  unfold randomTxnFromPool at ht
  by_cases he : pool.isEmpty
  · rw [if_pos he] at ht
    exact absurd ht (List.not_mem_nil t)
  · rw [if_neg he] at ht
    rcases hchoice : (s.choice pool).1 with _ | p
    all_goals
      have hsplit := ht
      rw [show (s.choice pool) = ((s.choice pool).1, (s.choice pool).2) from rfl] at hsplit
      rw [hchoice] at hsplit
    · exact absurd hsplit (List.not_mem_nil t)
    · rcases List.mem_singleton.mp hsplit with rfl
      exact create_txn_ref _ _ _ hc (hp p (choice_mem hchoice))

theorem pattern5_one_ref {cids pids : List Nat} (now : Int)
    (clothing home : List Product) (c : Customer) (s : Streams)
    (hc : c.customer_id ∈ cids)
    (hp1 : ∀ p ∈ clothing, p.product_id ∈ pids)
    (hp2 : ∀ p ∈ home, p.product_id ∈ pids) :
    ∀ t ∈ (pattern5_one now clothing home c s).1, refOkTxn cids pids t := by
  intro t ht
  have hsplit : (pattern5_one now clothing home c s).1 =
      (randomTxnFromPool now c clothing s).1 ++
      (randomTxnFromPool now c home (randomTxnFromPool now c clothing s).2).1 := rfl
  rw [hsplit] at ht
  rcases List.mem_append.mp ht with ht | ht
  · exact randomTxnFromPool_ref now c clothing s hc hp1 t ht
  · exact randomTxnFromPool_ref now c home _ hc hp2 t ht

theorem pattern5_custLoop_ref {cids pids : List Nat} (now : Int)
    (clothing home : List Product) (cs : List Customer) (s : Streams)
    (hcs : ∀ c ∈ cs, c.customer_id ∈ cids)
    (hp1 : ∀ p ∈ clothing, p.product_id ∈ pids)
    (hp2 : ∀ p ∈ home, p.product_id ∈ pids) :
    ∀ t ∈ (pattern5_custLoop now clothing home cs s).1, refOkTxn cids pids t := by
  induction cs generalizing s with
  | nil => intro t ht; simp [pattern5_custLoop] at ht
  | cons c cs ih =>
    intro t ht
    have hsplit : (pattern5_custLoop now clothing home (c :: cs) s).1 =
        (pattern5_one now clothing home c s).1 ++
        (pattern5_custLoop now clothing home cs (pattern5_one now clothing home c s).2).1 := rfl
    rw [hsplit] at ht
    rcases List.mem_append.mp ht with ht | ht
    · exact pattern5_one_ref now clothing home c s (hcs c (List.mem_cons_self _ _)) hp1 hp2 t ht
    · exact ih _ (fun q hq => hcs q (List.mem_cons_of_mem _ hq)) t ht

theorem pattern5_ref {cids pids : List Nat} (now : Int)
    (clothing home : List Product) (seedCs : List Customer) (s : Streams)
    (hcs : ∀ c ∈ seedCs, c.customer_id ∈ cids)
    (hp1 : ∀ p ∈ clothing, p.product_id ∈ pids)
    (hp2 : ∀ p ∈ home, p.product_id ∈ pids) :
    ∀ t ∈ (pattern5 now clothing home seedCs s).1, refOkTxn cids pids t := by
  intro t ht
  have hsplit : (pattern5 now clothing home seedCs s).1 =
      (pattern5_custLoop now clothing home
        (((seedCustomersSeg seedCs "VIP").drop 8).take 2) s).1 ++
      (pattern5_custLoop now clothing home
        (((seedCustomersSeg seedCs "Premium").drop 8).take 2)
        (pattern5_custLoop now clothing home
          (((seedCustomersSeg seedCs "VIP").drop 8).take 2) s).2).1 := rfl
  rw [hsplit] at ht
  have hv : ∀ c ∈ ((seedCustomersSeg seedCs "VIP").drop 8).take 2,
      c.customer_id ∈ cids := fun c hc =>
    hcs c (seedCustomersSeg_subset seedCs "VIP" (List.drop_subset _ _ (List.take_subset _ _ hc)))
  have hpm : ∀ c ∈ ((seedCustomersSeg seedCs "Premium").drop 8).take 2,
      c.customer_id ∈ cids := fun c hc =>
    hcs c (seedCustomersSeg_subset seedCs "Premium" (List.drop_subset _ _ (List.take_subset _ _ hc)))
  rcases List.mem_append.mp ht with ht | ht
  · exact pattern5_custLoop_ref now clothing home _ _ hv hp1 hp2 t ht
  · exact pattern5_custLoop_ref now clothing home _ _ hpm hp1 hp2 t ht

theorem pattern6_inner_ref {cids pids : List Nat} (now : Int) (c : Customer)
    (base : Int) (i : Nat) (ps : List Product) (s : Streams)
    (hc : c.customer_id ∈ cids)
    (hp : ∀ p ∈ ps, p.product_id ∈ pids) :
    ∀ t ∈ (pattern6_inner now c base i ps s).1, refOkTxn cids pids t := by
  induction ps generalizing s i with
  | nil => intro t ht; simp [pattern6_inner] at ht
  | cons p ps ih =>
    intro t ht
    have hsplit : (pattern6_inner now c base i (p :: ps) s).1 =
        ({ (create_txn now c p none s).1 with
            timestamp := base + dayMinutes (2 * (i : Int)) }) ::
        (pattern6_inner now c base (i + 1) ps (create_txn now c p none s).2).1 := rfl
    rw [hsplit] at ht
    rcases List.mem_cons.mp ht with rfl | ht
    · exact ⟨hc, hp p (List.mem_cons_self _ _)⟩
    · exact ih _ _ (fun q hq => hp q (List.mem_cons_of_mem _ hq)) t ht

theorem pattern6_one_ref {cids pids : List Nat} (now : Int) (adidas : List Product)
    (c : Customer) (s : Streams) (hc : c.customer_id ∈ cids)
    (hp : ∀ p ∈ adidas, p.product_id ∈ pids) :
    ∀ t ∈ (pattern6_one now adidas c s).1, refOkTxn cids pids t := by
  intro t ht
  have hsplit : (pattern6_one now adidas c s).1 =
      (pattern6_inner now c (now - dayMinutes (s.randint 30 60).1) 0
        (sampleAux (min 3 adidas.length) adidas (s.randint 30 60).2).1
        (sampleAux (min 3 adidas.length) adidas (s.randint 30 60).2).2).1 := rfl
  rw [hsplit] at ht
  exact pattern6_inner_ref now c _ 0 _ _ hc
    (fun q hq => hp q (sampleAux_subset _ _ _ q hq)) t ht

theorem pattern6_loop_ref {cids pids : List Nat} (now : Int) (adidas : List Product)
    (cs : List Customer) (s : Streams)
    (hcs : ∀ c ∈ cs, c.customer_id ∈ cids)
    (hp : ∀ p ∈ adidas, p.product_id ∈ pids) :
    ∀ t ∈ (pattern6_loop now adidas cs s).1, refOkTxn cids pids t := by
  induction cs generalizing s with
  | nil => intro t ht; simp [pattern6_loop] at ht
  | cons c cs ih =>
    intro t ht
    have hsplit : (pattern6_loop now adidas (c :: cs) s).1 =
        (pattern6_one now adidas c s).1 ++
        (pattern6_loop now adidas cs (pattern6_one now adidas c s).2).1 := rfl
    rw [hsplit] at ht
    rcases List.mem_append.mp ht with ht | ht
    · exact pattern6_one_ref now adidas c s (hcs c (List.mem_cons_self _ _)) hp t ht
    · exact ih _ (fun q hq => hcs q (List.mem_cons_of_mem _ hq)) t ht

theorem pickChainCustomers_subset (seedCs : List Customer) :
    ∀ (segs : List String) (s : Streams),
      ∀ c ∈ (pickChainCustomers seedCs segs s).1, c ∈ seedCs := by
  intro segs
  induction segs with
  | nil => intro s c hc; simp [pickChainCustomers] at hc
  | cons seg rest ih =>
    intro s c hc
    simp only [pickChainCustomers] at hc
    by_cases he : (seedCustomersSeg seedCs seg).isEmpty
    · rw [if_pos he] at hc
      exact ih s c hc
    · rw [if_neg he] at hc
      rcases List.mem_append.mp hc with hc | hc
      · rcases hx : (s.choice (seedCustomersSeg seedCs seg)).1 with _ | x
        all_goals rw [show s.choice (seedCustomersSeg seedCs seg) =
          ((s.choice (seedCustomersSeg seedCs seg)).1,
           (s.choice (seedCustomersSeg seedCs seg)).2) from rfl, hx] at hc
        · simp [Option.toList] at hc
        · simp only [Option.toList, List.mem_singleton] at hc
          subst hc
          exact seedCustomersSeg_subset seedCs seg (choice_mem hx)
      · exact ih _ c hc

theorem pattern7_emit_ref {cids pids : List Nat} (now : Int) (ccs : List Customer)
    (cps : List Product) :
    ∀ (edges : List (Nat × Nat)) (s : Streams),
      (∀ c ∈ ccs, c.customer_id ∈ cids) → (∀ p ∈ cps, p.product_id ∈ pids) →
      ∀ t ∈ (pattern7_emit now ccs cps edges s).1, refOkTxn cids pids t := by
  intro edges
  induction edges with
  | nil => intro s _ _ t ht; simp [pattern7_emit] at ht
  | cons e rest ih =>
    intro s hccs hcps t ht
    simp only [pattern7_emit] at ht
    rcases h1 : ccs.get? e.1 with _ | c <;> rcases h2 : cps.get? e.2 with _ | p <;>
      rw [h1, h2] at ht
    · exact ih _ hccs hcps t ht
    · exact ih _ hccs hcps t ht
    · exact ih _ hccs hcps t ht
    · rcases List.mem_cons.mp ht with rfl | ht
      · exact create_txn_ref _ _ _ (hccs c (List.get?_mem h1)) (hcps p (List.get?_mem h2))
      · exact ih _ hccs hcps t ht

theorem pattern7_chain_ref {cids pids : List Nat} (now : Int)
    (seedCs : List Customer) (allProducts : List Product) (s : Streams)
    (hcs : ∀ c ∈ seedCs, c.customer_id ∈ cids)
    (hp : ∀ p ∈ allProducts, p.product_id ∈ pids) :
    ∀ t ∈ (pattern7_chain now seedCs allProducts s).1, refOkTxn cids pids t := by
  intro t ht
  simp only [pattern7_chain] at ht
  rcases hE1 : sampleAux 3 ["VIP", "Premium", "Regular"] s with ⟨segs, s1⟩
  rw [hE1] at ht; dsimp only at ht
  rcases hE2 : pickChainCustomers seedCs segs s1 with ⟨ccs, s2⟩
  rw [hE2] at ht; dsimp only at ht
  have hccs : ∀ c ∈ ccs, c ∈ seedCs := by
    intro c hc
    have h := pickChainCustomers_subset seedCs segs s1 c
    rw [hE2] at h
    exact h hc
  have hcont : ∀ (ccs2 : List Customer) (s4 : Streams), (∀ c ∈ ccs2, c ∈ seedCs) →
      ∀ t2 ∈ (if ccs2.length < 4 then (([] : List Txn), s4)
        else if allProducts.length < 3 then (([] : List Txn), s4)
        else
          pattern7_emit now ccs2 (sampleAux 3 allProducts s4).1 chain_pattern
            (sampleAux 3 allProducts s4).2).1,
        refOkTxn cids pids t2 := by
    intro ccs2 s4 hc2 t2 ht2
    by_cases h4 : ccs2.length < 4
    · rw [if_pos h4] at ht2; exact absurd ht2 (List.not_mem_nil t2)
    · rw [if_neg h4] at ht2
      by_cases h5 : allProducts.length < 3
      · rw [if_pos h5] at ht2; exact absurd ht2 (List.not_mem_nil t2)
      · rw [if_neg h5] at ht2
        exact pattern7_emit_ref now ccs2 _ chain_pattern _
          (fun c hcc => hcs c (hc2 c hcc))
          (fun p hpp => hp p (sampleAux_subset _ _ _ p hpp)) t2 ht2
  by_cases h3 : ccs.length < 3
  · rw [if_pos h3] at ht; exact absurd ht (List.not_mem_nil t)
  · rw [if_neg h3] at ht
    rcases hE3 : s2.choice ["VIP", "Premium", "Regular"] with ⟨eSeg?, s3⟩
    rw [hE3] at ht; dsimp only at ht
    rcases eSeg? with _ | seg
    · exact hcont ccs s3 hccs t ht
    · dsimp only at ht
      by_cases hse : (seedCustomersSeg seedCs seg).isEmpty
      · rw [if_pos hse] at ht
        exact hcont ccs s3 hccs t ht
      · rw [if_neg hse] at ht
        rcases hE4 : s3.choice (seedCustomersSeg seedCs seg) with ⟨c?, s4⟩
        rw [hE4] at ht; dsimp only at ht
        rcases c? with _ | c
        · exact hcont ccs s4 hccs t ht
        · dsimp only at ht
          have hc : c ∈ seedCs :=
            seedCustomersSeg_subset seedCs seg
              (choice_mem (congrArg Prod.fst hE4))
          refine hcont (ccs ++ [c]) s4 ?_ t ht
          intro x hx
          rcases List.mem_append.mp hx with hx | hx
          · exact hccs x hx
          · rcases List.mem_singleton.mp hx with rfl
            exact hc

theorem pattern7_chains_ref {cids pids : List Nat} (now : Int)
    (seedCs : List Customer) (allProducts : List Product) :
    ∀ (n : Nat) (s : Streams),
      (∀ c ∈ seedCs, c.customer_id ∈ cids) →
      (∀ p ∈ allProducts, p.product_id ∈ pids) →
      ∀ t ∈ (pattern7_chains now seedCs allProducts n s).1, refOkTxn cids pids t := by
  intro n
  induction n with
  | zero => intro s _ _ t ht; simp [pattern7_chains] at ht
  | succ n ih =>
    intro s hcs hp t ht
    have hsplit : (pattern7_chains now seedCs allProducts (n + 1) s).1 =
        (pattern7_chain now seedCs allProducts s).1 ++
        (pattern7_chains now seedCs allProducts n
          (pattern7_chain now seedCs allProducts s).2).1 := rfl
    rw [hsplit] at ht
    rcases List.mem_append.mp ht with ht | ht
    · exact pattern7_chain_ref now seedCs allProducts s hcs hp t ht
    · exact ih _ hcs hp t ht

theorem pattern8_one_ref {cids pids : List Nat} (now : Int)
    (apple samsung : List Product) (c : Customer) (s : Streams)
    (hc : c.customer_id ∈ cids)
    (hp1 : ∀ p ∈ apple, p.product_id ∈ pids)
    (hp2 : ∀ p ∈ samsung, p.product_id ∈ pids) :
    ∀ t ∈ (pattern8_one now apple samsung c s).1, refOkTxn cids pids t := by
  intro t ht
  have hsplit : (pattern8_one now apple samsung c s).1 =
      (pattern3_inner now c
        ((sampleAux (min 2 apple.length) (apple ++ samsung) s).1.take
          ((sampleAux (min 2 apple.length) (apple ++ samsung) s).2.randint 1 2).1.toNat)
        ((sampleAux (min 2 apple.length) (apple ++ samsung) s).2.randint 1 2).2).1 := rfl
  rw [hsplit] at ht
  refine pattern3_inner_ref now c _ _ hc ?_ t ht
  intro p hpm
  have hin : p ∈ apple ++ samsung :=
    sampleAux_subset _ _ _ p (List.take_subset _ _ hpm)
  rcases List.mem_append.mp hin with h | h
  · exact hp1 p h
  · exact hp2 p h

theorem pattern8_loop_ref {cids pids : List Nat} (now : Int)
    (apple samsung : List Product) (cs : List Customer) (s : Streams)
    (hcs : ∀ c ∈ cs, c.customer_id ∈ cids)
    (hp1 : ∀ p ∈ apple, p.product_id ∈ pids)
    (hp2 : ∀ p ∈ samsung, p.product_id ∈ pids) :
    ∀ t ∈ (pattern8_loop now apple samsung cs s).1, refOkTxn cids pids t := by
  induction cs generalizing s with
  | nil => intro t ht; simp [pattern8_loop] at ht
  | cons c cs ih =>
    intro t ht
    have hsplit : (pattern8_loop now apple samsung (c :: cs) s).1 =
        (pattern8_one now apple samsung c s).1 ++
        (pattern8_loop now apple samsung cs (pattern8_one now apple samsung c s).2).1 := rfl
    rw [hsplit] at ht
    rcases List.mem_append.mp ht with ht | ht
    · exact pattern8_one_ref now apple samsung c s (hcs c (List.mem_cons_self _ _)) hp1 hp2 t ht
    · exact ih _ (fun q hq => hcs q (List.mem_cons_of_mem _ hq)) t ht

set_option maxHeartbeats 1000000 in
theorem pattern9_one_ref {cids pids : List Nat} (now : Int)
    (apple clothing books sports beauty : List Product) (c : Customer) (s : Streams)
    (hc : c.customer_id ∈ cids)
    (h1 : ∀ p ∈ apple, p.product_id ∈ pids)
    (h2 : ∀ p ∈ clothing, p.product_id ∈ pids)
    (h3 : ∀ p ∈ books, p.product_id ∈ pids)
    (h4 : ∀ p ∈ sports, p.product_id ∈ pids)
    (h5 : ∀ p ∈ beauty, p.product_id ∈ pids) :
    ∀ t ∈ (pattern9_one now apple clothing books sports beauty c s).1,
      refOkTxn cids pids t := by
  intro t ht
  have hsplit : (pattern9_one now apple clothing books sports beauty c s).1 =
      (randomTxnFromPool now c apple s).1 ++
      (randomTxnFromPool now c clothing (randomTxnFromPool now c apple s).2).1 ++
      (randomTxnFromPool now c books
        (randomTxnFromPool now c clothing (randomTxnFromPool now c apple s).2).2).1 ++
      (randomTxnFromPool now c sports
        (randomTxnFromPool now c books
          (randomTxnFromPool now c clothing (randomTxnFromPool now c apple s).2).2).2).1 ++
      (randomTxnFromPool now c beauty
        (randomTxnFromPool now c sports
          (randomTxnFromPool now c books
            (randomTxnFromPool now c clothing
              (randomTxnFromPool now c apple s).2).2).2).2).1 := rfl
  rw [hsplit] at ht
  simp only [List.mem_append] at ht
  rcases ht with ((((ht | ht) | ht) | ht) | ht)
  · exact randomTxnFromPool_ref now c apple _ hc h1 t ht
  · exact randomTxnFromPool_ref now c clothing _ hc h2 t ht
  · exact randomTxnFromPool_ref now c books _ hc h3 t ht
  · exact randomTxnFromPool_ref now c sports _ hc h4 t ht
  · exact randomTxnFromPool_ref now c beauty _ hc h5 t ht

theorem pattern9_loop_ref {cids pids : List Nat} (now : Int)
    (apple clothing books sports beauty : List Product) (cs : List Customer)
    (s : Streams) (hcs : ∀ c ∈ cs, c.customer_id ∈ cids)
    (h1 : ∀ p ∈ apple, p.product_id ∈ pids)
    (h2 : ∀ p ∈ clothing, p.product_id ∈ pids)
    (h3 : ∀ p ∈ books, p.product_id ∈ pids)
    (h4 : ∀ p ∈ sports, p.product_id ∈ pids)
    (h5 : ∀ p ∈ beauty, p.product_id ∈ pids) :
    ∀ t ∈ (pattern9_loop now apple clothing books sports beauty cs s).1,
      refOkTxn cids pids t := by
  induction cs generalizing s with
  | nil => intro t ht; simp [pattern9_loop] at ht
  | cons c cs ih =>
    intro t ht
    have hsplit : (pattern9_loop now apple clothing books sports beauty (c :: cs) s).1 =
        (pattern9_one now apple clothing books sports beauty c s).1 ++
        (pattern9_loop now apple clothing books sports beauty cs
          (pattern9_one now apple clothing books sports beauty c s).2).1 := rfl
    rw [hsplit] at ht
    rcases List.mem_append.mp ht with ht | ht
    · exact pattern9_one_ref now apple clothing books sports beauty c s
        (hcs c (List.mem_cons_self _ _)) h1 h2 h3 h4 h5 t ht
    · exact ih _ (fun q hq => hcs q (List.mem_cons_of_mem _ hq)) t ht

theorem pattern10_one_ref {cids pids : List Nat} (now : Int)
    (wayfair adidas : List Product) (c : Customer) (s : Streams)
    (hc : c.customer_id ∈ cids)
    (h1 : ∀ p ∈ wayfair, p.product_id ∈ pids)
    (h2 : ∀ p ∈ adidas, p.product_id ∈ pids) :
    ∀ t ∈ (pattern10_one now wayfair adidas c s).1, refOkTxn cids pids t := by
  intro t ht
  have hsplit : (pattern10_one now wayfair adidas c s).1 =
      (randomTxnFromPool now c wayfair s).1 ++
      (randomTxnFromPool now c adidas (randomTxnFromPool now c wayfair s).2).1 := rfl
  rw [hsplit] at ht
  rcases List.mem_append.mp ht with ht | ht
  · exact randomTxnFromPool_ref now c wayfair _ hc h1 t ht
  · exact randomTxnFromPool_ref now c adidas _ hc h2 t ht

theorem pattern10_custLoop_ref {cids pids : List Nat} (now : Int)
    (wayfair adidas : List Product) (cs : List Customer) (s : Streams)
    (hcs : ∀ c ∈ cs, c.customer_id ∈ cids)
    (h1 : ∀ p ∈ wayfair, p.product_id ∈ pids)
    (h2 : ∀ p ∈ adidas, p.product_id ∈ pids) :
    ∀ t ∈ (pattern10_custLoop now wayfair adidas cs s).1, refOkTxn cids pids t := by
  induction cs generalizing s with
  | nil => intro t ht; simp [pattern10_custLoop] at ht
  | cons c cs ih =>
    intro t ht
    have hsplit : (pattern10_custLoop now wayfair adidas (c :: cs) s).1 =
        (pattern10_one now wayfair adidas c s).1 ++
        (pattern10_custLoop now wayfair adidas cs
          (pattern10_one now wayfair adidas c s).2).1 := rfl
    rw [hsplit] at ht
    rcases List.mem_append.mp ht with ht | ht
    · exact pattern10_one_ref now wayfair adidas c s (hcs c (List.mem_cons_self _ _)) h1 h2 t ht
    · exact ih _ (fun q hq => hcs q (List.mem_cons_of_mem _ hq)) t ht

theorem pattern10_ref {cids pids : List Nat} (now : Int)
    (wayfair adidas : List Product) (seedCs : List Customer) (s : Streams)
    (hcs : ∀ c ∈ seedCs, c.customer_id ∈ cids)
    (h1 : ∀ p ∈ wayfair, p.product_id ∈ pids)
    (h2 : ∀ p ∈ adidas, p.product_id ∈ pids) :
    ∀ t ∈ (pattern10 now wayfair adidas seedCs s).1, refOkTxn cids pids t := by
  intro t ht
  have hsplit : (pattern10 now wayfair adidas seedCs s).1 =
      (pattern10_custLoop now wayfair adidas
        ((seedCustomersSeg seedCs "Basic").take 5) s).1 ++
      (pattern10_custLoop now wayfair adidas
        ((seedCustomersSeg seedCs "New").take 5)
        (pattern10_custLoop now wayfair adidas
          ((seedCustomersSeg seedCs "Basic").take 5) s).2).1 := rfl
  rw [hsplit] at ht
  have hb : ∀ c ∈ (seedCustomersSeg seedCs "Basic").take 5, c.customer_id ∈ cids :=
    fun c hc => hcs c (seedCustomersSeg_subset seedCs "Basic" (List.take_subset _ _ hc))
  have hn : ∀ c ∈ (seedCustomersSeg seedCs "New").take 5, c.customer_id ∈ cids :=
    fun c hc => hcs c (seedCustomersSeg_subset seedCs "New" (List.take_subset _ _ hc))
  rcases List.mem_append.mp ht with ht | ht
  · exact pattern10_custLoop_ref now wayfair adidas _ _ hb h1 h2 t ht
  · exact pattern10_custLoop_ref now wayfair adidas _ _ hn h1 h2 t ht

set_option maxHeartbeats 2000000 in
/-- Every seed transaction references a seed customer and a seed
product. -/
theorem generate_seed_transactions_ref (now : Int) (seedCs : List Customer)
    (seedPs : List Product) (s : Streams) :
    ∀ t ∈ (generate_seed_transactions now seedCs seedPs s).1,
      refOkTxn (seedCs.map fun c => c.customer_id)
        (seedPs.map fun p => p.product_id) t := by
  intro t ht
  have hcsAll : ∀ c ∈ seedCs, c.customer_id ∈ seedCs.map fun c => c.customer_id :=
    fun c hc => mem_cid_map hc
  have hpsAll : ∀ p ∈ seedPs, p.product_id ∈ seedPs.map fun p => p.product_id :=
    fun p hp => mem_pid_map hp
  have hcb : ∀ (cat br : String), ∀ p ∈ seedProductsCB seedPs cat br,
      p.product_id ∈ seedPs.map fun p => p.product_id :=
    fun cat br p hp => mem_pid_map (seedProductsCB_subset seedPs cat br hp)
  have hseg : ∀ (seg : String), ∀ c ∈ seedCustomersSeg seedCs seg,
      c.customer_id ∈ seedCs.map fun c => c.customer_id :=
    fun seg c hc => mem_cid_map (seedCustomersSeg_subset seedCs seg hc)
  have hsegTake : ∀ (seg : String) (n : Nat), ∀ c ∈ (seedCustomersSeg seedCs seg).take n,
      c.customer_id ∈ seedCs.map fun c => c.customer_id :=
    fun seg n c hc => hseg seg c (List.take_subset _ _ hc)
  have hsegDropTake : ∀ (seg : String) (m n : Nat),
      ∀ c ∈ ((seedCustomersSeg seedCs seg).drop m).take n,
      c.customer_id ∈ seedCs.map fun c => c.customer_id :=
    fun seg m n c hc => hseg seg c (List.drop_subset _ _ (List.take_subset _ _ hc))
  rcases List.mem_append.mp ht with ht | ht
  rotate_left
  · exact pattern10_ref now _ _ seedCs _ hcsAll (hcb "Home" "Wayfair")
      (hcb "Clothing" "Adidas") t ht
  rcases List.mem_append.mp ht with ht | ht
  rotate_left
  · exact pattern9_loop_ref now _ _ _ _ _ _ _ (hsegDropTake "Premium" 5 3)
      (hcb "Electronics" "Apple") (hcb "Clothing" "Nike") (hcb "Books" "Penguin")
      (hcb "Sports" "Nike") (hcb "Beauty" "Loreal") t ht
  rcases List.mem_append.mp ht with ht | ht
  rotate_left
  · exact pattern8_loop_ref now _ _ _ _ (hsegDropTake "VIP" 5 3)
      (hcb "Electronics" "Apple") (hcb "Electronics" "Samsung") t ht
  rcases List.mem_append.mp ht with ht | ht
  rotate_left
  · exact pattern7_chains_ref now seedCs seedPs 5 _ hcsAll hpsAll t ht
  rcases List.mem_append.mp ht with ht | ht
  rotate_left
  · exact pattern6_loop_ref now _ _ _ (hsegTake "Regular" 5)
      (hcb "Clothing" "Adidas") t ht
  rcases List.mem_append.mp ht with ht | ht
  rotate_left
  · exact pattern5_ref now _ _ seedCs _ hcsAll (hcb "Clothing" "Nike")
      (hcb "Home" "IKEA") t ht
  rcases List.mem_append.mp ht with ht | ht
  rotate_left
  · exact pattern4_loop_ref now _ _ _ _ (hsegTake "VIP" 3)
      (hcb "Clothing" "Nike") (hcb "Home" "IKEA") t ht
  rcases List.mem_append.mp ht with ht | ht
  rotate_left
  · exact pattern3_loop_ref now _ _ _ (hsegTake "Premium" 5)
      (hcb "Electronics" "Sony") t ht
  rcases List.mem_append.mp ht with ht | ht
  · exact pattern1_loop_ref now _ _ _ (hsegTake "VIP" 5)
      (hcb "Electronics" "Apple") t ht
  · exact pattern2_ref now _ _ _ (hseg "VIP")
      (hcb "Electronics" "Samsung") t ht

/-! ## Referential integrity of the bulk transactions -/

theorem choice_mem_getD {α : Type} {s : Streams} {l : List α} (h : l ≠ []) (d : α) :
    ((s.choice l).1).getD d ∈ l := by
  cases hx : (s.choice l).1 with
  | some x => simpa using choice_mem hx
  | none =>
    exfalso
    have hlen : 0 < l.length := List.length_pos.mpr h
    have hlt : (nextRnd s).1 % l.length < l.length := Nat.mod_lt _ hlen
    have hget := List.get?_eq_get hlt
    rw [show (s.choice l).1 = l.get? ((nextRnd s).1 % l.length) from rfl, hget] at hx
    cases hx

theorem select_product_mem {pd : List Product} {aff : Option String}
    {excl : List String} {s : Streams} {p : Product}
    (h : (select_product pd aff excl s).1 = some p) : p ∈ pd := by
  unfold select_product at h
  rcases aff with _ | b
  · dsimp only at h
    split at h
    · exact choice_mem h
    · exact List.filter_subset' pd (choice_mem h)
  · dsimp only at h
    split at h
    next p2 heq =>
      cases h
      split at heq
      · split at heq
        · cases heq
        · split at heq
          · cases heq
          · exact List.filter_subset' pd
              (List.filter_subset' (products_by_brand pd b) (choice_mem heq))
      · cases heq
    next heq =>
      split at h
      · exact choice_mem h
      · exact List.filter_subset' pd (choice_mem h)

theorem basketItemsLoop_ref {cids pids : List Nat} (now : Int)
    (pd : List Product) (cid : Nat) (mult : ℚ) (primary : Txn)
    (hc : cid ∈ cids) (hps : ∀ p ∈ pd, p.product_id ∈ pids) :
    ∀ (kws : List String) (s : Streams),
      ∀ t ∈ (basketItemsLoop now pd cid mult primary kws s).1, refOkTxn cids pids t := by
  intro kws
  induction kws with
  | nil => intro s t ht; simp [basketItemsLoop] at ht
  | cons kw rest ih =>
    intro s t ht
    simp only [basketItemsLoop] at ht
    by_cases he : (pd.filter (fun (p : Product) => strContains p.name kw)).isEmpty
    · rw [if_pos he] at ht
      exact ih _ t ht
    · rw [if_neg he] at ht
      rcases hbp : (s.choice (pd.filter (fun (p : Product) => strContains p.name kw))).1
        with _ | bp
      all_goals rw [show s.choice (pd.filter (fun (p : Product) => strContains p.name kw)) =
        ((s.choice (pd.filter (fun (p : Product) => strContains p.name kw))).1,
         (s.choice (pd.filter (fun (p : Product) => strContains p.name kw))).2) from rfl,
        hbp] at ht
      · exact ih _ t ht
      · dsimp only at ht
        rcases List.mem_append.mp ht with ht | ht
        · rcases List.mem_singleton.mp ht with rfl
          exact ⟨hc, hps bp (List.filter_subset' pd (choice_mem hbp))⟩
        · exact ih _ t ht

theorem basket_for_txn_ref {cids pids : List Nat} (now : Int) (pd : List Product)
    (cid : Nat) (mult : ℚ) (primary : Txn) (pname : String) (s : Streams)
    (hc : cid ∈ cids) (hps : ∀ p ∈ pd, p.product_id ∈ pids) :
    ∀ t ∈ (basket_for_txn now pd cid mult primary pname s).1, refOkTxn cids pids t := by
  intro t ht
  simp only [basket_for_txn] at ht
  by_cases he : (_get_product_basket pname).isEmpty
  · rw [if_pos he] at ht
    exact absurd ht (List.not_mem_nil t)
  · rw [if_neg he] at ht
    split at ht
    · exact basketItemsLoop_ref now pd cid mult primary hc hps _ _ t ht
    · exact absurd ht (List.not_mem_nil t)

theorem bulkTxnOnce_ref {cids pids : List Nat} (now : Int) (pd : List Product)
    (cid : Nat) (mult : ℚ) (aff : Option String) (excl : List String) (s : Streams)
    (hc : cid ∈ cids) (hps : ∀ p ∈ pd, p.product_id ∈ pids) :
    ∀ r, (bulkTxnOnce now pd cid mult aff excl s).1 = some r →
      refOkTxn cids pids r.1 ∧ ∀ b ∈ r.2, refOkTxn cids pids b := by
  intro r hr
  unfold bulkTxnOnce at hr
  rcases hp : (select_product pd aff excl s).1 with _ | p
  all_goals rw [show select_product pd aff excl s =
    ((select_product pd aff excl s).1, (select_product pd aff excl s).2) from rfl,
    hp] at hr
  · cases hr
  · dsimp only at hr
    cases hr
    have hpm : p ∈ pd := select_product_mem hp
    constructor
    · exact ⟨hc, hps p hpm⟩
    · exact basket_for_txn_ref now pd cid mult _ _ _ hc hps

theorem bulkTxnLoop_ref {cids pids : List Nat} (now : Int) (pd : List Product)
    (cid : Nat) (mult : ℚ) (aff : Option String) (excl : List String)
    (hc : cid ∈ cids) (hps : ∀ p ∈ pd, p.product_id ∈ pids) :
    ∀ (n : Nat) (s : Streams),
      (∀ t ∈ ((bulkTxnLoop now pd cid mult aff excl n s).1).1, refOkTxn cids pids t) ∧
      (∀ t ∈ ((bulkTxnLoop now pd cid mult aff excl n s).1).2, refOkTxn cids pids t) := by
  intro n
  induction n with
  | zero => intro s; constructor <;> intro t ht <;> simp [bulkTxnLoop] at ht
  | succ n ih =>
    intro s
    simp only [bulkTxnLoop]
    rcases hr : (bulkTxnOnce now pd cid mult aff excl s).1 with _ | r
    all_goals rw [show bulkTxnOnce now pd cid mult aff excl s =
      ((bulkTxnOnce now pd cid mult aff excl s).1,
       (bulkTxnOnce now pd cid mult aff excl s).2) from rfl, hr]
    · dsimp only
      exact ih _
    · dsimp only
      rcases r with ⟨t0, bs0⟩
      have h0 := bulkTxnOnce_ref now pd cid mult aff excl s hc hps (t0, bs0) hr
      constructor
      · intro t ht
        rcases List.mem_cons.mp ht with rfl | ht
        · exact h0.1
        · exact (ih _).1 t ht
      · intro t ht
        rcases List.mem_append.mp ht with ht | ht
        · exact h0.2 t ht
        · exact (ih _).2 t ht

theorem cross_for_txn_ref {cids pids : List Nat} (now : Int) (pd : List Product)
    (cid : Nat) (mult : ℚ) (excl : List String) (t0 : Txn) (s : Streams)
    (hc : cid ∈ cids) (hps : ∀ p ∈ pd, p.product_id ∈ pids) :
    ∀ t ∈ (cross_for_txn now pd cid mult excl t0 s).1, refOkTxn cids pids t := by
  intro t ht
  simp only [cross_for_txn] at ht
  split at ht
  · split at ht
    next current heq =>
      split at ht
      · exact absurd ht (List.not_mem_nil t)
      · rcases hac : ((s.random).2.choice
            (_get_category_affinity_categories current.category)).1 with _ | ac
        all_goals rw [show (s.random).2.choice
            (_get_category_affinity_categories current.category) =
          (((s.random).2.choice (_get_category_affinity_categories current.category)).1,
           ((s.random).2.choice (_get_category_affinity_categories current.category)).2)
          from rfl, hac] at ht
        · exact absurd ht (List.not_mem_nil t)
        · dsimp only at ht
          split at ht
          · rcases hcp : (((s.random).2.choice
                (_get_category_affinity_categories current.category)).2.choice
                (products_by_category pd ac)).1 with _ | cp
            all_goals rw [show ((s.random).2.choice
                (_get_category_affinity_categories current.category)).2.choice
                (products_by_category pd ac) =
              ((((s.random).2.choice
                  (_get_category_affinity_categories current.category)).2.choice
                  (products_by_category pd ac)).1,
               (((s.random).2.choice
                  (_get_category_affinity_categories current.category)).2.choice
                  (products_by_category pd ac)).2) from rfl, hcp] at ht
            · exact absurd ht (List.not_mem_nil t)
            · rcases List.mem_singleton.mp ht with rfl
              exact ⟨hc, hps cp (List.filter_subset' pd (choice_mem hcp))⟩
          · exact absurd ht (List.not_mem_nil t)
    next heq => exact absurd ht (List.not_mem_nil t)
  · exact absurd ht (List.not_mem_nil t)

theorem crossLoop_ref {cids pids : List Nat} (now : Int) (pd : List Product)
    (cid : Nat) (mult : ℚ) (excl : List String)
    (hc : cid ∈ cids) (hps : ∀ p ∈ pd, p.product_id ∈ pids) :
    ∀ (ts : List Txn) (s : Streams),
      ∀ t ∈ (crossLoop now pd cid mult excl ts s).1, refOkTxn cids pids t := by
  intro ts
  induction ts with
  | nil => intro s t ht; simp [crossLoop] at ht
  | cons t0 rest ih =>
    intro s t ht
    have hsplit : (crossLoop now pd cid mult excl (t0 :: rest) s).1 =
        (cross_for_txn now pd cid mult excl t0 s).1 ++
        (crossLoop now pd cid mult excl rest
          (cross_for_txn now pd cid mult excl t0 s).2).1 := rfl
    rw [hsplit] at ht
    rcases List.mem_append.mp ht with ht | ht
    · exact cross_for_txn_ref now pd cid mult excl t0 s hc hps t ht
    · exact ih _ t ht

theorem bulkCustomerTxns_ref {cids pids : List Nat} (now : Int) (pd : List Product)
    (c : Customer) (aff : Option String) (excl : List String) (s : Streams)
    (hc : c.customer_id ∈ cids) (hps : ∀ p ∈ pd, p.product_id ∈ pids) :
    (∀ t ∈ ((bulkCustomerTxns now pd c aff excl s).1).1, refOkTxn cids pids t) ∧
    (∀ t ∈ ((bulkCustomerTxns now pd c aff excl s).1).2.1, refOkTxn cids pids t) ∧
    (∀ t ∈ ((bulkCustomerTxns now pd c aff excl s).1).2.2, refOkTxn cids pids t) := by
  refine ⟨?_, ?_, ?_⟩
  · intro t ht
    exact (bulkTxnLoop_ref now pd c.customer_id (amount_multiplier c.segment)
      aff excl hc hps _ _).1 t ht
  · intro t ht
    exact crossLoop_ref now pd c.customer_id (amount_multiplier c.segment)
      excl hc hps _ _ t ht
  · intro t ht
    exact (bulkTxnLoop_ref now pd c.customer_id (amount_multiplier c.segment)
      aff excl hc hps _ _).2 t ht

theorem bulkTxnsAllCustomers_ref {cids pids : List Nat} (now : Int)
    (pd : List Product) (affM : List (Nat × Option String))
    (exclM : List (Nat × List String))
    (hps : ∀ p ∈ pd, p.product_id ∈ pids) :
    ∀ (cs : List Customer) (s : Streams), (∀ c ∈ cs, c.customer_id ∈ cids) →
      (∀ t ∈ ((bulkTxnsAllCustomers now pd affM exclM cs s).1).1, refOkTxn cids pids t) ∧
      (∀ t ∈ ((bulkTxnsAllCustomers now pd affM exclM cs s).1).2, refOkTxn cids pids t) := by
  intro cs
  induction cs with
  | nil =>
    intro s _
    constructor <;> intro t ht <;> simp [bulkTxnsAllCustomers] at ht
  | cons c rest ih =>
    intro s hcs
    have hc : c.customer_id ∈ cids := hcs c (List.mem_cons_self _ _)
    have hrest : ∀ x ∈ rest, x.customer_id ∈ cids :=
      fun x hx => hcs x (List.mem_cons_of_mem _ hx)
    have hcur := bulkCustomerTxns_ref now pd c (dict_get_aff affM c.customer_id)
      (dict_get_excl exclM c.customer_id) s hc hps
    have hsplit1 : ((bulkTxnsAllCustomers now pd affM exclM (c :: rest) s).1).1 =
        ((bulkCustomerTxns now pd c (dict_get_aff affM c.customer_id)
          (dict_get_excl exclM c.customer_id) s).1).1 ++
        ((bulkCustomerTxns now pd c (dict_get_aff affM c.customer_id)
          (dict_get_excl exclM c.customer_id) s).1).2.1 ++
        ((bulkTxnsAllCustomers now pd affM exclM rest
          (bulkCustomerTxns now pd c (dict_get_aff affM c.customer_id)
            (dict_get_excl exclM c.customer_id) s).2).1).1 := rfl
    have hsplit2 : ((bulkTxnsAllCustomers now pd affM exclM (c :: rest) s).1).2 =
        ((bulkCustomerTxns now pd c (dict_get_aff affM c.customer_id)
          (dict_get_excl exclM c.customer_id) s).1).2.2 ++
        ((bulkTxnsAllCustomers now pd affM exclM rest
          (bulkCustomerTxns now pd c (dict_get_aff affM c.customer_id)
            (dict_get_excl exclM c.customer_id) s).2).1).2 := rfl
    constructor
    · intro t ht
      rw [hsplit1] at ht
      rcases List.mem_append.mp ht with ht | ht
      · rcases List.mem_append.mp ht with ht | ht
        · exact hcur.1 t ht
        · exact hcur.2.1 t ht
      · exact (ih _ hrest).1 t ht
    · intro t ht
      rw [hsplit2] at ht
      rcases List.mem_append.mp ht with ht | ht
      · exact hcur.2.2 t ht
      · exact (ih _ hrest).2 t ht

theorem generate_transactions_ref (now : Int) (customers : List Customer)
    (products : List Product) (affM : List (Nat × Option String))
    (exclM : List (Nat × List String)) (s : Streams) :
    ∀ t ∈ (generate_transactions now customers products affM exclM s).1,
      refOkTxn (customers.map fun c => c.customer_id)
        (products.map fun p => p.product_id) t := by
  intro t ht
  have hall := bulkTxnsAllCustomers_ref now products affM exclM
    (fun p hp => mem_pid_map hp) customers s (fun c hc => mem_cid_map hc)
  rcases List.mem_append.mp ht with ht | ht
  · exact hall.1 t ht
  · exact hall.2 t ht

/-! ## Referential integrity of chains and interactions -/

theorem chainStep_ref {cids pids : List Nat} (now : Int) (existing : List Txn)
    (c : Customer) (p : Product) (base : Int) (s : Streams)
    (hc : c.customer_id ∈ cids) (hp : p.product_id ∈ pids) :
    ∀ t ∈ (chainStep now existing c p base s).1, refOkTxn cids pids t := by
  intro t ht
  unfold chainStep at ht
  split at ht
  · exact absurd ht (List.not_mem_nil t)
  · rcases List.mem_singleton.mp ht with rfl
    exact ⟨hc, hp⟩

theorem emit_chain_ref {cids pids : List Nat} (now : Int) (ccs : List Customer)
    (cps : List Product) (existing : List Txn) (base : Int) :
    ∀ (edges : List (Nat × Nat)) (s : Streams),
      (∀ c ∈ ccs, c.customer_id ∈ cids) → (∀ p ∈ cps, p.product_id ∈ pids) →
      ∀ t ∈ (emit_chain now ccs cps existing base edges s).1, refOkTxn cids pids t := by
  intro edges
  induction edges with
  | nil => intro s _ _ t ht; simp [emit_chain] at ht
  | cons e rest ih =>
    intro s hccs hcps t ht
    simp only [emit_chain] at ht
    rcases h1 : ccs.get? e.1 with _ | c <;> rcases h2 : cps.get? e.2 with _ | p <;>
      rw [h1, h2] at ht
    · exact ih _ hccs hcps t ht
    · exact ih _ hccs hcps t ht
    · exact ih _ hccs hcps t ht
    · rcases List.mem_append.mp ht with ht | ht
      · exact chainStep_ref now existing c p base _
          (hccs c (List.get?_mem h1)) (hcps p (List.get?_mem h2)) t ht
      · exact ih _ hccs hcps t ht

theorem one_chain_ref {cids pids : List Nat} (now : Int) (segCs : List Customer)
    (products : List Product) (existing : List Txn) (s : Streams)
    (hcs : ∀ c ∈ segCs, c.customer_id ∈ cids)
    (hps : ∀ p ∈ products, p.product_id ∈ pids) :
    ∀ t ∈ (one_chain now segCs products existing s).1, refOkTxn cids pids t := by
  intro t ht
  simp only [one_chain] at ht
  rcases hE1 : sampleAux 4 segCs s with ⟨ccs, s1⟩
  rw [hE1] at ht; dsimp only at ht
  have hccs : ∀ c ∈ ccs, c.customer_id ∈ cids := by
    intro c hc
    have h := sampleAux_subset 4 segCs s c
    rw [hE1] at h
    exact hcs c (h hc)
  by_cases h3 : 3 ≤ (products_by_category products "Electronics").length
  · rw [if_pos h3] at ht
    dsimp only at ht
    refine emit_chain_ref now ccs _ existing _ chain_pattern _ hccs ?_ t ht
    intro p hp
    exact hps p (List.filter_subset' products (sampleAux_subset _ _ _ p hp))
  · rw [if_neg h3] at ht
    rcases hf : (firstOccurrenceOrder (products.map fun p => p.category)).find?
        (fun cat => decide (3 ≤ (products_by_category products cat).length))
      with _ | cat
    all_goals rw [hf] at ht; dsimp only at ht
    · exact absurd ht (List.not_mem_nil t)
    · refine emit_chain_ref now ccs _ existing _ chain_pattern _ hccs ?_ t ht
      intro p hp
      exact hps p (List.filter_subset' products (sampleAux_subset _ _ _ p hp))

theorem chains_for_segment_ref {cids pids : List Nat} (now : Int)
    (segCs : List Customer) (products : List Product) (existing : List Txn)
    (hcs : ∀ c ∈ segCs, c.customer_id ∈ cids)
    (hps : ∀ p ∈ products, p.product_id ∈ pids) :
    ∀ (n : Nat) (s : Streams),
      ∀ t ∈ (chains_for_segment now segCs products existing n s).1,
        refOkTxn cids pids t := by
  intro n
  induction n with
  | zero => intro s t ht; simp [chains_for_segment] at ht
  | succ n ih =>
    intro s t ht
    have hsplit : (chains_for_segment now segCs products existing (n + 1) s).1 =
        (one_chain now segCs products existing s).1 ++
        (chains_for_segment now segCs products existing n
          (one_chain now segCs products existing s).2).1 := rfl
    rw [hsplit] at ht
    rcases List.mem_append.mp ht with ht | ht
    · exact one_chain_ref now segCs products existing s hcs hps t ht
    · exact ih _ t ht

theorem chainsSegLoop_ref {cids pids : List Nat} (now : Int)
    (customers : List Customer) (products : List Product) (existing : List Txn)
    (num_chains : Nat)
    (hcs : ∀ c ∈ customers, c.customer_id ∈ cids)
    (hps : ∀ p ∈ products, p.product_id ∈ pids) :
    ∀ (segs : List String) (s : Streams),
      ∀ t ∈ (chainsSegLoop now customers products existing num_chains segs s).1,
        refOkTxn cids pids t := by
  intro segs
  induction segs with
  | nil => intro s t ht; simp [chainsSegLoop] at ht
  | cons seg rest ih =>
    intro s t ht
    simp only [chainsSegLoop] at ht
    by_cases hlen : (customers.filter (fun c => c.segment == seg)).length < 4
    · rw [if_pos hlen] at ht
      exact ih _ t ht
    · rw [if_neg hlen] at ht
      rcases List.mem_append.mp ht with ht | ht
      · exact chains_for_segment_ref now _ products existing
          (fun c hc => hcs c (List.filter_subset' customers hc)) hps _ _ t ht
      · exact ih _ t ht

/-- Every transaction after `create_recommendation_chains` is either an
incoming transaction or references the given customers and products. -/
theorem create_recommendation_chains_ref (now : Int) (customers : List Customer)
    (products : List Product) (transactions : List Txn) (num_chains : Nat)
    (s : Streams) :
    ∀ t ∈ (create_recommendation_chains now customers products transactions
        num_chains s).1,
      t ∈ transactions ∨
        refOkTxn (customers.map fun c => c.customer_id)
          (products.map fun p => p.product_id) t := by
  intro t ht
  have hsplit : (create_recommendation_chains now customers products transactions
      num_chains s).1 =
      transactions ++ (chainsSegLoop now customers products transactions num_chains
        ["VIP", "Premium", "Regular"] s).1 := rfl
  rw [hsplit] at ht
  rcases List.mem_append.mp ht with ht | ht
  · exact Or.inl ht
  · exact Or.inr (chainsSegLoop_ref now customers products transactions num_chains
      (fun c hc => mem_cid_map hc) (fun p hp => mem_pid_map hp) _ _ t ht)

theorem choicesK_mem {l : List Nat} (hne : l ≠ []) :
    ∀ (k : Nat) (s : Streams), ∀ x ∈ (choicesK l k s).1, x ∈ l := by
  intro k
  induction k with
  | zero => intro s x hx; simp [choicesK] at hx
  | succ k ih =>
    intro s x hx
    have hsplit : (choicesK l (k + 1) s).1 =
        ((l.get? ((nextRnd s).1 % l.length)).getD 0) ::
        (choicesK l k (nextRnd s).2).1 := rfl
    rw [hsplit] at hx
    rcases List.mem_cons.mp hx with rfl | hx
    · have hlen : 0 < l.length := List.length_pos.mpr hne
      have hlt : (nextRnd s).1 % l.length < l.length := Nat.mod_lt _ hlen
      rw [List.get?_eq_get hlt]
      simp
    · exact ih _ x hx

theorem mkBulkInteraction_ref {cids pids : List Nat} (now : Int) (cid : Nat)
    (pidsIn : List Nat) (s : Streams) (hc : cid ∈ cids)
    (hne : pidsIn ≠ []) (hsub : ∀ x ∈ pidsIn, x ∈ pids) :
    ((mkBulkInteraction now cid pidsIn s).1).customer_id ∈ cids ∧
    ((mkBulkInteraction now cid pidsIn s).1).product_id ∈ pids := by
  refine ⟨hc, ?_⟩
  show (((s.uuid4).2.choice pidsIn).1).getD 0 ∈ pids
  exact hsub _ (choice_mem_getD hne 0)

theorem bulkInterLoop_ref {cids pids : List Nat} (now : Int) (pidsIn : List Nat)
    (hne : pidsIn ≠ []) (hsub : ∀ x ∈ pidsIn, x ∈ pids) :
    ∀ (cs : List Nat) (s : Streams), (∀ x ∈ cs, x ∈ cids) →
      ∀ i ∈ (bulkInterLoop now pidsIn cs s).1,
        i.customer_id ∈ cids ∧ i.product_id ∈ pids := by
  intro cs
  induction cs with
  | nil => intro s _ i hi; simp [bulkInterLoop] at hi
  | cons cid rest ih =>
    intro s hcs i hi
    have hsplit : (bulkInterLoop now pidsIn (cid :: rest) s).1 =
        (mkBulkInteraction now cid pidsIn s).1 ::
        (bulkInterLoop now pidsIn rest (mkBulkInteraction now cid pidsIn s).2).1 := rfl
    rw [hsplit] at hi
    rcases List.mem_cons.mp hi with rfl | hi
    · exact mkBulkInteraction_ref now cid pidsIn s
        (hcs cid (List.mem_cons_self _ _)) hne hsub
    · exact ih _ (fun x hx => hcs x (List.mem_cons_of_mem _ hx)) i hi

theorem generate_interactions_ref (now : Int) (scale : Nat)
    (customers : List Customer) (products : List Product) (s : Streams)
    (hcne : customers ≠ [] ∨ scale = 0) (hpne : products ≠ []) :
    ∀ i ∈ (generate_interactions now scale customers products s).1,
      i.customer_id ∈ (customers.map fun c => c.customer_id) ∧
      i.product_id ∈ (products.map fun p => p.product_id) := by
  intro i hi
  rcases hcne with hcne | rfl
  · have hidne : (customers.map fun c => c.customer_id) ≠ [] := by
      intro h
      exact hcne (List.map_eq_nil_iff.mp h)
    have hpidne : (products.map fun p => p.product_id) ≠ [] := by
      intro h
      exact hpne (List.map_eq_nil_iff.mp h)
    refine bulkInterLoop_ref now _ hpidne (fun x hx => hx) _ _ ?_ i hi
    intro x hx
    exact choicesK_mem hidne _ _ x hx
  · have : (choicesK (customers.map fun c => c.customer_id) (0 * 25) s).1 = [] := rfl
    have hnil : (generate_interactions now 0 customers products s).1 = [] := by
      show (bulkInterLoop now (products.map fun p => p.product_id)
        (choicesK (customers.map fun c => c.customer_id) (0 * 25) s).1
        (choicesK (customers.map fun c => c.customer_id) (0 * 25) s).2).1 = []
      rw [this]
      rfl
    rw [hnil] at hi
    exact absurd hi (List.not_mem_nil i)

/-! ## Seed interactions -/

theorem mkSeedInteraction_ref {cids pids : List Nat} (now : Int) (c : Customer)
    (seedPids : List Nat) (s : Streams) (hc : c.customer_id ∈ cids)
    (hne : seedPids ≠ []) (hsub : ∀ x ∈ seedPids, x ∈ pids) :
    ((mkSeedInteraction now c seedPids s).1).customer_id ∈ cids ∧
    ((mkSeedInteraction now c seedPids s).1).product_id ∈ pids := by
  refine ⟨hc, ?_⟩
  have he : seedPids.isEmpty = false := by
    cases seedPids
    · exact absurd rfl hne
    · rfl
  show ((if seedPids.isEmpty = true then s.uuid4
      else (((s.choice seedPids).1).getD 0, (s.choice seedPids).2)).1) ∈ pids
  rw [he]
  simp only [Bool.false_eq_true, if_false]
  exact hsub _ (choice_mem_getD hne 0)

theorem seedInterInner_ref {cids pids : List Nat} (now : Int) (c : Customer)
    (seedPids : List Nat) (hc : c.customer_id ∈ cids)
    (hne : seedPids ≠ []) (hsub : ∀ x ∈ seedPids, x ∈ pids) :
    ∀ (n : Nat) (s : Streams), ∀ i ∈ (seedInterInner now c seedPids n s).1,
      i.customer_id ∈ cids ∧ i.product_id ∈ pids := by
  intro n
  induction n with
  | zero => intro s i hi; simp [seedInterInner] at hi
  | succ n ih =>
    intro s i hi
    have hsplit : (seedInterInner now c seedPids (n + 1) s).1 =
        (mkSeedInteraction now c seedPids s).1 ::
        (seedInterInner now c seedPids n (mkSeedInteraction now c seedPids s).2).1 := rfl
    rw [hsplit] at hi
    rcases List.mem_cons.mp hi with rfl | hi
    · exact mkSeedInteraction_ref now c seedPids s hc hne hsub
    · exact ih _ i hi

theorem seedInterLoop_ref {cids pids : List Nat} (now : Int) (seedPids : List Nat)
    (hne : seedPids ≠ []) (hsub : ∀ x ∈ seedPids, x ∈ pids) :
    ∀ (cs : List Customer) (s : Streams), (∀ c ∈ cs, c.customer_id ∈ cids) →
      ∀ i ∈ (seedInterLoop now seedPids cs s).1,
        i.customer_id ∈ cids ∧ i.product_id ∈ pids := by
  intro cs
  induction cs with
  | nil => intro s _ i hi; simp [seedInterLoop] at hi
  | cons c rest ih =>
    intro s hcs i hi
    have hsplit : (seedInterLoop now seedPids (c :: rest) s).1 =
        (seedInterInner now c seedPids ((s.randint 5 10).1).toNat (s.randint 5 10).2).1 ++
        (seedInterLoop now seedPids rest
          (seedInterInner now c seedPids ((s.randint 5 10).1).toNat
            (s.randint 5 10).2).2).1 := rfl
    rw [hsplit] at hi
    rcases List.mem_append.mp hi with hi | hi
    · exact seedInterInner_ref now c seedPids (hcs c (List.mem_cons_self _ _))
        hne hsub _ _ i hi
    · exact ih _ (fun x hx => hcs x (List.mem_cons_of_mem _ hx)) i hi

/-! ## Length facts and the C1 assembly -/

theorem bulkCustLoop_length (w : List ℚ) (now : Int) :
    ∀ (n i : Nat) (s : Streams), ((bulkCustLoop w now i n s).1).length = n := by
  intro n
  induction n with
  | zero => intro i s; rfl
  | succ n ih =>
    intro i s
    have hsplit : (bulkCustLoop w now i (n + 1) s).1 =
        (mkBulkCustomerW w now i s).1 ::
        (bulkCustLoop w now (i + 1) n (mkBulkCustomerW w now i s).2).1 := rfl
    rw [hsplit, List.length_cons, ih]

theorem bulkProdLoop_length (now : Int) :
    ∀ (n i : Nat) (s : Streams), ((bulkProdLoop now i n s).1).length = n := by
  intro n
  induction n with
  | zero => intro i s; rfl
  | succ n ih =>
    intro i s
    have hsplit : (bulkProdLoop now i (n + 1) s).1 =
        (mkBulkProduct now i s).1 ::
        (bulkProdLoop now (i + 1) n (mkBulkProduct now i s).2).1 := rfl
    rw [hsplit, List.length_cons, ih]

theorem seedProdLoop_length (now : Int) (cat br : String) (mn mx : ℚ) :
    ∀ (n i : Nat) (s : Streams), ((seedProdLoop now cat br mn mx i n s).1).length = n := by
  intro n
  induction n with
  | zero => intro i s; rfl
  | succ n ih =>
    intro i s
    have hsplit : (seedProdLoop now cat br mn mx i (n + 1) s).1 =
        (mkSeedProduct now cat br mn mx i s).1 ::
        (seedProdLoop now cat br mn mx (i + 1) n
          (mkSeedProduct now cat br mn mx i s).2).1 := rfl
    rw [hsplit, List.length_cons, ih]

theorem seedProdConfigs_length (now : Int) :
    ∀ (cfgs : List (String × String × Nat × ℚ × ℚ)) (s : Streams),
      ((seedProdConfigs now cfgs s).1).length = (cfgs.map fun c => c.2.2.1).sum := by
  intro cfgs
  induction cfgs with
  | nil => intro s; rfl
  | cons cfg rest ih =>
    intro s
    rcases cfg with ⟨cat, br, count, mn, mx⟩
    have hsplit : (seedProdConfigs now ((cat, br, count, mn, mx) :: rest) s).1 =
        (seedProdLoop now cat br mn mx 0 count s).1 ++
        (seedProdConfigs now rest (seedProdLoop now cat br mn mx 0 count s).2).1 := rfl
    rw [hsplit, List.length_append, seedProdLoop_length, ih]
    simp [List.sum_cons]

/-- The seed catalogue holds exactly 45 products. -/
theorem generate_seed_products_length (now : Int) (s : Streams) :
    ((generate_seed_products now s).1).length = 45 := by
  show ((seedProdConfigs now product_configs s).1).length = 45
  rw [seedProdConfigs_length]
  rfl

theorem product_count_pos (scale : Nat) : 0 < product_count scale := by
  unfold product_count
  split
  · omega
  · split <;> omega

theorem ref_integrity_of (ds : Dataset)
    (h1 : ∀ t ∈ ds.transactions,
      refOkTxn (ds.customers.map fun c => c.customer_id)
        (ds.products.map fun p => p.product_id) t)
    (h2 : ∀ i ∈ ds.interactions,
      i.customer_id ∈ (ds.customers.map fun c => c.customer_id) ∧
      i.product_id ∈ (ds.products.map fun p => p.product_id)) :
    ref_integrity ds = true := by
  unfold ref_integrity
  rw [Bool.and_eq_true]
  constructor <;> rw [List.all_eq_true]
  · intro t ht
    rcases h1 t ht with ⟨hc, hp⟩
    rw [Bool.and_eq_true]
    exact ⟨decide_eq_true hc, decide_eq_true hp⟩
  · intro i hi
    rcases h2 i hi with ⟨hc, hp⟩
    rw [Bool.and_eq_true]
    exact ⟨decide_eq_true hc, decide_eq_true hp⟩

theorem mem_map_append_left {α β : Type} (f : α → β) {x : β} {l1 l2 : List α}
    (h : x ∈ l1.map f) : x ∈ (l1 ++ l2).map f := by
  rw [List.map_append]
  exact List.mem_append_left _ h

theorem mem_map_append_right {α β : Type} (f : α → β) {x : β} {l1 l2 : List α}
    (h : x ∈ l2.map f) : x ∈ (l1 ++ l2).map f := by
  rw [List.map_append]
  exact List.mem_append_right _ h

theorem generate_customers_length (now : Int) (scale : Nat) (s : Streams) :
    ((generate_customers now scale s).1).length = scale :=
  bulkCustLoop_length segment_weights now scale 0 s

theorem generate_products_length (now : Int) (count : Nat) (s : Streams) :
    ((generate_products now count s).1).length = count :=
  bulkProdLoop_length now count 0 s

set_option maxHeartbeats 1000000 in
/-- C1: in the final merged output of `generate_all`, every transaction
and every interaction references a customer_id present in the final
customers table and a product_id present in the final products table. -/
theorem c1_referential_integrity (now : Int) (scale : Nat) (include_seeds : Bool)
    (s : Streams) :
    ref_integrity (generate_all now scale include_seeds s).1 = true := by
  cases include_seeds with
  | false =>
    have hbulkNE : ∀ (sx : Streams),
        ((generate_customers now scale sx).1.map fun x => x.1) ≠ [] ∨ scale = 0 := by
      intro sx
      rcases Nat.eq_zero_or_pos scale with h0 | hpos
      · exact Or.inr h0
      · refine Or.inl ?_
        intro hnil
        have hl := congrArg List.length hnil
        rw [List.length_map, generate_customers_length, List.length_nil] at hl
        omega
    have hbulkPNE : ∀ (sx : Streams),
        (generate_products now (product_count scale) sx).1 ≠ [] := by
      intro sx hnil
      have hl := congrArg List.length hnil
      rw [generate_products_length, List.length_nil] at hl
      have := product_count_pos scale
      omega
    refine ref_integrity_of _ ?_ ?_
    · intro t ht
      rcases create_recommendation_chains_ref now _ _ _ 20 _ t ht with hin | hok
      · have h2 := generate_transactions_ref now _ _ _ _ _ t hin
        exact ⟨h2.1, h2.2⟩
      · exact ⟨hok.1, hok.2⟩
    · intro i hi
      have h2 := generate_interactions_ref now scale _ _ _ (hbulkNE _) (hbulkPNE _) i hi
      exact ⟨h2.1, h2.2⟩
  | true =>
    refine ref_integrity_of _ ?_ ?_
    · intro t ht
      unfold generate_all at ht ⊢
      simp only [reduceIte] at ht ⊢
      obtain ⟨seedTriples, s1, hE1⟩ : ∃ a b, generate_seed_customers now s = (a, b) :=
        ⟨_, _, rfl⟩
      rw [hE1] at ht ⊢; dsimp only at ht ⊢
      obtain ⟨seedPs, s2, hE2⟩ : ∃ a b, generate_seed_products now s1 = (a, b) :=
        ⟨_, _, rfl⟩
      rw [hE2] at ht ⊢; dsimp only at ht ⊢
      obtain ⟨seedTx, s3, hE3⟩ : ∃ a b, generate_seed_transactions now
          (seedTriples.map fun x => x.1) seedPs s2 = (a, b) := ⟨_, _, rfl⟩
      rw [hE3] at ht ⊢; dsimp only at ht ⊢
      obtain ⟨seedIn, s4, hE4⟩ : ∃ a b, generate_seed_interactions now
          (seedTriples.map fun x => x.1) (seedPs.map fun p => p.product_id) s3 =
          (a, b) := ⟨_, _, rfl⟩
      rw [hE4] at ht ⊢; dsimp only at ht ⊢
      obtain ⟨bulkTriples, s5, hE5⟩ : ∃ a b, generate_customers now scale s4 = (a, b) :=
        ⟨_, _, rfl⟩
      rw [hE5] at ht ⊢; dsimp only at ht ⊢
      obtain ⟨bulkPs, s6, hE6⟩ : ∃ a b, generate_products now (product_count scale) s5 =
          (a, b) := ⟨_, _, rfl⟩
      rw [hE6] at ht ⊢; dsimp only at ht ⊢
      rcases List.mem_append.mp ht with ht | ht
      · have h2 := generate_seed_transactions_ref now (seedTriples.map fun x => x.1)
          seedPs s2 t (by rw [hE3]; exact ht)
        exact ⟨mem_map_append_left _ h2.1, mem_map_append_left _ h2.2⟩
      · rcases create_recommendation_chains_ref now (bulkTriples.map fun x => x.1)
          bulkPs _ 20 _ t ht with hin | hok
        · have h2 := generate_transactions_ref now (bulkTriples.map fun x => x.1)
            bulkPs _ _ _ t hin
          exact ⟨mem_map_append_right _ h2.1, mem_map_append_right _ h2.2⟩
        · exact ⟨mem_map_append_right _ hok.1, mem_map_append_right _ hok.2⟩
    · intro i hi
      unfold generate_all at hi ⊢
      simp only [reduceIte] at hi ⊢
      obtain ⟨seedTriples, s1, hE1⟩ : ∃ a b, generate_seed_customers now s = (a, b) :=
        ⟨_, _, rfl⟩
      rw [hE1] at hi ⊢; dsimp only at hi ⊢
      obtain ⟨seedPs, s2, hE2⟩ : ∃ a b, generate_seed_products now s1 = (a, b) :=
        ⟨_, _, rfl⟩
      rw [hE2] at hi ⊢; dsimp only at hi ⊢
      obtain ⟨seedTx, s3, hE3⟩ : ∃ a b, generate_seed_transactions now
          (seedTriples.map fun x => x.1) seedPs s2 = (a, b) := ⟨_, _, rfl⟩
      rw [hE3] at hi ⊢; dsimp only at hi ⊢
      obtain ⟨seedIn, s4, hE4⟩ : ∃ a b, generate_seed_interactions now
          (seedTriples.map fun x => x.1) (seedPs.map fun p => p.product_id) s3 =
          (a, b) := ⟨_, _, rfl⟩
      rw [hE4] at hi ⊢; dsimp only at hi ⊢
      obtain ⟨bulkTriples, s5, hE5⟩ : ∃ a b, generate_customers now scale s4 = (a, b) :=
        ⟨_, _, rfl⟩
      rw [hE5] at hi ⊢; dsimp only at hi ⊢
      obtain ⟨bulkPs, s6, hE6⟩ : ∃ a b, generate_products now (product_count scale) s5 =
          (a, b) := ⟨_, _, rfl⟩
      rw [hE6] at hi ⊢; dsimp only at hi ⊢
      rcases List.mem_append.mp hi with hi | hi
      · have hne : (seedPs.map fun p => p.product_id) ≠ [] := by
          intro hnil
          have hl := congrArg List.length hnil
          have hps : seedPs = (generate_seed_products now s1).1 := by rw [hE2]
          rw [List.length_map, hps, generate_seed_products_length, List.length_nil] at hl
          omega
        have hsi : seedIn = (generate_seed_interactions now
            (seedTriples.map fun x => x.1) (seedPs.map fun p => p.product_id) s3).1 := by
          rw [hE4]
        rw [hsi] at hi
        have h2 := seedInterLoop_ref now _ hne (fun x hx => hx) _ _
          (fun c hc => mem_cid_map hc) i hi
        exact ⟨mem_map_append_left _ h2.1, mem_map_append_left _ h2.2⟩
      · have hcne : (bulkTriples.map fun x => x.1) ≠ [] ∨ scale = 0 := by
          rcases Nat.eq_zero_or_pos scale with h0 | hpos
          · exact Or.inr h0
          · refine Or.inl ?_
            intro hnil
            have hl := congrArg List.length hnil
            have hbt : bulkTriples = (generate_customers now scale s4).1 := by rw [hE5]
            rw [List.length_map, hbt, generate_customers_length, List.length_nil] at hl
            omega
        have hpne : bulkPs ≠ [] := by
          intro hnil
          have hl := congrArg List.length hnil
          have hbp : bulkPs = (generate_products now (product_count scale) s5).1 := by
            rw [hE6]
          rw [hbp, generate_products_length, List.length_nil] at hl
          have := product_count_pos scale
          omega
        have h2 := generate_interactions_ref now scale _ _ _ hcne hpne i hi
        exact ⟨mem_map_append_right _ h2.1, mem_map_append_right _ h2.2⟩

/-! ## C2: reproducibility under a fixed seed -/

/-- C2 (code evaluation at the failing input): two runs with identical
seeded streams — the same master seed and identical configuration — but
different OS entropy behind `uuid.uuid4` produce different customer
tables: the generated `customer_id` values come from `uuid.uuid4()`,
which `random.seed(seed)` does not control, so the outputs are not
byte-identical across reruns. -/
theorem c2_same_seed_different_output :
    ((generate_seed_customers 0 (runStreams 0)).1.map fun x => x.1.customer_id) ≠
    ((generate_seed_customers 0 (runStreams 1)).1.map fun x => x.1.customer_id) := by
  decide

/-! ## C4: the brand-loyalty pattern -/

theorem seedProdLoop_all (now : Int) (cat br : String) (mn mx : ℚ) :
    ∀ (n i : Nat) (s : Streams), ∀ p ∈ (seedProdLoop now cat br mn mx i n s).1,
      p.category = cat ∧ p.brand = br := by
  intro n
  induction n with
  | zero => intro i s p hp; simp [seedProdLoop] at hp
  | succ n ih =>
    intro i s p hp
    have hsplit : (seedProdLoop now cat br mn mx i (n + 1) s).1 =
        (mkSeedProduct now cat br mn mx i s).1 ::
        (seedProdLoop now cat br mn mx (i + 1) n
          (mkSeedProduct now cat br mn mx i s).2).1 := rfl
    rw [hsplit] at hp
    rcases List.mem_cons.mp hp with rfl | hp
    · exact ⟨rfl, rfl⟩
    · exact ih _ _ p hp

theorem seedProductsCB_configs_length (now : Int) (cat2 br2 : String) :
    ∀ (cfgs : List (String × String × Nat × ℚ × ℚ)) (s : Streams),
      (seedProductsCB (seedProdConfigs now cfgs s).1 cat2 br2).length =
      ((cfgs.filter fun c => c.1 == cat2 && c.2.1 == br2).map fun c => c.2.2.1).sum := by
  intro cfgs
  induction cfgs with
  | nil => intro s; rfl
  | cons cfg rest ih =>
    intro s
    rcases cfg with ⟨cat, br, count, mn, mx⟩
    have hsplit : (seedProdConfigs now ((cat, br, count, mn, mx) :: rest) s).1 =
        (seedProdLoop now cat br mn mx 0 count s).1 ++
        (seedProdConfigs now rest (seedProdLoop now cat br mn mx 0 count s).2).1 := rfl
    rw [hsplit]
    unfold seedProductsCB
    rw [List.filter_append, List.length_append]
    by_cases h : cat = cat2 ∧ br = br2
    · have hself : ((seedProdLoop now cat br mn mx 0 count s).1.filter
          fun p => p.category == cat2 && p.brand == br2) =
          (seedProdLoop now cat br mn mx 0 count s).1 := by
        apply List.filter_eq_self.mpr
        intro p hp
        rcases seedProdLoop_all now cat br mn mx count 0 s p hp with ⟨h1, h2⟩
        rw [Bool.and_eq_true, beq_iff_eq, beq_iff_eq]
        exact ⟨h1.trans h.1, h2.trans h.2⟩
      rw [hself, seedProdLoop_length]
      have hcfg : ((cat, br, count, mn, mx) :: rest).filter
          (fun c => c.1 == cat2 && c.2.1 == br2) =
          (cat, br, count, mn, mx) :: rest.filter (fun c => c.1 == cat2 && c.2.1 == br2) := by
        rw [List.filter_cons_of_pos]
        rw [Bool.and_eq_true, beq_iff_eq, beq_iff_eq]
        exact h
      rw [hcfg, List.map_cons, List.sum_cons]
      have := ih (seedProdLoop now cat br mn mx 0 count s).2
      unfold seedProductsCB at this
      rw [this]
    · have hnil : ((seedProdLoop now cat br mn mx 0 count s).1.filter
          fun p => p.category == cat2 && p.brand == br2) = [] := by
        apply List.filter_eq_nil_iff.mpr
        intro p hp
        rcases seedProdLoop_all now cat br mn mx count 0 s p hp with ⟨h1, h2⟩
        rw [Bool.and_eq_true, beq_iff_eq, beq_iff_eq]
        rintro ⟨hc, hb⟩
        exact h ⟨h1.symm.trans hc, h2.symm.trans hb⟩
      rw [hnil]
      have hcfg : ((cat, br, count, mn, mx) :: rest).filter
          (fun c => c.1 == cat2 && c.2.1 == br2) =
          rest.filter (fun c => c.1 == cat2 && c.2.1 == br2) := by
        rw [List.filter_cons_of_neg]
        rw [Bool.and_eq_true, beq_iff_eq, beq_iff_eq]
        exact h
      rw [hcfg]
      have := ih (seedProdLoop now cat br mn mx 0 count s).2
      unfold seedProductsCB at this
      rw [this, List.length_nil, Nat.zero_add]

/-- The seed catalogue holds exactly five Apple Electronics products. -/
theorem apple_seed_length (now : Int) (s : Streams) :
    (seedProductsCB (generate_seed_products now s).1 "Electronics" "Apple").length = 5 := by
  show (seedProductsCB (seedProdConfigs now product_configs s).1 "Electronics" "Apple").length = 5
  rw [seedProductsCB_configs_length]
  rfl

theorem pattern1_inner_length (now : Int) (c : Customer) :
    ∀ (ps : List Product) (s : Streams), ((pattern1_inner now c ps s).1).length = ps.length := by
  intro ps
  induction ps with
  | nil => intro s; rfl
  | cons p rest ih =>
    intro s
    have hsplit : (pattern1_inner now c (p :: rest) s).1 =
        (create_txn now c p (some (s.randint 10 60).1) (s.randint 10 60).2).1 ::
        (pattern1_inner now c rest
          (create_txn now c p (some (s.randint 10 60).1) (s.randint 10 60).2).2).1 := rfl
    rw [hsplit, List.length_cons, ih]
    rfl

theorem pattern1_inner_all_pred (now : Int) (c : Customer) (pool : List Product) :
    ∀ (ps : List Product) (s : Streams), (∀ p ∈ ps, p ∈ pool) →
      ∀ t ∈ (pattern1_inner now c ps s).1,
        (decide (t.customer_id = c.customer_id) &&
         decide (t.product_id ∈ pool.map fun p => p.product_id)) = true := by
  intro ps
  induction ps with
  | nil => intro s _ t ht; simp [pattern1_inner] at ht
  | cons p rest ih =>
    intro s hsub t ht
    have hsplit : (pattern1_inner now c (p :: rest) s).1 =
        (create_txn now c p (some (s.randint 10 60).1) (s.randint 10 60).2).1 ::
        (pattern1_inner now c rest
          (create_txn now c p (some (s.randint 10 60).1) (s.randint 10 60).2).2).1 := rfl
    rw [hsplit] at ht
    rcases List.mem_cons.mp ht with rfl | ht
    · rw [Bool.and_eq_true]
      constructor
      · exact decide_eq_true rfl
      · exact decide_eq_true (mem_pid_map (hsub p (List.mem_cons_self _ _)))
    · exact ih _ (fun q hq => hsub q (List.mem_cons_of_mem _ hq)) t ht

theorem pattern1_loop_count (now : Int) (apple : List Product)
    (hlen : 3 ≤ apple.length) :
    ∀ (cs : List Customer) (s : Streams), ∀ c ∈ cs,
      3 ≤ (pattern1_loop now apple cs s).1.countP
        (fun t => decide (t.customer_id = c.customer_id) &&
                  decide (t.product_id ∈ apple.map fun p => p.product_id)) := by
  intro cs
  induction cs with
  | nil => intro s c hc; simp at hc
  | cons c0 rest ih =>
    intro s c hc
    have hsplit : (pattern1_loop now apple (c0 :: rest) s).1 =
        (pattern1_inner now c0 (apple.take 3) s).1 ++
        (pattern1_loop now apple rest (pattern1_inner now c0 (apple.take 3) s).2).1 := rfl
    rw [hsplit, List.countP_append]
    rcases List.mem_cons.mp hc with rfl | hc
    · have hall := pattern1_inner_all_pred now c apple (apple.take 3) s
        (fun p hp => List.take_subset _ _ hp)
      have hcount : (pattern1_inner now c (apple.take 3) s).1.countP
          (fun t => decide (t.customer_id = c.customer_id) &&
                    decide (t.product_id ∈ apple.map fun p => p.product_id)) =
          ((pattern1_inner now c (apple.take 3) s).1).length := by
        rw [List.countP_eq_length]
        exact hall
      rw [hcount, pattern1_inner_length, List.length_take]
      omega
    · have := ih (pattern1_inner now c0 (apple.take 3) s).2 c hc
      omega

set_option maxHeartbeats 1000000 in
/-- C4: after pattern injection, each of the five designated top-segment
(VIP) seed customers has at least three seed transactions on Apple seed
products, and every product of that pool carries the designated brand. -/
theorem c4_vip_brand_loyalty (now : Int) (s : Streams) :
    ((((seedCustomersSeg ((generate_seed_customers now s).1.map fun x => x.1) "VIP").take 5).all
      fun c => decide (3 ≤ txn_count_on
        (generate_seed_transactions now
          ((generate_seed_customers now s).1.map fun x => x.1)
          (generate_seed_products now (generate_seed_customers now s).2).1
          (generate_seed_products now (generate_seed_customers now s).2).2).1
        (seedProductsCB
          (generate_seed_products now (generate_seed_customers now s).2).1
          "Electronics" "Apple") c)) = true) ∧
    (((seedProductsCB (generate_seed_products now (generate_seed_customers now s).2).1
        "Electronics" "Apple").all fun p => p.brand == "Apple") = true) := by
  constructor
  · rw [List.all_eq_true]
    intro c hc
    rw [decide_eq_true_eq]
    unfold txn_count_on
    have hlen : 3 ≤ (seedProductsCB
        (generate_seed_products now (generate_seed_customers now s).2).1
        "Electronics" "Apple").length := by
      rw [apple_seed_length]
      omega
    generalize hCs : ((generate_seed_customers now s).1.map fun x => x.1) = seedCs at hc ⊢
    generalize hPs2 : generate_seed_products now (generate_seed_customers now s).2 = ps2
      at hlen ⊢
    unfold generate_seed_transactions
    dsimp only
    obtain ⟨t1, sA, hT1⟩ : ∃ a b, pattern1_loop now
        (seedProductsCB ps2.1 "Electronics" "Apple")
        ((seedCustomersSeg seedCs "VIP").take 5) ps2.2 = (a, b) := ⟨_, _, rfl⟩
    rw [hT1]
    dsimp only
    simp only [List.countP_append]
    have h3 := pattern1_loop_count now (seedProductsCB ps2.1 "Electronics" "Apple")
      hlen ((seedCustomersSeg seedCs "VIP").take 5) ps2.2 c hc
    rw [hT1] at h3
    dsimp only at h3
    omega
  · rw [List.all_eq_true]
    intro p hp
    have := List.of_mem_filter hp
    rw [Bool.and_eq_true] at this
    exact this.2

/-! ## C5: basket windows -/

theorem randint_bounds (s : Streams) (lo hi : Int) (h : lo ≤ hi) :
    lo ≤ (s.randint lo hi).1 ∧ (s.randint lo hi).1 ≤ hi := by
  have hval : (s.randint lo hi).1 = lo + ((nextRnd s).1 : Int) % (hi - lo + 1) := rfl
  have hne : (hi - lo + 1) ≠ 0 := by omega
  have hpos : 0 < hi - lo + 1 := by omega
  have h1 := Int.emod_nonneg ((nextRnd s).1 : Int) hne
  have h2 := Int.emod_lt_of_pos ((nextRnd s).1 : Int) hpos
  rw [hval]
  omega

theorem pattern6_inner_ts (now : Int) (c : Customer) (base : Int) :
    ∀ (ps : List Product) (i : Nat) (s : Streams),
      ∀ t ∈ (pattern6_inner now c base i ps s).1,
        ∃ j, i ≤ j ∧ j < i + ps.length ∧
          t.timestamp = base + dayMinutes (2 * (j : Int)) := by
  intro ps
  induction ps with
  | nil => intro i s t ht; simp [pattern6_inner] at ht
  | cons p rest ih =>
    intro i s t ht
    have hsplit : (pattern6_inner now c base i (p :: rest) s).1 =
        ({ (create_txn now c p none s).1 with
            timestamp := base + dayMinutes (2 * (i : Int)) }) ::
        (pattern6_inner now c base (i + 1) rest (create_txn now c p none s).2).1 := rfl
    rw [hsplit] at ht
    rcases List.mem_cons.mp ht with rfl | ht
    · exact ⟨i, le_refl i, by simp, rfl⟩
    · obtain ⟨j, h1, h2, h3⟩ := ih (i + 1) _ t ht
      refine ⟨j, by omega, ?_, h3⟩
      rw [List.length_cons]
      omega

set_option maxHeartbeats 400000 in
theorem pattern6_one_within7 (now : Int) (adidas : List Product) (c : Customer)
    (s : Streams) : pairwiseWithinDays 7 (pattern6_one now adidas c s).1 = true := by
  have hout : (pattern6_one now adidas c s).1 =
      (pattern6_inner now c (now - dayMinutes (s.randint 30 60).1) 0
        (sampleAux (min 3 adidas.length) adidas (s.randint 30 60).2).1
        (sampleAux (min 3 adidas.length) adidas (s.randint 30 60).2).2).1 := rfl
  have hplen : (sampleAux (min 3 adidas.length) adidas (s.randint 30 60).2).1.length ≤ 3 :=
    le_trans (sampleAux_length_le _ _ _) (min_le_left _ _)
  unfold pairwiseWithinDays
  rw [hout, List.all_eq_true]
  intro a ha
  rw [List.all_eq_true]
  intro b hb
  obtain ⟨ja, hja0, hja, hjaEq⟩ := pattern6_inner_ts now c _ _ 0 _ a ha
  obtain ⟨jb, hjb0, hjb, hjbEq⟩ := pattern6_inner_ts now c _ _ 0 _ b hb
  rw [decide_eq_true_eq, hjaEq, hjbEq]
  unfold dayMinutes
  constructor <;> [skip; skip] <;> omega

theorem basketItemsLoop_ts (now : Int) (pd : List Product) (cid : Nat)
    (mult : ℚ) (primary : Txn) :
    ∀ (kws : List String) (s : Streams),
      ∀ b ∈ (basketItemsLoop now pd cid mult primary kws s).1,
        primary.timestamp ≤ b.timestamp ∧
        b.timestamp ≤ primary.timestamp + dayMinutes 7 := by
  intro kws
  induction kws with
  | nil => intro s b hb; simp [basketItemsLoop] at hb
  | cons kw rest ih =>
    intro s b hb
    simp only [basketItemsLoop] at hb
    by_cases he : (pd.filter (fun (p : Product) => strContains p.name kw)).isEmpty
    · rw [if_pos he] at hb
      exact ih _ b hb
    · rw [if_neg he] at hb
      rcases hbp : (s.choice (pd.filter (fun (p : Product) => strContains p.name kw))).1
        with _ | bp
      all_goals rw [show s.choice (pd.filter (fun (p : Product) => strContains p.name kw)) =
        ((s.choice (pd.filter (fun (p : Product) => strContains p.name kw))).1,
         (s.choice (pd.filter (fun (p : Product) => strContains p.name kw))).2) from rfl,
        hbp] at hb
      · exact ih _ b hb
      · dsimp only at hb
        rcases List.mem_append.mp hb with hb | hb
        · rcases List.mem_singleton.mp hb with rfl
          have hd := randint_bounds
            ((s.choice (pd.filter (fun (p : Product) => strContains p.name kw))).2) 0 7
            (by omega)
          constructor
          · show primary.timestamp ≤ primary.timestamp + dayMinutes
              (((s.choice (pd.filter (fun (p : Product) =>
                strContains p.name kw))).2.randint 0 7).1)
            unfold dayMinutes
            omega
          · show primary.timestamp + dayMinutes
              (((s.choice (pd.filter (fun (p : Product) =>
                strContains p.name kw))).2.randint 0 7).1) ≤
              primary.timestamp + dayMinutes 7
            unfold dayMinutes
            omega
        · exact ih _ b hb

theorem basket_for_txn_ts (now : Int) (pd : List Product) (cid : Nat)
    (mult : ℚ) (primary : Txn) (pname : String) (s : Streams) :
    ∀ b ∈ (basket_for_txn now pd cid mult primary pname s).1,
      primary.timestamp ≤ b.timestamp ∧
      b.timestamp ≤ primary.timestamp + dayMinutes 7 := by
  intro b hb
  simp only [basket_for_txn] at hb
  by_cases he : (_get_product_basket pname).isEmpty
  · rw [if_pos he] at hb
    exact absurd hb (List.not_mem_nil b)
  · rw [if_neg he] at hb
    split at hb
    · exact basketItemsLoop_ts now pd cid mult primary _ _ b hb
    · exact absurd hb (List.not_mem_nil b)

/-- C5: every seed basket block (pattern 6) has its transactions pairwise
within 7 days, and every bulk companion basket transaction lies 0 to 7
days after its originating transaction. -/
theorem c5_basket_seven_day_window :
    (∀ (now : Int) (adidas : List Product) (c : Customer) (s : Streams),
      pairwiseWithinDays 7 (pattern6_one now adidas c s).1 = true) ∧
    (∀ (now : Int) (pd : List Product) (cid : Nat) (mult : ℚ) (primary : Txn)
        (pname : String) (s : Streams),
      (basket_for_txn now pd cid mult primary pname s).1.all
        (fun b => decide (primary.timestamp ≤ b.timestamp ∧
                          b.timestamp ≤ primary.timestamp + dayMinutes 7)) = true) := by
  constructor
  · intro now adidas c s
    exact pattern6_one_within7 now adidas c s
  · intro now pd cid mult primary pname s
    rw [List.all_eq_true]
    intro b hb
    exact decide_eq_true (basket_for_txn_ts now pd cid mult primary pname s b hb)

/-! ## C10: statuses -/

/-- All transactions of a list carry status `completed`. -/
def SC (l : List Txn) : Prop := ∀ t ∈ l, t.status = "completed"

theorem SC_nil : SC [] := by intro t ht; simp at ht

theorem pattern1_inner_SC (now : Int) (c : Customer) :
    ∀ (ps : List Product) (s : Streams), SC (pattern1_inner now c ps s).1 := by
  intro ps
  induction ps with
  | nil => intro s; exact SC_nil
  | cons p rest ih =>
    intro s t ht
    have hsplit : (pattern1_inner now c (p :: rest) s).1 =
        (create_txn now c p (some (s.randint 10 60).1) (s.randint 10 60).2).1 ::
        (pattern1_inner now c rest
          (create_txn now c p (some (s.randint 10 60).1) (s.randint 10 60).2).2).1 := rfl
    rw [hsplit] at ht
    rcases List.mem_cons.mp ht with rfl | ht
    · rfl
    · exact ih _ t ht

theorem pattern1_loop_SC (now : Int) (apple : List Product) :
    ∀ (cs : List Customer) (s : Streams), SC (pattern1_loop now apple cs s).1 := by
  intro cs
  induction cs with
  | nil => intro s; exact SC_nil
  | cons c rest ih =>
    intro s t ht
    have hsplit : (pattern1_loop now apple (c :: rest) s).1 =
        (pattern1_inner now c (apple.take 3) s).1 ++
        (pattern1_loop now apple rest (pattern1_inner now c (apple.take 3) s).2).1 := rfl
    rw [hsplit] at ht
    rcases List.mem_append.mp ht with ht | ht
    · exact pattern1_inner_SC now c _ _ t ht
    · exact ih _ t ht

theorem pattern2_SC (now : Int) (vips : List Customer) (samsung : List Product)
    (s : Streams) : SC (pattern2 now vips samsung s).1 := by
  intro t ht
  rcases vips with _ | ⟨c0, _ | ⟨c1, _ | ⟨c2, _ | ⟨c3, crest⟩⟩⟩⟩ <;>
    rcases samsung with _ | ⟨p0, _ | ⟨p1, _ | ⟨p2, prest⟩⟩⟩ <;>
    simp only [pattern2] at ht <;>
    try exact absurd ht (List.not_mem_nil t)
  simp only [List.mem_cons, List.not_mem_nil, or_false] at ht
  rcases ht with rfl | rfl | rfl | rfl | rfl | rfl <;> rfl

theorem pattern3_inner_SC (now : Int) (c : Customer) :
    ∀ (ps : List Product) (s : Streams), SC (pattern3_inner now c ps s).1 := by
  intro ps
  induction ps with
  | nil => intro s; exact SC_nil
  | cons p rest ih =>
    intro s t ht
    have hsplit : (pattern3_inner now c (p :: rest) s).1 =
        (create_txn now c p none s).1 ::
        (pattern3_inner now c rest (create_txn now c p none s).2).1 := rfl
    rw [hsplit] at ht
    rcases List.mem_cons.mp ht with rfl | ht
    · rfl
    · exact ih _ t ht

theorem pattern3_loop_SC (now : Int) (sony : List Product) :
    ∀ (cs : List Customer) (s : Streams), SC (pattern3_loop now sony cs s).1 := by
  intro cs
  induction cs with
  | nil => intro s; exact SC_nil
  | cons c rest ih =>
    intro s t ht
    have hsplit : (pattern3_loop now sony (c :: rest) s).1 =
        (pattern3_inner now c (sony.take (s.randint 2 3).1.toNat) (s.randint 2 3).2).1 ++
        (pattern3_loop now sony rest
          (pattern3_inner now c (sony.take (s.randint 2 3).1.toNat) (s.randint 2 3).2).2).1 := rfl
    rw [hsplit] at ht
    rcases List.mem_append.mp ht with ht | ht
    · exact pattern3_inner_SC now c _ _ t ht
    · exact ih _ t ht

theorem pattern4_one_SC (now : Int) (clothing home : List Product) (c : Customer)
    (s : Streams) : SC (pattern4_one now clothing home c s).1 := by
  intro t ht
  rcases clothing with _ | ⟨p, ps⟩ <;> rcases home with _ | ⟨q, qs⟩ <;>
    simp only [pattern4_one, List.nil_append, List.append_nil] at ht
  · exact absurd ht (List.not_mem_nil t)
  · rcases List.mem_singleton.mp ht with rfl; rfl
  · rcases List.mem_singleton.mp ht with rfl; rfl
  · simp only [List.mem_append, List.mem_singleton] at ht
    rcases ht with rfl | rfl <;> rfl

theorem pattern4_loop_SC (now : Int) (clothing home : List Product) :
    ∀ (cs : List Customer) (s : Streams), SC (pattern4_loop now clothing home cs s).1 := by
  intro cs
  induction cs with
  | nil => intro s; exact SC_nil
  | cons c rest ih =>
    intro s t ht
    have hsplit : (pattern4_loop now clothing home (c :: rest) s).1 =
        (pattern4_one now clothing home c s).1 ++
        (pattern4_loop now clothing home rest (pattern4_one now clothing home c s).2).1 := rfl
    rw [hsplit] at ht
    rcases List.mem_append.mp ht with ht | ht
    · exact pattern4_one_SC now clothing home c s t ht
    · exact ih _ t ht

theorem randomTxnFromPool_SC (now : Int) (c : Customer) (pool : List Product)
    (s : Streams) : SC (randomTxnFromPool now c pool s).1 := by
  intro t ht
  unfold randomTxnFromPool at ht
  by_cases he : pool.isEmpty
  · rw [if_pos he] at ht
    exact absurd ht (List.not_mem_nil t)
  · rw [if_neg he] at ht
    rcases hchoice : (s.choice pool).1 with _ | p
    all_goals rw [show (s.choice pool) = ((s.choice pool).1, (s.choice pool).2) from rfl,
      hchoice] at ht
    · exact absurd ht (List.not_mem_nil t)
    · rcases List.mem_singleton.mp ht with rfl; rfl

theorem pattern5_one_SC (now : Int) (clothing home : List Product) (c : Customer)
    (s : Streams) : SC (pattern5_one now clothing home c s).1 := by
  intro t ht
  have hsplit : (pattern5_one now clothing home c s).1 =
      (randomTxnFromPool now c clothing s).1 ++
      (randomTxnFromPool now c home (randomTxnFromPool now c clothing s).2).1 := rfl
  rw [hsplit] at ht
  rcases List.mem_append.mp ht with ht | ht
  · exact randomTxnFromPool_SC now c clothing s t ht
  · exact randomTxnFromPool_SC now c home _ t ht

theorem pattern5_custLoop_SC (now : Int) (clothing home : List Product) :
    ∀ (cs : List Customer) (s : Streams), SC (pattern5_custLoop now clothing home cs s).1 := by
  intro cs
  induction cs with
  | nil => intro s; exact SC_nil
  | cons c rest ih =>
    intro s t ht
    have hsplit : (pattern5_custLoop now clothing home (c :: rest) s).1 =
        (pattern5_one now clothing home c s).1 ++
        (pattern5_custLoop now clothing home rest (pattern5_one now clothing home c s).2).1 := rfl
    rw [hsplit] at ht
    rcases List.mem_append.mp ht with ht | ht
    · exact pattern5_one_SC now clothing home c s t ht
    · exact ih _ t ht

theorem pattern5_SC (now : Int) (clothing home : List Product) (seedCs : List Customer)
    (s : Streams) : SC (pattern5 now clothing home seedCs s).1 := by
  intro t ht
  have hsplit : (pattern5 now clothing home seedCs s).1 =
      (pattern5_custLoop now clothing home
        (((seedCustomersSeg seedCs "VIP").drop 8).take 2) s).1 ++
      (pattern5_custLoop now clothing home
        (((seedCustomersSeg seedCs "Premium").drop 8).take 2)
        (pattern5_custLoop now clothing home
          (((seedCustomersSeg seedCs "VIP").drop 8).take 2) s).2).1 := rfl
  rw [hsplit] at ht
  rcases List.mem_append.mp ht with ht | ht
  · exact pattern5_custLoop_SC now clothing home _ _ t ht
  · exact pattern5_custLoop_SC now clothing home _ _ t ht

theorem pattern6_inner_SC (now : Int) (c : Customer) (base : Int) :
    ∀ (ps : List Product) (i : Nat) (s : Streams), SC (pattern6_inner now c base i ps s).1 := by
  intro ps
  induction ps with
  | nil => intro i s; exact SC_nil
  | cons p rest ih =>
    intro i s t ht
    have hsplit : (pattern6_inner now c base i (p :: rest) s).1 =
        ({ (create_txn now c p none s).1 with
            timestamp := base + dayMinutes (2 * (i : Int)) }) ::
        (pattern6_inner now c base (i + 1) rest (create_txn now c p none s).2).1 := rfl
    rw [hsplit] at ht
    rcases List.mem_cons.mp ht with rfl | ht
    · rfl
    · exact ih _ _ t ht

theorem pattern6_one_SC (now : Int) (adidas : List Product) (c : Customer)
    (s : Streams) : SC (pattern6_one now adidas c s).1 := by
  intro t ht
  exact pattern6_inner_SC now c _ _ 0 _ t ht

theorem pattern6_loop_SC (now : Int) (adidas : List Product) :
    ∀ (cs : List Customer) (s : Streams), SC (pattern6_loop now adidas cs s).1 := by
  intro cs
  induction cs with
  | nil => intro s; exact SC_nil
  | cons c rest ih =>
    intro s t ht
    have hsplit : (pattern6_loop now adidas (c :: rest) s).1 =
        (pattern6_one now adidas c s).1 ++
        (pattern6_loop now adidas rest (pattern6_one now adidas c s).2).1 := rfl
    rw [hsplit] at ht
    rcases List.mem_append.mp ht with ht | ht
    · exact pattern6_one_SC now adidas c s t ht
    · exact ih _ t ht

theorem pattern7_emit_SC (now : Int) (ccs : List Customer) (cps : List Product) :
    ∀ (edges : List (Nat × Nat)) (s : Streams), SC (pattern7_emit now ccs cps edges s).1 := by
  intro edges
  induction edges with
  | nil => intro s; exact SC_nil
  | cons e rest ih =>
    intro s t ht
    simp only [pattern7_emit] at ht
    rcases h1 : ccs.get? e.1 with _ | c <;> rcases h2 : cps.get? e.2 with _ | p <;>
      rw [h1, h2] at ht
    · exact ih _ t ht
    · exact ih _ t ht
    · exact ih _ t ht
    · rcases List.mem_cons.mp ht with rfl | ht
      · rfl
      · exact ih _ t ht

theorem pattern7_chain_SC (now : Int) (seedCs : List Customer) (aps : List Product)
    (s : Streams) : SC (pattern7_chain now seedCs aps s).1 := by
  intro t ht
  simp only [pattern7_chain] at ht
  rcases hE1 : sampleAux 3 ["VIP", "Premium", "Regular"] s with ⟨segs, s1⟩
  rw [hE1] at ht; dsimp only at ht
  rcases hE2 : pickChainCustomers seedCs segs s1 with ⟨ccs, s2⟩
  rw [hE2] at ht; dsimp only at ht
  have hcont : ∀ (ccs2 : List Customer) (s4 : Streams),
      ∀ t2 ∈ (if ccs2.length < 4 then (([] : List Txn), s4)
        else if aps.length < 3 then (([] : List Txn), s4)
        else pattern7_emit now ccs2 (sampleAux 3 aps s4).1 chain_pattern
          (sampleAux 3 aps s4).2).1, t2.status = "completed" := by
    intro ccs2 s4 t2 ht2
    by_cases h4 : ccs2.length < 4
    · rw [if_pos h4] at ht2; exact absurd ht2 (List.not_mem_nil t2)
    · rw [if_neg h4] at ht2
      by_cases h5 : aps.length < 3
      · rw [if_pos h5] at ht2; exact absurd ht2 (List.not_mem_nil t2)
      · rw [if_neg h5] at ht2
        exact pattern7_emit_SC now ccs2 _ chain_pattern _ t2 ht2
  by_cases h3 : ccs.length < 3
  · rw [if_pos h3] at ht; exact absurd ht (List.not_mem_nil t)
  · rw [if_neg h3] at ht
    rcases hE3 : s2.choice ["VIP", "Premium", "Regular"] with ⟨eSeg?, s3⟩
    rw [hE3] at ht; dsimp only at ht
    rcases eSeg? with _ | seg
    · exact hcont ccs s3 t ht
    · dsimp only at ht
      by_cases hse : (seedCustomersSeg seedCs seg).isEmpty
      · rw [if_pos hse] at ht
        exact hcont ccs s3 t ht
      · rw [if_neg hse] at ht
        rcases hE4 : s3.choice (seedCustomersSeg seedCs seg) with ⟨c?, s4⟩
        rw [hE4] at ht; dsimp only at ht
        rcases c? with _ | c
        · exact hcont ccs s4 t ht
        · dsimp only at ht
          exact hcont (ccs ++ [c]) s4 t ht

theorem pattern7_chains_SC (now : Int) (seedCs : List Customer) (aps : List Product) :
    ∀ (n : Nat) (s : Streams), SC (pattern7_chains now seedCs aps n s).1 := by
  intro n
  induction n with
  | zero => intro s; exact SC_nil
  | succ n ih =>
    intro s t ht
    have hsplit : (pattern7_chains now seedCs aps (n + 1) s).1 =
        (pattern7_chain now seedCs aps s).1 ++
        (pattern7_chains now seedCs aps n (pattern7_chain now seedCs aps s).2).1 := rfl
    rw [hsplit] at ht
    rcases List.mem_append.mp ht with ht | ht
    · exact pattern7_chain_SC now seedCs aps s t ht
    · exact ih _ t ht

theorem pattern8_one_SC (now : Int) (apple samsung : List Product) (c : Customer)
    (s : Streams) : SC (pattern8_one now apple samsung c s).1 := by
  intro t ht
  exact pattern3_inner_SC now c _ _ t ht

theorem pattern8_loop_SC (now : Int) (apple samsung : List Product) :
    ∀ (cs : List Customer) (s : Streams), SC (pattern8_loop now apple samsung cs s).1 := by
  intro cs
  induction cs with
  | nil => intro s; exact SC_nil
  | cons c rest ih =>
    intro s t ht
    have hsplit : (pattern8_loop now apple samsung (c :: rest) s).1 =
        (pattern8_one now apple samsung c s).1 ++
        (pattern8_loop now apple samsung rest (pattern8_one now apple samsung c s).2).1 := rfl
    rw [hsplit] at ht
    rcases List.mem_append.mp ht with ht | ht
    · exact pattern8_one_SC now apple samsung c s t ht
    · exact ih _ t ht

set_option maxHeartbeats 1000000 in
theorem pattern9_one_SC (now : Int) (apple clothing books sports beauty : List Product)
    (c : Customer) (s : Streams) :
    SC (pattern9_one now apple clothing books sports beauty c s).1 := by
  intro t ht
  have hsplit : (pattern9_one now apple clothing books sports beauty c s).1 =
      (randomTxnFromPool now c apple s).1 ++
      (randomTxnFromPool now c clothing (randomTxnFromPool now c apple s).2).1 ++
      (randomTxnFromPool now c books
        (randomTxnFromPool now c clothing (randomTxnFromPool now c apple s).2).2).1 ++
      (randomTxnFromPool now c sports
        (randomTxnFromPool now c books
          (randomTxnFromPool now c clothing (randomTxnFromPool now c apple s).2).2).2).1 ++
      (randomTxnFromPool now c beauty
        (randomTxnFromPool now c sports
          (randomTxnFromPool now c books
            (randomTxnFromPool now c clothing
              (randomTxnFromPool now c apple s).2).2).2).2).1 := rfl
  rw [hsplit] at ht
  simp only [List.mem_append] at ht
  rcases ht with ((((ht | ht) | ht) | ht) | ht) <;>
    exact randomTxnFromPool_SC now c _ _ t ht

theorem pattern9_loop_SC (now : Int) (apple clothing books sports beauty : List Product) :
    ∀ (cs : List Customer) (s : Streams),
      SC (pattern9_loop now apple clothing books sports beauty cs s).1 := by
  intro cs
  induction cs with
  | nil => intro s; exact SC_nil
  | cons c rest ih =>
    intro s t ht
    have hsplit : (pattern9_loop now apple clothing books sports beauty (c :: rest) s).1 =
        (pattern9_one now apple clothing books sports beauty c s).1 ++
        (pattern9_loop now apple clothing books sports beauty rest
          (pattern9_one now apple clothing books sports beauty c s).2).1 := rfl
    rw [hsplit] at ht
    rcases List.mem_append.mp ht with ht | ht
    · exact pattern9_one_SC now apple clothing books sports beauty c s t ht
    · exact ih _ t ht

theorem pattern10_one_SC (now : Int) (wayfair adidas : List Product) (c : Customer)
    (s : Streams) : SC (pattern10_one now wayfair adidas c s).1 := by
  intro t ht
  have hsplit : (pattern10_one now wayfair adidas c s).1 =
      (randomTxnFromPool now c wayfair s).1 ++
      (randomTxnFromPool now c adidas (randomTxnFromPool now c wayfair s).2).1 := rfl
  rw [hsplit] at ht
  rcases List.mem_append.mp ht with ht | ht <;>
    exact randomTxnFromPool_SC now c _ _ t ht

theorem pattern10_custLoop_SC (now : Int) (wayfair adidas : List Product) :
    ∀ (cs : List Customer) (s : Streams), SC (pattern10_custLoop now wayfair adidas cs s).1 := by
  intro cs
  induction cs with
  | nil => intro s; exact SC_nil
  | cons c rest ih =>
    intro s t ht
    have hsplit : (pattern10_custLoop now wayfair adidas (c :: rest) s).1 =
        (pattern10_one now wayfair adidas c s).1 ++
        (pattern10_custLoop now wayfair adidas rest
          (pattern10_one now wayfair adidas c s).2).1 := rfl
    rw [hsplit] at ht
    rcases List.mem_append.mp ht with ht | ht
    · exact pattern10_one_SC now wayfair adidas c s t ht
    · exact ih _ t ht

theorem pattern10_SC (now : Int) (wayfair adidas : List Product) (seedCs : List Customer)
    (s : Streams) : SC (pattern10 now wayfair adidas seedCs s).1 := by
  intro t ht
  have hsplit : (pattern10 now wayfair adidas seedCs s).1 =
      (pattern10_custLoop now wayfair adidas
        ((seedCustomersSeg seedCs "Basic").take 5) s).1 ++
      (pattern10_custLoop now wayfair adidas
        ((seedCustomersSeg seedCs "New").take 5)
        (pattern10_custLoop now wayfair adidas
          ((seedCustomersSeg seedCs "Basic").take 5) s).2).1 := rfl
  rw [hsplit] at ht
  rcases List.mem_append.mp ht with ht | ht <;>
    exact pattern10_custLoop_SC now wayfair adidas _ _ t ht

set_option maxHeartbeats 2000000 in
/-- Every seed transaction has status `completed`. -/
theorem generate_seed_transactions_SC (now : Int) (seedCs : List Customer)
    (seedPs : List Product) (s : Streams) :
    ∀ t ∈ (generate_seed_transactions now seedCs seedPs s).1, t.status = "completed" := by
  intro t ht
  rcases List.mem_append.mp ht with ht | ht
  rotate_left
  · exact pattern10_SC now _ _ seedCs _ t ht
  rcases List.mem_append.mp ht with ht | ht
  rotate_left
  · exact pattern9_loop_SC now _ _ _ _ _ _ _ t ht
  rcases List.mem_append.mp ht with ht | ht
  rotate_left
  · exact pattern8_loop_SC now _ _ _ _ t ht
  rcases List.mem_append.mp ht with ht | ht
  rotate_left
  · exact pattern7_chains_SC now seedCs seedPs 5 _ t ht
  rcases List.mem_append.mp ht with ht | ht
  rotate_left
  · exact pattern6_loop_SC now _ _ _ t ht
  rcases List.mem_append.mp ht with ht | ht
  rotate_left
  · exact pattern5_SC now _ _ seedCs _ t ht
  rcases List.mem_append.mp ht with ht | ht
  rotate_left
  · exact pattern4_loop_SC now _ _ _ _ t ht
  rcases List.mem_append.mp ht with ht | ht
  rotate_left
  · exact pattern3_loop_SC now _ _ _ t ht
  rcases List.mem_append.mp ht with ht | ht
  · exact pattern1_loop_SC now _ _ _ t ht
  · exact pattern2_SC now _ _ _ t ht

theorem basketItemsLoop_SC (now : Int) (pd : List Product) (cid : Nat) (mult : ℚ)
    (primary : Txn) : ∀ (kws : List String) (s : Streams),
    SC (basketItemsLoop now pd cid mult primary kws s).1 := by
  intro kws
  induction kws with
  | nil => intro s; exact SC_nil
  | cons kw rest ih =>
    intro s t ht
    simp only [basketItemsLoop] at ht
    by_cases he : (pd.filter (fun (p : Product) => strContains p.name kw)).isEmpty
    · rw [if_pos he] at ht
      exact ih _ t ht
    · rw [if_neg he] at ht
      rcases hbp : (s.choice (pd.filter (fun (p : Product) => strContains p.name kw))).1
        with _ | bp
      all_goals rw [show s.choice (pd.filter (fun (p : Product) => strContains p.name kw)) =
        ((s.choice (pd.filter (fun (p : Product) => strContains p.name kw))).1,
         (s.choice (pd.filter (fun (p : Product) => strContains p.name kw))).2) from rfl,
        hbp] at ht
      · exact ih _ t ht
      · dsimp only at ht
        rcases List.mem_append.mp ht with ht | ht
        · rcases List.mem_singleton.mp ht with rfl; rfl
        · exact ih _ t ht

theorem basket_for_txn_SC (now : Int) (pd : List Product) (cid : Nat) (mult : ℚ)
    (primary : Txn) (pname : String) (s : Streams) :
    SC (basket_for_txn now pd cid mult primary pname s).1 := by
  intro t ht
  simp only [basket_for_txn] at ht
  by_cases he : (_get_product_basket pname).isEmpty
  · rw [if_pos he] at ht
    exact absurd ht (List.not_mem_nil t)
  · rw [if_neg he] at ht
    split at ht
    · exact basketItemsLoop_SC now pd cid mult primary _ _ t ht
    · exact absurd ht (List.not_mem_nil t)

theorem cross_for_txn_SC (now : Int) (pd : List Product) (cid : Nat) (mult : ℚ)
    (excl : List String) (t0 : Txn) (s : Streams) :
    SC (cross_for_txn now pd cid mult excl t0 s).1 := by
  intro t ht
  simp only [cross_for_txn] at ht
  split at ht
  · split at ht
    next current heq =>
      split at ht
      · exact absurd ht (List.not_mem_nil t)
      · rcases hac : ((s.random).2.choice
            (_get_category_affinity_categories current.category)).1 with _ | ac
        all_goals rw [show (s.random).2.choice
            (_get_category_affinity_categories current.category) =
          (((s.random).2.choice (_get_category_affinity_categories current.category)).1,
           ((s.random).2.choice (_get_category_affinity_categories current.category)).2)
          from rfl, hac] at ht
        · exact absurd ht (List.not_mem_nil t)
        · dsimp only at ht
          split at ht
          · rcases hcp : (((s.random).2.choice
                (_get_category_affinity_categories current.category)).2.choice
                (products_by_category pd ac)).1 with _ | cp
            all_goals rw [show ((s.random).2.choice
                (_get_category_affinity_categories current.category)).2.choice
                (products_by_category pd ac) =
              ((((s.random).2.choice
                  (_get_category_affinity_categories current.category)).2.choice
                  (products_by_category pd ac)).1,
               (((s.random).2.choice
                  (_get_category_affinity_categories current.category)).2.choice
                  (products_by_category pd ac)).2) from rfl, hcp] at ht
            · exact absurd ht (List.not_mem_nil t)
            · rcases List.mem_singleton.mp ht with rfl; rfl
          · exact absurd ht (List.not_mem_nil t)
    next heq => exact absurd ht (List.not_mem_nil t)
  · exact absurd ht (List.not_mem_nil t)

theorem chainStep_SC (now : Int) (existing : List Txn) (c : Customer) (p : Product)
    (base : Int) (s : Streams) : SC (chainStep now existing c p base s).1 := by
  intro t ht
  unfold chainStep at ht
  split at ht
  · exact absurd ht (List.not_mem_nil t)
  · rcases List.mem_singleton.mp ht with rfl; rfl

theorem emit_chain_SC (now : Int) (ccs : List Customer) (cps : List Product)
    (existing : List Txn) (base : Int) :
    ∀ (edges : List (Nat × Nat)) (s : Streams),
      SC (emit_chain now ccs cps existing base edges s).1 := by
  intro edges
  induction edges with
  | nil => intro s; exact SC_nil
  | cons e rest ih =>
    intro s t ht
    simp only [emit_chain] at ht
    rcases h1 : ccs.get? e.1 with _ | c <;> rcases h2 : cps.get? e.2 with _ | p <;>
      rw [h1, h2] at ht
    · exact ih _ t ht
    · exact ih _ t ht
    · exact ih _ t ht
    · rcases List.mem_append.mp ht with ht | ht
      · exact chainStep_SC now existing c p base _ t ht
      · exact ih _ t ht

theorem status_pick_mem (u : ℚ) : status_pick u ∈ statusList := by
  unfold status_pick
  rcases h : statusList.get? (choicesIdx statusWeights u) with _ | x
  · rw [Option.getD_none]
    exact List.mem_cons_self _ _
  · rw [Option.getD_some]
    exact List.get?_mem h

theorem mkBulkTxn_status_mem (now : Int) (cid : Nat) (mult : ℚ) (p : Product)
    (s : Streams) : (mkBulkTxn now cid mult p s).1.status ∈ statusList := by
  obtain ⟨u, hu⟩ : ∃ u, (mkBulkTxn now cid mult p s).1.status = status_pick u :=
    ⟨_, rfl⟩
  rw [hu]
  exact status_pick_mem u

/-- `random.choices(['completed','cancelled'], weights=[0.9, 0.1])[0]` picks
`cancelled` exactly when the unit draw lands in the top tenth. -/
theorem status_pick_eq (u : ℚ) :
    status_pick u = if 9/10 ≤ u then "cancelled" else "completed" := by
  have hsum : statusWeights.sum = 1 := by norm_num [statusWeights]
  have hcum : cumWeights statusWeights = [90/100, 90/100 + 10/100] := rfl
  have hc2 : (90/100 + 10/100 : ℚ) = 1 := by norm_num
  unfold status_pick choicesIdx
  rw [hsum, hcum, hc2]
  simp only [List.countP_cons, List.countP_nil, mul_one]
  by_cases h : (9/10 : ℚ) ≤ u
  · rw [if_pos h]
    have e1 : decide ((90/100 : ℚ) ≤ u) = true := by
      rw [decide_eq_true_eq]; linarith
    rw [e1]
    by_cases h2 : (1 : ℚ) ≤ u
    · have e2 : decide ((1 : ℚ) ≤ u) = true := by
        rw [decide_eq_true_eq]; exact h2
      rw [e2]; rfl
    · have e2 : decide ((1 : ℚ) ≤ u) = false := by
        rw [decide_eq_false_iff_not]; exact h2
      rw [e2]; rfl
  · rw [if_neg h]
    have e1 : decide ((90/100 : ℚ) ≤ u) = false := by
      rw [decide_eq_false_iff_not]; intro hle; exact h (by linarith)
    have e2 : decide ((1 : ℚ) ≤ u) = false := by
      rw [decide_eq_false_iff_not]; intro hle; exact h (by linarith)
    rw [e1, e2]; rfl

theorem draw_status_eq (s : Streams) :
    (draw_status s).1 =
      if 900000 ≤ s.rnd.stream s.rnd.pos % unitDenom then "cancelled"
      else "completed" := by
  have h : (draw_status s).1 =
      status_pick (((s.rnd.stream s.rnd.pos % unitDenom : Nat) : ℚ) /
        ((unitDenom : Nat) : ℚ)) := rfl
  rw [h, status_pick_eq]
  have key : ((9 : ℚ)/10 ≤ ((s.rnd.stream s.rnd.pos % unitDenom : Nat) : ℚ) /
      ((unitDenom : Nat) : ℚ)) ↔ 900000 ≤ s.rnd.stream s.rnd.pos % unitDenom := by
    simp only [unitDenom]
    rw [le_div_iff₀ (by norm_num : (0:ℚ) < ((1000000 : Nat) : ℚ))]
    constructor
    · intro hle
      have h9 : (900000 : ℚ) ≤ ((s.rnd.stream s.rnd.pos % 1000000 : Nat) : ℚ) := by
        push_cast at hle ⊢
        linarith
      exact_mod_cast h9
    · intro hle
      have h9 : (900000 : ℚ) ≤ ((s.rnd.stream s.rnd.pos % 1000000 : Nat) : ℚ) := by
        exact_mod_cast hle
      push_cast at h9 ⊢
      linarith
  by_cases hge : 900000 ≤ s.rnd.stream s.rnd.pos % unitDenom
  · rw [if_pos (key.mpr hge), if_pos hge]
  · rw [if_neg (fun hc => hge (key.mp hc)), if_neg hge]

/-- C10: every seed-pattern transaction, bulk basket companion,
cross-category companion and recommendation-chain transaction carries
status `completed`; a primary bulk transaction's status is drawn from
`{completed, cancelled}`, landing on `cancelled` exactly when the unit
draw of `random.choices` with weights 0.9/0.1 falls in the top tenth. -/
theorem c10_status_invariants :
    (∀ (now : Int) (seedCs : List Customer) (seedPs : List Product) (s : Streams),
      (generate_seed_transactions now seedCs seedPs s).1.all
        (fun t => t.status == "completed") = true) ∧
    (∀ (now : Int) (pd : List Product) (cid : Nat) (mult : ℚ) (primary : Txn)
        (pname : String) (s : Streams),
      (basket_for_txn now pd cid mult primary pname s).1.all
        (fun t => t.status == "completed") = true) ∧
    (∀ (now : Int) (pd : List Product) (cid : Nat) (mult : ℚ) (excl : List String)
        (t0 : Txn) (s : Streams),
      (cross_for_txn now pd cid mult excl t0 s).1.all
        (fun t => t.status == "completed") = true) ∧
    (∀ (now : Int) (ccs : List Customer) (cps : List Product) (existing : List Txn)
        (base : Int) (edges : List (Nat × Nat)) (s : Streams),
      (emit_chain now ccs cps existing base edges s).1.all
        (fun t => t.status == "completed") = true) ∧
    (∀ (now : Int) (cid : Nat) (mult : ℚ) (p : Product) (s : Streams),
      (mkBulkTxn now cid mult p s).1.status = "completed" ∨
      (mkBulkTxn now cid mult p s).1.status = "cancelled") ∧
    (∀ (s : Streams),
      (draw_status s).1 =
        if 900000 ≤ s.rnd.stream s.rnd.pos % unitDenom then "cancelled"
        else "completed") := by
  refine ⟨?_, ?_, ?_, ?_, ?_, ?_⟩
  · intro now seedCs seedPs s
    simp only [List.all_eq_true, beq_iff_eq]
    exact generate_seed_transactions_SC now seedCs seedPs s
  · intro now pd cid mult primary pname s
    simp only [List.all_eq_true, beq_iff_eq]
    exact basket_for_txn_SC now pd cid mult primary pname s
  · intro now pd cid mult excl t0 s
    simp only [List.all_eq_true, beq_iff_eq]
    exact cross_for_txn_SC now pd cid mult excl t0 s
  · intro now ccs cps existing base edges s
    simp only [List.all_eq_true, beq_iff_eq]
    exact emit_chain_SC now ccs cps existing base edges s
  · intro now cid mult p s
    have h := mkBulkTxn_status_mem now cid mult p s
    simp only [statusList, List.mem_cons, List.not_mem_nil, or_false] at h
    exact h
  · exact draw_status_eq

/-! ## C6: category exclusions and recommendation chains -/

/-- C6: `create_recommendation_chains` never consults the category
exclusion dictionary: with customer 3 excluding `Electronics` (as
`_should_exclude_category` assigns), a chain still gives customer 3 an
`Electronics` transaction (product 102, the `Electronics` product
`elecProdFix 2`), contradicting the guarantee that an excluded category
is never purchased from. -/
theorem c6_exclusion_violated_by_chains :
    dict_get_excl gapExclusions 3 = ["Electronics"] ∧
    (elecProdFix 2).category = "Electronics" ∧
    ((create_recommendation_chains 0
        [vipCustFix 0, vipCustFix 1, vipCustFix 2, vipCustFix 3]
        [elecProdFix 0, elecProdFix 1, elecProdFix 2] [] 20 zeroStreams).1.any
      (fun t => t.customer_id == 3 && t.product_id == 102)) = true :=
  ⟨rfl, rfl, by decide⟩

/-! ## C3: the collaborative-filtering chain edges -/

/-- The (customer, product) pairs a chain's edge list denotes, an edge
with an out-of-range index contributing nothing. -/
def edgePairs (ccs : List Customer) (cps : List Product)
    (edges : List (Nat × Nat)) : List (Nat × Nat) :=
  edges.filterMap (fun e =>
    match ccs.get? e.1, cps.get? e.2 with
    | some c, some p => some (c.customer_id, p.product_id)
    | _, _ => none)

theorem chainStep_false_map (now base : Int) (existing : List Txn) (c : Customer)
    (p : Product) (s : Streams)
    (hx : existsPair existing c.customer_id p.product_id = false) :
    (chainStep now existing c p base s).1.map
      (fun t => (t.customer_id, t.product_id)) = [(c.customer_id, p.product_id)] := by
  unfold chainStep
  rw [hx]
  rfl

theorem emit_chain_map (now base : Int) (ccs : List Customer) (cps : List Product)
    (existing : List Txn) :
    ∀ (edges : List (Nat × Nat)) (s : Streams),
      (∀ e ∈ edges, ∀ c p, ccs.get? e.1 = some c → cps.get? e.2 = some p →
        existsPair existing c.customer_id p.product_id = false) →
      (emit_chain now ccs cps existing base edges s).1.map
        (fun t => (t.customer_id, t.product_id)) = edgePairs ccs cps edges := by
  intro edges
  induction edges with
  | nil => intro s h; rfl
  | cons e rest ih =>
    intro s h
    simp only [emit_chain]
    rcases h1 : ccs.get? e.1 with _ | c <;> rcases h2 : cps.get? e.2 with _ | p <;>
      dsimp only
    · have hE : edgePairs ccs cps (e :: rest) = edgePairs ccs cps rest := by
        simp only [edgePairs, List.filterMap_cons, h1, h2]
      rw [hE]
      exact ih _ (fun e2 he2 => h e2 (List.mem_cons_of_mem e he2))
    · have hE : edgePairs ccs cps (e :: rest) = edgePairs ccs cps rest := by
        simp only [edgePairs, List.filterMap_cons, h1, h2]
      rw [hE]
      exact ih _ (fun e2 he2 => h e2 (List.mem_cons_of_mem e he2))
    · have hE : edgePairs ccs cps (e :: rest) = edgePairs ccs cps rest := by
        simp only [edgePairs, List.filterMap_cons, h1, h2]
      rw [hE]
      exact ih _ (fun e2 he2 => h e2 (List.mem_cons_of_mem e he2))
    · have hE : edgePairs ccs cps (e :: rest) =
          (c.customer_id, p.product_id) :: edgePairs ccs cps rest := by
        simp only [edgePairs, List.filterMap_cons, h1, h2]
      rw [hE, List.map_append,
        chainStep_false_map now base existing c p s
          (h e (List.mem_cons_self e rest) c p h1 h2),
        ih _ (fun e2 he2 => h e2 (List.mem_cons_of_mem e he2))]
      rfl

/-- C3 counterexample: with the edge (C0, P0) already realised in the
transaction table, the chain's edge loop emits only 5 transactions, not
6 — `chainStep` skips any (customer, product) pair that pre-exists. -/
theorem c3_chain_skips_existing_pair :
    (emit_chain 0 [vipCustFix 0, vipCustFix 1, vipCustFix 2, vipCustFix 3]
      [elecProdFix 0, elecProdFix 1, elecProdFix 2] [preexistingTxn] 0
      chain_pattern zeroStreams).1.length = 5 := by decide

/-- C3 (amended): over 4 chain customers and 3 chain products the chain's
edge loop emits one transaction per `chain_pattern` edge — the pairs
(C0,P0),(C1,P0),(C1,P1),(C2,P1),(C2,P2),(C3,P2) in order, hence exactly
6 — provided no edge's (customer, product) pair already occurs in the
transaction table (a pre-existing pair's edge is skipped); the 4 chain
customers and the 3 chain products are pairwise distinct whenever the
pools `random.sample` draws them from are duplicate-free. -/
theorem c3_chain_edges (now base : Int) (c0 c1 c2 c3 : Customer)
    (p0 p1 p2 : Product) (existing : List Txn) (s : Streams)
    (h : ∀ e ∈ chain_pattern, ∀ c p,
      ([c0, c1, c2, c3].get? e.1) = some c → ([p0, p1, p2].get? e.2) = some p →
      existsPair existing c.customer_id p.product_id = false) :
    ((emit_chain now [c0, c1, c2, c3] [p0, p1, p2] existing base chain_pattern
        s).1.map (fun t => (t.customer_id, t.product_id)) =
      [(c0.customer_id, p0.product_id), (c1.customer_id, p0.product_id),
       (c1.customer_id, p1.product_id), (c2.customer_id, p1.product_id),
       (c2.customer_id, p2.product_id), (c3.customer_id, p2.product_id)]) ∧
    (∀ (pool : List Customer) (s2 : Streams), pool.Nodup →
      (sampleAux 4 pool s2).1.Nodup) ∧
    (∀ (pool : List Product) (s2 : Streams), pool.Nodup →
      (sampleAux 3 pool s2).1.Nodup) := by
  refine ⟨?_, fun pool s2 hn => sampleAux_nodup 4 pool s2 hn,
    fun pool s2 hn => sampleAux_nodup 3 pool s2 hn⟩
  rw [emit_chain_map now base _ _ existing chain_pattern s h]
  rfl

theorem c3_chain_edges_witness :
    ((emit_chain 0 [vipCustFix 0, vipCustFix 1, vipCustFix 2, vipCustFix 3]
        [elecProdFix 0, elecProdFix 1, elecProdFix 2] [] 0 chain_pattern
        zeroStreams).1.map (fun t => (t.customer_id, t.product_id)) =
      [(0, 100), (1, 100), (1, 101), (2, 101), (2, 102), (3, 102)]) := by
  have h := c3_chain_edges 0 0 (vipCustFix 0) (vipCustFix 1) (vipCustFix 2)
    (vipCustFix 3) (elecProdFix 0) (elecProdFix 1) (elecProdFix 2) [] zeroStreams
    (fun e he c p h1 h2 => rfl)
  exact h.1

/-! ## C7: weight vectors and `random.choices` -/

theorem cumWeights_map_mul (k : ℚ) :
    ∀ (ws : List ℚ), cumWeights (ws.map (fun w => k * w)) =
      (cumWeights ws).map (fun c => k * c) := by
  intro ws
  induction ws with
  | nil => rfl
  | cons w rest ih =>
    simp only [List.map_cons, cumWeights, ih, List.map_map]
    have hfun : ((fun c => k * w + c) ∘ fun c => k * c) =
        ((fun c => k * c) ∘ fun c => w + c) := by
      funext c
      simp only [Function.comp_apply]
      ring
    rw [hfun]

theorem sum_map_mul (k : ℚ) :
    ∀ (ws : List ℚ), (ws.map (fun w => k * w)).sum = k * ws.sum := by
  intro ws
  induction ws with
  | nil => simp
  | cons w rest ih =>
    simp only [List.map_cons, List.sum_cons, ih, mul_add]

theorem choicesIdx_scale (k : ℚ) (hk : 0 < k) (ws : List ℚ) (u : ℚ) :
    choicesIdx (ws.map (fun w => k * w)) u = choicesIdx ws u := by
  unfold choicesIdx
  rw [cumWeights_map_mul, sum_map_mul, List.countP_map, List.length_map]
  have hcount : ∀ (l : List ℚ),
      l.countP ((fun c => decide (c ≤ u * (k * ws.sum))) ∘ fun c => k * c) =
      l.countP (fun c => decide (c ≤ u * ws.sum)) := by
    intro l
    apply List.countP_congr
    intro c hc
    simp only [Function.comp_apply, decide_eq_true_eq]
    rw [mul_comm u (k * ws.sum), mul_assoc, mul_comm ws.sum u]
    exact mul_le_mul_left hk
  rw [hcount]

theorem mkBulkCustomerW_scale (k : ℚ) (hk : 0 < k) (ws : List ℚ) (now : Int)
    (i : Nat) (s : Streams) :
    mkBulkCustomerW (ws.map (fun w => k * w)) now i s = mkBulkCustomerW ws now i s := by
  simp only [mkBulkCustomerW, choicesIdx_scale k hk]

theorem bulkCustLoop_scale (k : ℚ) (hk : 0 < k) (ws : List ℚ) (now : Int) :
    ∀ (n i : Nat) (s : Streams),
      bulkCustLoop (ws.map (fun w => k * w)) now i n s = bulkCustLoop ws now i n s := by
  intro n
  induction n with
  | zero => intro i s; rfl
  | succ n ih =>
    intro i s
    calc bulkCustLoop (ws.map (fun w => k * w)) now i (n + 1) s
        = ((mkBulkCustomerW (ws.map (fun w => k * w)) now i s).1 ::
            (bulkCustLoop (ws.map (fun w => k * w)) now (i + 1) n
              (mkBulkCustomerW (ws.map (fun w => k * w)) now i s).2).1,
           (bulkCustLoop (ws.map (fun w => k * w)) now (i + 1) n
              (mkBulkCustomerW (ws.map (fun w => k * w)) now i s).2).2) := rfl
      _ = ((mkBulkCustomerW ws now i s).1 ::
            (bulkCustLoop ws now (i + 1) n (mkBulkCustomerW ws now i s).2).1,
           (bulkCustLoop ws now (i + 1) n (mkBulkCustomerW ws now i s).2).2) := by
          rw [mkBulkCustomerW_scale k hk, ih]
      _ = bulkCustLoop ws now i (n + 1) s := rfl

/-- One iteration of the bulk-customer loop drawn through the validating
`random.choices` model (`Streams.choicesW`): the weight total is checked
before the draw, and the raised `ValueError` propagates. -/
def mkBulkCustomerC (weights : List ℚ) (now : Int) (i : Nat) (s : Streams) :
    Except String ((Customer × Option String × List String) × Streams) :=
  match s.choicesW segmentsList weights with
  | Except.error e => Except.error e
  | Except.ok (seg?, s) =>
    let seg := seg?.getD "New"
    let (cid, s) := s.uuid4
    let (aff, s) := _assign_brand_affinity seg s
    let (excl, s) := _should_exclude_category seg s
    let (em, s) := s.fakeEmail
    let (nm, s) := s.fakeName
    let lr := ltv_ranges seg
    let (ltvU, s) := s.uniform lr.1 lr.2
    Except.ok
      (({ customer_id := cid
          email := em
          name := nm
          segment := seg
          ltv := round2 ltvU
          registration_date := _generate_monthly_cohort_date now i
          created_at := now }, aff, excl), s)

/-- The bulk-customer loop with the `random.choices` validation live: an
exception raised at any iteration aborts the loop. -/
def bulkCustLoopC (weights : List ℚ) (now : Int) :
    Nat → Nat → Streams →
      Except String (List (Customer × Option String × List String) × Streams)
  | _, 0, s => Except.ok ([], s)
  | i, n + 1, s =>
    match mkBulkCustomerC weights now i s with
    | Except.error e => Except.error e
    | Except.ok (x, s) =>
      match bulkCustLoopC weights now (i + 1) n s with
      | Except.error e => Except.error e
      | Except.ok (xs, s) => Except.ok (x :: xs, s)

/-- `generate_customers` with an explicit weight vector and the weight
validation of `random.choices` explicit. -/
def generate_customers_checked (weights : List ℚ) (now : Int) (scale : Nat)
    (s : Streams) :
    Except String (List (Customer × Option String × List String) × Streams) :=
  bulkCustLoopC weights now 0 scale s

theorem mkBulkCustomerC_pos (ws : List ℚ) (now : Int) (i : Nat) (s : Streams)
    (hpos : 0 < ws.sum) :
    mkBulkCustomerC ws now i s = Except.ok (mkBulkCustomerW ws now i s) := by
  unfold mkBulkCustomerC Streams.choicesW
  rw [if_neg (not_le.mpr hpos)]
  simp only [mkBulkCustomerW, List.getD_eq_getD_get?]

theorem mkBulkCustomerC_err (ws : List ℚ) (now : Int) (i : Nat) (s : Streams)
    (hnp : ws.sum ≤ 0) :
    mkBulkCustomerC ws now i s =
      Except.error "Total of weights must be greater than zero" := by
  unfold mkBulkCustomerC Streams.choicesW
  rw [if_pos hnp]

theorem bulkCustLoopC_pos (ws : List ℚ) (now : Int) (hpos : 0 < ws.sum) :
    ∀ (n i : Nat) (s : Streams),
      bulkCustLoopC ws now i n s = Except.ok (bulkCustLoop ws now i n s) := by
  intro n
  induction n with
  | zero => intro i s; rfl
  | succ n ih =>
    intro i s
    rw [bulkCustLoopC, mkBulkCustomerC_pos ws now i s hpos]
    dsimp only
    rw [ih (i + 1) ((mkBulkCustomerW ws now i s).2)]
    rfl

theorem generate_customers_checked_err (ws : List ℚ) (now : Int) (scale : Nat)
    (s : Streams) (hnp : ws.sum ≤ 0) (hs : 0 < scale) :
    generate_customers_checked ws now scale s =
      Except.error "Total of weights must be greater than zero" := by
  obtain ⟨n, rfl⟩ : ∃ n, scale = n + 1 := ⟨scale - 1, by omega⟩
  unfold generate_customers_checked
  rw [bulkCustLoopC, mkBulkCustomerC_err ws now 0 s hnp]

/-- C7 counterexample: a weight vector totalling 20 — nowhere near 1 —
is not reported as a configuration error: `random.choices`'s only check
(a positive total) passes, generation completes and produces its full
quota of entities with the weights silently renormalized. -/
theorem c7_bad_weights_no_error :
    badWeights.sum = 20 ∧
    generate_customers_checked badWeights 0 1 zeroStreams =
      Except.ok (generate_customers_w badWeights 0 1 zeroStreams) ∧
    (generate_customers_w badWeights 0 1 zeroStreams).1.length = 1 :=
  ⟨by norm_num [badWeights],
   bulkCustLoopC_pos badWeights 0 (by norm_num [badWeights]) 1 0 zeroStreams,
   bulkCustLoop_length badWeights 0 1 0 zeroStreams⟩

/-- C7 (amended): the only weight validation in the customer path is the
total check inside `random.choices` — a weight vector with positive
total, however far from summing to 1, is accepted and silently
renormalized: generation completes with exactly `scale` customers and
scaling every weight by a positive factor leaves the outcome (and the
stream state) unchanged; a vector with non-positive total makes
`random.choices` raise `ValueError` at the first customer, before any
entity is produced. -/
theorem c7_weights_silently_renormalized (k : ℚ) (ws ws0 : List ℚ)
    (now now0 : Int) (scale scale0 : Nat) (s s0 : Streams)
    (hk : 0 < k) (hpos : 0 < ws.sum) (hnp : ws0.sum ≤ 0) (hs0 : 0 < scale0) :
    (generate_customers_checked ws now scale s =
       Except.ok (generate_customers_w ws now scale s) ∧
     (generate_customers_w ws now scale s).1.length = scale ∧
     generate_customers_checked (ws.map (fun w => k * w)) now scale s =
       generate_customers_checked ws now scale s) ∧
    generate_customers_checked ws0 now0 scale0 s0 =
      Except.error "Total of weights must be greater than zero" := by
  refine ⟨⟨bulkCustLoopC_pos ws now hpos scale 0 s,
    bulkCustLoop_length ws now scale 0 s, ?_⟩,
    generate_customers_checked_err ws0 now0 scale0 s0 hnp hs0⟩
  have hpos2 : 0 < (ws.map (fun w => k * w)).sum := by
    rw [sum_map_mul]
    exact mul_pos hk hpos
  rw [show generate_customers_checked (ws.map (fun w => k * w)) now scale s =
      Except.ok (bulkCustLoop (ws.map (fun w => k * w)) now 0 scale s) from
    bulkCustLoopC_pos _ now hpos2 scale 0 s,
    show generate_customers_checked ws now scale s =
      Except.ok (bulkCustLoop ws now 0 scale s) from
    bulkCustLoopC_pos ws now hpos scale 0 s,
    bulkCustLoop_scale k hk ws now scale 0 s]

theorem c7_weights_witness :
    ((0 : ℚ) < 20 ∧ (0 : ℚ) < badWeights.sum ∧
      ([0, 0, 0, 0, 0] : List ℚ).sum ≤ 0 ∧ 0 < 1) ∧
    ((generate_customers_checked badWeights 0 1 zeroStreams =
        Except.ok (generate_customers_w badWeights 0 1 zeroStreams) ∧
      (generate_customers_w badWeights 0 1 zeroStreams).1.length = 1 ∧
      generate_customers_checked (badWeights.map (fun w => (20 : ℚ) * w)) 0 1
          zeroStreams =
        generate_customers_checked badWeights 0 1 zeroStreams) ∧
     generate_customers_checked [0, 0, 0, 0, 0] 0 1 zeroStreams =
       Except.error "Total of weights must be greater than zero") :=
  ⟨⟨by norm_num, by norm_num [badWeights], by simp, by decide⟩,
   c7_weights_silently_renormalized 20 badWeights [0, 0, 0, 0, 0] 0 0 1 1
     zeroStreams zeroStreams (by norm_num) (by norm_num [badWeights]) (by simp)
     (by decide)⟩

/-! ## C8: chunk-write failures, retries and the failed list -/

theorem load_one_go_allfail (ok : Nat → Bool) (rows delay : Nat)
    (h : ∀ b, ok b = false) :
    ∀ (r a : Nat), load_one_go ok rows delay a (r + 1) =
      (false, 0, 1, List.replicate r delay) := by
  intro r
  induction r with
  | zero =>
    intro a
    simp [load_one_go, h a]
  | succ r ih =>
    intro a
    rw [load_one_go, h a, if_neg (by simp : ¬(false = true)),
      if_neg (Nat.succ_ne_zero r), ih (a + 1)]
    simp [List.replicate_succ]

theorem load_one_batch_exhausted (ok : Nat → Bool) (rows A delay : Nat)
    (hA : 1 ≤ A) (h : ∀ b, ok b = false) :
    load_one_batch ok rows A delay =
      { inserted := 0, failedAppends := 2,
        sleeps := List.replicate (A - 1) delay } := by
  obtain ⟨r, rfl⟩ : ∃ r, A = r + 1 := ⟨A - 1, by omega⟩
  unfold load_one_batch
  rw [load_one_go_allfail ok rows delay h r 0]
  rfl

theorem load_one_go_sleeps (ok : Nat → Bool) (rows delay : Nat) :
    ∀ (r a : Nat),
      (load_one_go ok rows delay a r).2.2.2.length ≤ r - 1 ∧
      ∀ d ∈ (load_one_go ok rows delay a r).2.2.2, d = delay := by
  intro r
  induction r with
  | zero =>
    intro a
    constructor
    · simp [load_one_go]
    · intro d hd
      simp [load_one_go] at hd
  | succ r ih =>
    intro a
    cases hok : ok a with
    | true =>
      constructor
      · simp [load_one_go, hok]
      · intro d hd
        simp [load_one_go, hok] at hd
    | false =>
      cases r with
      | zero =>
        constructor
        · simp [load_one_go, hok]
        · intro d hd
          simp [load_one_go, hok] at hd
      | succ r2 =>
        have hsplit : load_one_go ok rows delay a (r2 + 1 + 1) =
            ((load_one_go ok rows delay (a + 1) (r2 + 1)).1,
             (load_one_go ok rows delay (a + 1) (r2 + 1)).2.1,
             (load_one_go ok rows delay (a + 1) (r2 + 1)).2.2.1,
             delay :: (load_one_go ok rows delay (a + 1) (r2 + 1)).2.2.2) := by
          rw [load_one_go, hok, if_neg (by simp : ¬(false = true)),
            if_neg (Nat.succ_ne_zero r2)]
        constructor
        · rw [hsplit]
          have hlen := (ih (a + 1)).1
          simp only [List.length_cons]
          omega
        · intro d hd
          rw [hsplit] at hd
          simp only [List.mem_cons] at hd
          rcases hd with rfl | hd
          · rfl
          · exact (ih (a + 1)).2 d hd

/-- C8 counterexample: in `save_data_in_batches` the very first failing
chunk write aborts the whole loop as a raised exception — no retry, no
failed-chunk list, and the remaining chunk of the table is never
written. -/
theorem c8_save_write_failure_aborts :
    save_chunks_go (fun _ => false) 0 cexChunks = Except.error 0 := rfl

/-- C8 (amended): `save_data_in_batches` does not retry — a chunk write
failure aborts the loop with no failed-chunk record; the bounded retry
with a fixed delay lives in the loader `load_batch_files`: a batch file
gets at most `retry_attempts` attempts separated by sleeps of exactly
`retry_delay` (hence at most `retry_attempts - 1` sleeps), an exhausted
file is appended to the failed list twice (once by the last-attempt
handler and once by the `if not success` guard) while the remaining
files are still processed, and the failed list is only logged — the
method returns `None`, nothing is returned to the caller. -/
theorem c8_no_save_retry_loader_retries (writeOk : Nat → Bool) (i : Nat)
    (c : BatchFile Nat) (cs : List (BatchFile Nat)) (ok ok2 : Nat → Bool)
    (rows A delay : Nat) (okF : String → Nat → Bool) (rowsOf : String → Nat)
    (f : String) (fs : List String) (tables : List (List String))
    (hw : writeOk i = false) (hA : 1 ≤ A) (hfail : ∀ b, ok b = false) :
    save_chunks_go writeOk i (c :: cs) = Except.error i ∧
    load_one_batch ok rows A delay =
      { inserted := 0, failedAppends := 2,
        sleeps := List.replicate (A - 1) delay } ∧
    ((load_one_batch ok2 rows A delay).sleeps.length ≤ A - 1 ∧
      ∀ d ∈ (load_one_batch ok2 rows A delay).sleeps, d = delay) ∧
    load_table_batches okF rowsOf A delay (f :: fs) =
      ((load_one_batch (okF f) (rowsOf f) A delay).inserted +
         (load_table_batches okF rowsOf A delay fs).1,
       List.replicate (load_one_batch (okF f) (rowsOf f) A delay).failedAppends f
         ++ (load_table_batches okF rowsOf A delay fs).2.1,
       (load_one_batch (okF f) (rowsOf f) A delay).sleeps ++
         (load_table_batches okF rowsOf A delay fs).2.2) ∧
    load_batch_files okF rowsOf A delay tables = () := by
  refine ⟨?_, load_one_batch_exhausted ok rows A delay hA hfail,
    ⟨(load_one_go_sleeps ok2 rows delay A 0).1,
     (load_one_go_sleeps ok2 rows delay A 0).2⟩, rfl, rfl⟩
  simp [save_chunks_go, hw]

theorem c8_no_save_retry_witness :
    ((fun _ => false : Nat → Bool) 0 = false ∧ 1 ≤ 3 ∧
      ∀ b, (fun _ => false : Nat → Bool) b = false) ∧
    (save_chunks_go (fun _ => false) 0 (oldChunk :: []) = Except.error 0 ∧
     load_one_batch (fun _ => false) 5 3 2 =
       { inserted := 0, failedAppends := 2, sleeps := List.replicate (3 - 1) 2 } ∧
     ((load_one_batch (fun _ => false) 5 3 2).sleeps.length ≤ 3 - 1 ∧
       ∀ d ∈ (load_one_batch (fun _ => false) 5 3 2).sleeps, d = 2) ∧
     load_table_batches (fun _ _ => false) (fun _ => 0) 3 2 ("x" :: []) =
       ((load_one_batch ((fun _ _ => false : String → Nat → Bool) "x")
           ((fun _ => 0 : String → Nat) "x") 3 2).inserted +
          (load_table_batches (fun _ _ => false) (fun _ => 0) 3 2 []).1,
        List.replicate (load_one_batch ((fun _ _ => false : String → Nat → Bool) "x")
            ((fun _ => 0 : String → Nat) "x") 3 2).failedAppends "x"
          ++ (load_table_batches (fun _ _ => false) (fun _ => 0) 3 2 []).2.1,
        (load_one_batch ((fun _ _ => false : String → Nat → Bool) "x")
            ((fun _ => 0 : String → Nat) "x") 3 2).sleeps ++
          (load_table_batches (fun _ _ => false) (fun _ => 0) 3 2 []).2.2) ∧
     load_batch_files (fun _ _ => false) (fun _ => 0) 3 2 [] = ()) :=
  ⟨⟨rfl, by decide, fun b => rfl⟩,
   c8_no_save_retry_loader_retries (fun _ => false) 0 oldChunk [] (fun _ => false)
     (fun _ => false) 5 3 2 (fun _ _ => false) (fun _ => 0) "x" [] []
     rfl (by decide) (fun b => rfl)⟩

/-! ## C9: skip-unless-overwrite and purge-before-write -/

/-- C9: when a table's directory already holds `.parquet` chunks, saving
with the overwrite flag unset leaves the directory exactly as it was
(nothing written), and saving with the flag set replaces the directory's
content with exactly the fresh chunk partition — never a mix of old and
new chunks. -/
theorem c9_save_overwrite_semantics {ρ : Type} (table : String) (batch_size : Nat)
    (dir : List (BatchFile ρ)) (rows : List ρ)
    (h : 0 < (dir.filter (fun f => isParquetName f.name)).length) :
    save_table_batches table batch_size false dir rows = dir ∧
    save_table_batches table batch_size true dir rows =
      chunksOf table batch_size rows := by
  constructor
  · simp only [save_table_batches]
    rw [if_pos h]
    simp
  · simp only [save_table_batches]
    rw [if_pos h]
    simp

theorem c9_save_overwrite_witness :
    0 < (([oldChunk].filter (fun f => isParquetName f.name)).length) ∧
    (save_table_batches "customers" 2 false [oldChunk] [1, 2, 3] = [oldChunk] ∧
     save_table_batches "customers" 2 true [oldChunk] [1, 2, 3] =
       chunksOf "customers" 2 [1, 2, 3]) :=
  ⟨by decide,
   c9_save_overwrite_semantics "customers" 2 [oldChunk] [1, 2, 3] (by decide)⟩
